import Mathlib

/-!
# ohm occupancy map: keys, ray integration, chunk store and GPU batching

A shallow embedding of the parts of `ohm/OccupancyMap.cpp` that deal with voxel
keys (`stepKey`, `rangeBetween`), voxel classification (`occupancyType`), the
scalar ray integrator (`integrateRays`) and the chunk store (`region`,
`cullRegions`, `setSubVoxelsEnabled`, `calculateExtents`,
`collectDirtyRegions`); of `ohm/GpuMap.cpp` (`walkRegions`, `goodRay`, the ray
loop of `integrateRaysT`, `enqueueRegion`); of
`ohmgpu/private/GpuMapDetail.cpp` (`reinitialiseGpuCache`); of
`ohm/VoxelIncidentCompute.h` (`encodeNormal`, `decodeNormal`); of
`ohm/NearestNeighbours.cpp` (`regionNearestNeighboursCpu`,
`finishGpuOperation`, the resume coordinates of `regionNearestNeighboursGpu`,
the end of `onExecute`); of `ohmapp/SlamIOSource.cpp` (`run`); and of
`utils/ohmpop/OhmPopCpu.cpp` (the stream operators of `ohm::NdtMode`);
followed by the properties proved about them.

Machine integers are mathematical integers with explicit narrowing
conversions.  Floating point values are not-a-number, an infinity or a finite
value with exact comparisons; the rounding operations are parameters.  Code
that the translation units only call (the key walker of `ohmutil/LineWalk.h`,
`voxelKey`, the installed ray filter, `integrateHit` and `integrateMiss`, the
flag masks of `RayFlag.h` and `RayFilter.h`, the never-observed marker of
`Voxel.h`, `MapRegion`, `GpuLayerCache`) enters as parameters.
-/

namespace ohm

/-! ## Vectors and keys -/

/-- Three component vector, standing for the `glm` vector types. -/
structure Vec3 (α : Type) where
  x : α
  y : α
  z : α
  deriving DecidableEq, Repr

/-- Signed 16-bit triple `glm::i16vec3`; components are kept as integers. -/
abbrev I16Vec3 := Vec3 Int

/-- Unsigned 8-bit triple `glm::u8vec3`; components are kept as naturals. -/
abbrev U8Vec3 := Vec3 Nat

/-- Signed 32-bit triple `glm::ivec3`. -/
abbrev IVec3 := Vec3 Int

/-- Component access `v[axis]`. -/
def Vec3.get {α : Type} (v : Vec3 α) (axis : Fin 3) : α :=
  match axis with
  | 0 => v.x
  | 1 => v.y
  | 2 => v.z

/-- Component assignment `v[axis] = a`. -/
def Vec3.set {α : Type} (v : Vec3 α) (axis : Fin 3) (a : α) : Vec3 α :=
  match axis with
  | 0 => { v with x := a }
  | 1 => { v with y := a }
  | 2 => { v with z := a }

/-- Conversion of an `int` to `uint16_t`: reduction modulo `2^16`. -/
def toUInt16 (n : Int) : Int := n % 65536

/-- Conversion of an integer to `int16_t` (two's complement narrowing). -/
def toInt16 (n : Int) : Int := (n + 32768) % 65536 - 32768

/-- Conversion of an `int` to `uint8_t`: reduction modulo `2^8`. -/
def toUInt8 (n : Int) : Nat := (n % 256).toNat

/-- Largest `int16_t`. -/
def INT16_MAX : Int := 32767

/-- Smallest `int16_t`. -/
def INT16_MIN : Int := -32768

/-- Whether an integer is representable as `int16_t`. -/
def isInt16 (n : Int) : Prop := INT16_MIN ≤ n ∧ n ≤ INT16_MAX

instance (n : Int) : Decidable (isInt16 n) := by
  unfold isInt16; infer_instance

/-- Voxel key: a region coordinate (`glm::i16vec3`) and a local coordinate
within the region (`glm::u8vec3`). -/
structure Key where
  region_key : I16Vec3
  local_key : U8Vec3
  deriving DecidableEq, Repr

/-- Accessor `Key::regionKey()`. -/
def Key.regionKey (k : Key) : I16Vec3 := k.region_key

/-- Accessor `Key::localKey()`. -/
def Key.localKey (k : Key) : U8Vec3 := k.local_key

/-- Setter `Key::setLocalAxis(axis, val)`. -/
def Key.setLocalAxis (k : Key) (axis : Fin 3) (val : Nat) : Key :=
  { k with local_key := k.local_key.set axis val }

/-- Setter `Key::setRegionAxis(axis, val)`; the parameter is an `int16_t`,
so the argument is narrowed on the way in. -/
def Key.setRegionAxis (k : Key) (axis : Fin 3) (val : Int) : Key :=
  { k with region_key := k.region_key.set axis (toInt16 val) }

/-- The key `Key(region_key, x, y, z)`. -/
def Key.mk3 (rx ry rz : Int) (lx ly lz : Nat) : Key :=
  ⟨⟨rx, ry, rz⟩, ⟨lx, ly, lz⟩⟩

/-! ## `OccupancyMap::stepKey` and `OccupancyMap::rangeBetween` -/

/-- `OccupancyMap::stepKey(key, axis, dir)`; the key is returned instead of
being updated in place.  `region_voxel_dimensions` is the map's
`imp_->region_voxel_dimensions`. -/
def stepKey (region_voxel_dimensions : U8Vec3) (key : Key) (axis : Fin 3) (dir : Int) : Key :=
  let local_key : Int := (key.localKey.get axis : Int) + dir
  let region_key : Int := key.regionKey.get axis
  let stepped : Int × Int :=
    if local_key < 0 then
      (region_key - 1, (region_voxel_dimensions.get axis : Int) - 1)
    else if local_key ≥ (region_voxel_dimensions.get axis : Int) then
      (region_key + 1, 0)
    else
      (region_key, local_key)
  (key.setLocalAxis axis (toUInt8 stepped.2)).setRegionAxis axis (toUInt16 stepped.1)

/-- Component-wise difference of two `glm::i16vec3`: `glm` computes each
component in `int` and stores it back into an `int16_t`. -/
def I16Vec3.sub (a b : I16Vec3) : I16Vec3 :=
  ⟨toInt16 (a.x - b.x), toInt16 (a.y - b.y), toInt16 (a.z - b.z)⟩

/-- `OccupancyMap::rangeBetween(from, to)`.  The products and sums are below
`2^31` in magnitude for 8-bit dimensions, so the `int` arithmetic is exact. -/
def rangeBetween (region_voxel_dimensions : U8Vec3) (from_key to_key : Key) : IVec3 :=
  let region_diff : IVec3 := I16Vec3.sub to_key.regionKey from_key.regionKey
  let voxel_diff (i : Fin 3) : Int :=
    (to_key.localKey.get i : Int) - (from_key.localKey.get i : Int)
      + region_diff.get i * (region_voxel_dimensions.get i : Int)
  ⟨voxel_diff 0, voxel_diff 1, voxel_diff 2⟩

/-- Absolute voxel index of a key along an axis. -/
def Key.voxelIndex (region_voxel_dimensions : U8Vec3) (k : Key) (i : Fin 3) : Int :=
  k.regionKey.get i * (region_voxel_dimensions.get i : Int) + (k.localKey.get i : Int)

/-- Keys as the map hands them out: 16-bit region coordinates and local
coordinates inside the region. -/
def Key.valid (region_voxel_dimensions : U8Vec3) (k : Key) : Prop :=
  ∀ a : Fin 3, isInt16 (k.regionKey.get a) ∧ k.localKey.get a < region_voxel_dimensions.get a

/-! ## Voxel values and `OccupancyMap::occupancyType` -/

/-- Value of a C++ `float` as far as comparisons are concerned: not-a-number,
an infinity, or a finite value taken from a linear order `α`. -/
inductive FloatVal (α : Type) where
  | nan : FloatVal α
  | negInf : FloatVal α
  | finite (a : α) : FloatVal α
  | posInf : FloatVal α
  deriving DecidableEq, Repr

/-- Whether a value is not-a-number. -/
def FloatVal.isNaN {α : Type} : FloatVal α → Bool
  | .nan => true
  | _ => false

/-- The comparison `a < b` of two floats; false when either is not-a-number. -/
def FloatVal.lt {α : Type} [LinearOrder α] : FloatVal α → FloatVal α → Bool
  | .nan, _ => false
  | _, .nan => false
  | .negInf, .negInf => false
  | .negInf, _ => true
  | .finite _, .negInf => false
  | .finite a, .finite b => decide (a < b)
  | .finite _, .posInf => true
  | .posInf, _ => false

/-- The comparison `a == b` of two floats; false when either is not-a-number. -/
def FloatVal.eq {α : Type} [LinearOrder α] : FloatVal α → FloatVal α → Bool
  | .negInf, .negInf => true
  | .finite a, .finite b => decide (a = b)
  | .posInf, .posInf => true
  | _, _ => false

/-- The comparison `a != b` of two floats; true when either is not-a-number. -/
def FloatVal.ne {α : Type} [LinearOrder α] (a b : FloatVal α) : Bool := !(a.eq b)

/-- The comparison `a >= b` of two floats; false when either is not-a-number. -/
def FloatVal.ge {α : Type} [LinearOrder α] (a b : FloatVal α) : Bool := b.lt a || a.eq b

/-- The enumeration `ohm::OccupancyType` returned by `occupancyType`. -/
inductive OccupancyType where
  | kNull
  | kUncertain
  | kFree
  | kOccupied
  deriving DecidableEq, Repr

/-- `OccupancyMap::occupancyType(voxel)`.  A `VoxelConst` is either null
(`none`) or gives access to its occupancy value.  `invalidMarkerValue` is
`voxel::invalidMarkerValue()` and `occupancyThresholdValue` the map's
`occupancy_threshold_value`. -/
def occupancyType {α : Type} [LinearOrder α] (invalidMarkerValue occupancyThresholdValue : FloatVal α)
    (voxel : Option (FloatVal α)) : OccupancyType :=
  match voxel with
  | some value =>
    if value.lt invalidMarkerValue then
      if value.lt occupancyThresholdValue then OccupancyType.kFree
      else OccupancyType.kOccupied
    else OccupancyType.kUncertain
  | none => OccupancyType.kNull

/-! ## `OccupancyMap::integrateRays` -/

/-- The C++ condition `flags & mask`. -/
def testFlag (flags mask : Nat) : Bool := (flags &&& mask) != 0

/-- Result of the installed `RayFilterFunction`: its return value, the start
and end point it leaves in place, and the filter flags it reports. -/
structure FilterResult (P : Type) where
  accept : Bool
  start : P
  end_point : P
  filter_flags : Nat

/-- The parts of the map that `integrateRays` reads or calls: members of
`OccupancyMapDetail`, the flag masks, and the functions declared elsewhere.
`P` is the point type `glm::dvec3`. -/
structure OccupancyMapDetail (P α : Type) where
  /-- The mask `kRfEndPointAsFree` of `RayFlag.h`. -/
  kRfEndPointAsFree : Nat
  /-- The mask `kRfStopOnFirstOccupied` of `RayFlag.h`. -/
  kRfStopOnFirstOccupied : Nat
  /-- The mask `kRfClearOnly` of `RayFlag.h`. -/
  kRfClearOnly : Nat
  /-- The mask `kRffClippedEnd` of `RayFilter.h`. -/
  kRffClippedEnd : Nat
  /-- The marker `voxel::invalidMarkerValue()` of never-observed voxels. -/
  invalidMarkerValue : FloatVal α
  /-- The member `occupancy_threshold_value`. -/
  occupancy_threshold_value : FloatVal α
  /-- The member `ray_filter`; `none` is an empty `std::function`.  The
  arguments are the values of `start`, `end` and `filter_flags` on entry. -/
  ray_filter : Option (P → P → Nat → FilterResult P)
  /-- The translation `point - origin()`. -/
  toLocal : P → P
  /-- The key of the voxel containing a point, `OccupancyMap::voxelKey`. -/
  voxelKey : P → Key
  /-- The walker `ohm::walkSegmentKeys(start, end, include_end_point)` as
  `calculateSegmentKeys` calls it: with the adaptor `KeyAdaptor(*this)`, whose
  `voxelKey(pt)` is `map.voxelKey(pt)`. -/
  walkSegmentKeys : P → P → Bool → List Key
  /-- Effect of `integrateHit(voxel)` on the occupancy value. -/
  integrateHit : FloatVal α → FloatVal α
  /-- Effect of `integrateMiss(voxel)` on the occupancy value. -/
  integrateMiss : FloatVal α → FloatVal α

/-- Occupancy value stored for each key.  `voxel(key, true, &cache)` creates
the chunk when needed, so every key has a value; voxels of new chunks hold
the never-observed marker. -/
abbrev Voxels (α : Type) := Key → FloatVal α

/-- One call of `integrateMiss` or `integrateHit` on the voxel of a key. -/
inductive VoxelUpdate where
  | miss (key : Key)
  | hit (key : Key)
  deriving DecidableEq, Repr

/-- The key an update is applied to. -/
def VoxelUpdate.key : VoxelUpdate → Key
  | .miss k => k
  | .hit k => k

/-- Voxel values after one update. -/
def applyUpdate {P α : Type} (d : OccupancyMapDetail P α) (voxels : Voxels α) :
    VoxelUpdate → Voxels α
  | .miss k => Function.update voxels k (d.integrateMiss (voxels k))
  | .hit k => Function.update voxels k (d.integrateHit (voxels k))

/-- Voxel values after a sequence of updates, first to last. -/
def applyUpdates {P α : Type} (d : OccupancyMapDetail P α) (voxels : Voxels α)
    (updates : List VoxelUpdate) : Voxels α :=
  updates.foldl (applyUpdate d) voxels

/-- Outcome of the loop over the keys of one ray: the voxel values, the
updates applied in order, and whether the traversal was stopped. -/
structure WalkResult (α : Type) where
  voxels : Voxels α
  updates : List VoxelUpdate
  stopped : Bool

/-- `OccupancyMap::calculateSegmentKeys(keys, start_point, end_point,
include_end_point)`: the key list it fills. -/
def calculateSegmentKeys {P α : Type} (d : OccupancyMapDetail P α) (start_point end_point : P)
    (include_end_point : Bool) : List Key :=
  let start_point_local := d.toLocal start_point
  let end_point_local := d.toLocal end_point
  d.walkSegmentKeys start_point_local end_point_local include_end_point

/-- The loop `for (auto &&key : keys)` of `integrateRays`. -/
def integrateKeys {P α : Type} [LinearOrder α] (d : OccupancyMapDetail P α) (ray_update_flags : Nat) :
    List Key → Voxels α → WalkResult α
  | [], voxels => ⟨voxels, [], false⟩
  | key :: keys, voxels =>
    let voxel_value := voxels key
    let stop_traversal : Bool :=
      testFlag ray_update_flags d.kRfStopOnFirstOccupied &&
        voxel_value.ge d.occupancy_threshold_value && voxel_value.ne d.invalidMarkerValue
    let missed : Bool :=
      !testFlag ray_update_flags d.kRfClearOnly || voxel_value.ge d.occupancy_threshold_value
    let voxels1 := if missed then applyUpdate d voxels (.miss key) else voxels
    let updates1 := if missed then [VoxelUpdate.miss key] else []
    if stop_traversal then
      ⟨voxels1, updates1, true⟩
    else
      let rest := integrateKeys d ray_update_flags keys voxels1
      ⟨rest.voxels, updates1 ++ rest.updates, rest.stopped⟩

/-- What the filter step of `integrateRays` leaves in `start`, `end` and
`filter_flags`, and whether the ray goes on. -/
def filterRay {P α : Type} (d : OccupancyMapDetail P α) (start end_point : P) : FilterResult P :=
  match d.ray_filter with
  | some ray_filter => ray_filter start end_point 0
  | none => ⟨true, start, end_point, 0⟩

/-- One iteration of the loop over rays in `integrateRays`, for the ray from
`rays[i]` to `rays[i + 1]`: the voxel values afterwards and the updates applied. -/
def integrateRay {P α : Type} [LinearOrder α] (d : OccupancyMapDetail P α) (ray_update_flags : Nat)
    (ray_start ray_end : P) (voxels : Voxels α) : Voxels α × List VoxelUpdate :=
  let filtered := filterRay d ray_start ray_end
  if !filtered.accept then
    (voxels, [])
  else
    let clipped_sample_voxel := testFlag filtered.filter_flags d.kRffClippedEnd
    let keys := calculateSegmentKeys d filtered.start filtered.end_point clipped_sample_voxel
    let walked := integrateKeys d ray_update_flags keys voxels
    let clipped_sample_voxel := clipped_sample_voxel || walked.stopped
    if !clipped_sample_voxel then
      let update :=
        if !testFlag ray_update_flags d.kRfEndPointAsFree then
          VoxelUpdate.hit (d.voxelKey ray_end)
        else
          VoxelUpdate.miss (d.voxelKey ray_end)
      (applyUpdate d walked.voxels update, walked.updates ++ [update])
    else
      (walked.voxels, walked.updates)

/-- `OccupancyMap::integrateRays(rays, element_count, ray_update_flags)` with
`rays` the array of `element_count` points, read two at a time: the voxel
values afterwards and the updates applied, in order.  The list is the array
for an even `element_count`; for an odd one the source reads
`rays[element_count]`, one past the points counted, as the end of a last ray,
which a list of `element_count` points does not hold: the embedding ends
there, so it says nothing about that last ray. -/
def integrateRays {P α : Type} [LinearOrder α] (d : OccupancyMapDetail P α) (ray_update_flags : Nat) :
    List P → Voxels α → Voxels α × List VoxelUpdate
  | ray_start :: ray_end :: rays, voxels =>
    let first := integrateRay d ray_update_flags ray_start ray_end voxels
    let rest := integrateRays d ray_update_flags rays first.1
    (rest.1, first.2 ++ rest.2)
  | _, voxels => (voxels, [])

/-- Whether a value counts as occupied: at or above the threshold and not the
never-observed marker. -/
def isOccupied {P α : Type} [LinearOrder α] (d : OccupancyMapDetail P α) (value : FloatVal α) : Bool :=
  value.ge d.occupancy_threshold_value && value.ne d.invalidMarkerValue

/-! ## A map along the `x` axis

A concrete map for evaluating `integrateRays`: resolution `1`, regions of
`32³` voxels, origin at zero (`lineMap`) or at a point of the line
(`originLineMap`), points on the line through the centres of the voxels with
`y = z = 0`, given by the integer part of their `x` coordinate; occupancy
values in thousandths. -/

/-- Modelled from the spec: `OccupancyMap::voxelKey` relies on `MapRegion`,
which is not under src/.  Per §4.A the region is the floor of the coordinate
over the region extent and the local coordinate the floor of the remainder
over the resolution; here for a point of the line. -/
def lineVoxelKey (x : Int) : Key :=
  Key.mk3 (toInt16 (x / 32)) 0 0 (x % 32).toNat 0 0

/-- Modelled from the spec: the walker `walkSegmentKeys` of
`ohmutil/LineWalk.h` is not under src/.  Per §4.D it yields the keys of the
voxels the segment intersects, in order, the end voxel only if requested; here
for a segment of the line that runs towards larger `x`. -/
def lineWalk (start_point end_point : Int) (include_end_point : Bool) : List Key :=
  (List.range (end_point - start_point).toNat).map (fun i => lineVoxelKey (start_point + (i : Int)))
    ++ (if include_end_point then [lineVoxelKey end_point] else [])

/-- Modelled from the spec: `integrateHit(voxel)` is not under src/.  Per
§4.C a never-observed voxel takes the hit value, an observed one below the
maximum has the hit value added and is clamped; with the defaults of §8
(hit value `0.847`, clamps `-2.0` and `3.511`), in thousandths. -/
def defaultHit : FloatVal Int → FloatVal Int
  | .posInf => .finite 847
  | .finite v => if v < 3511 then .finite (max (-2000) (min (v + 847) 3511)) else .finite v
  | v => v

/-- Modelled from the spec: `integrateMiss(voxel)` is not under src/.  Per
§4.C a never-observed voxel takes the miss value, an observed one above the
minimum has the miss value added and is clamped; with the defaults of §8
(miss value `-0.405`, clamps `-2.0` and `3.511`), in thousandths. -/
def defaultMiss : FloatVal Int → FloatVal Int
  | .posInf => .finite (-405)
  | .finite v => if -2000 < v then .finite (max (-2000) (min (v - 405) 3511)) else .finite v
  | v => v

/-- Modelled from the spec: the flag `ExcludeSample` (erosion-only) of §4.E; the
masks of `RayFlag.h` are not under src/, each flag is taken as a bit of its own. -/
def kRfExcludeSample : Nat := 16

/-- The map along the `x` axis with the default probabilities of §8
(threshold value `0`, never-observed marker above every value) and a given
ray filter. -/
def lineMap (ray_filter : Option (Int → Int → Nat → FilterResult Int)) : OccupancyMapDetail Int Int where
  kRfEndPointAsFree := 1
  kRfStopOnFirstOccupied := 2
  kRfClearOnly := 4
  kRffClippedEnd := 2
  invalidMarkerValue := .posInf
  occupancy_threshold_value := .finite 0
  ray_filter := ray_filter
  toLocal := fun p => p
  voxelKey := lineVoxelKey
  walkSegmentKeys := lineWalk
  integrateHit := defaultHit
  integrateMiss := defaultMiss

/-- A map without chunks: every voxel reads as never observed. -/
def emptyVoxels : Voxels Int := fun _ => .posInf

/-- A ray filter that shortens every ray to its first voxel and reports the
clipped end. -/
def clipFilter : Int → Int → Nat → FilterResult Int :=
  fun start _ filter_flags => ⟨true, start, start + 1, filter_flags ||| 2⟩

/-- A ray filter that shortens every ray to its first voxel and leaves the
filter flags as they are. -/
def silentClipFilter : Int → Int → Nat → FilterResult Int :=
  fun start _ filter_flags => ⟨true, start, start + 1, filter_flags⟩

/-- Modelled from the spec: `OccupancyMap::voxelKey` relies on `MapRegion`,
which is not under src/.  Per §4.A the key of a point is taken from the offset
of the point from the origin of the map, `MapRegion(point, imp_->origin, ...)`;
here for a point of the line and a map whose origin lies at `origin` on it. -/
def originVoxelKey (origin x : Int) : Key :=
  lineVoxelKey (x - origin)

/-- Modelled from the spec: the walker `walkSegmentKeys` of
`ohmutil/LineWalk.h` is not under src/.  Per §4.D it yields the keys of the
voxels the segment intersects, in order, the end voxel only if requested; the
key of a point is the one the adaptor handed to it gives, `voxelKey(pt)`; here
for a segment of the line that runs towards larger `x` over voxels of
resolution `1`. -/
def adaptorWalk (voxelKey : Int → Key) (start_point end_point : Int) (include_end_point : Bool) :
    List Key :=
  (List.range (end_point - start_point).toNat).map
      (fun i : Nat => voxelKey (start_point + (i : Int)))
    ++ (if include_end_point then [voxelKey end_point] else [])

/-- The map along the `x` axis with its origin at `origin`:
`calculateSegmentKeys` hands `start_point - origin()` and
`end_point - origin()` to the walker, and the adaptor `KeyAdaptor` of the
walker answers `voxelKey(pt)` with `map.voxelKey(pt)`. -/
def originLineMap (origin : Int) (ray_filter : Option (Int → Int → Nat → FilterResult Int)) :
    OccupancyMapDetail Int Int :=
  { lineMap ray_filter with
    toLocal := fun point => point - origin
    voxelKey := originVoxelKey origin
    walkSegmentKeys := adaptorWalk (originVoxelKey origin) }

/-! ## Floating point arithmetic

The comparisons of `FloatVal` are exact.  The arithmetic operations round,
so the code below takes them as parameters. -/

/-- The arithmetic of C++ `double` and `float` values: the rounding
operations, conversions and the literals the code uses. -/
structure FloatArith (α : Type) where
  /-- The sum `a + b`. -/
  add : FloatVal α → FloatVal α → FloatVal α
  /-- The difference `a - b`. -/
  sub : FloatVal α → FloatVal α → FloatVal α
  /-- The product `a * b`. -/
  mul : FloatVal α → FloatVal α → FloatVal α
  /-- The quotient `a / b`. -/
  div : FloatVal α → FloatVal α → FloatVal α
  /-- The square root `sqrt(a)`. -/
  sqrt : FloatVal α → FloatVal α
  /-- The absolute value `std::abs(a)`. -/
  abs : FloatVal α → FloatVal α
  /-- Conversion of a `double` to `float`, as in `glm::vec3(dvec3)`. -/
  toSingle : FloatVal α → FloatVal α
  /-- Conversion of an integer to floating point. -/
  ofInt : Int → FloatVal α
  /-- Conversion of a floating point value to an integer type, truncating. -/
  toInt : FloatVal α → Int
  /-- The literal `0.5`. -/
  half : FloatVal α
  /-- The literal `1e-6`. -/
  oneMillionth : FloatVal α
  /-- The constant `std::numeric_limits<double>::max()`. -/
  maxValue : FloatVal α

/-- Component-wise difference of two vectors. -/
def FloatArith.vsub {α : Type} (A : FloatArith α) (a b : Vec3 (FloatVal α)) : Vec3 (FloatVal α) :=
  ⟨A.sub a.x b.x, A.sub a.y b.y, A.sub a.z b.z⟩

/-- Component-wise sum of two vectors. -/
def FloatArith.vadd {α : Type} (A : FloatArith α) (a b : Vec3 (FloatVal α)) : Vec3 (FloatVal α) :=
  ⟨A.add a.x b.x, A.add a.y b.y, A.add a.z b.z⟩

/-- Product of a scalar and a vector. -/
def FloatArith.vscale {α : Type} (A : FloatArith α) (s : FloatVal α) (a : Vec3 (FloatVal α)) :
    Vec3 (FloatVal α) :=
  ⟨A.mul s a.x, A.mul s a.y, A.mul s a.z⟩

/-- The product `glm::dot(a, b)`. -/
def FloatArith.dot {α : Type} (A : FloatArith α) (a b : Vec3 (FloatVal α)) : FloatVal α :=
  A.add (A.add (A.mul a.x b.x) (A.mul a.y b.y)) (A.mul a.z b.z)

/-- Conversion of a `dvec3` through `glm::vec3`. -/
def FloatArith.vtoSingle {α : Type} (A : FloatArith α) (a : Vec3 (FloatVal α)) : Vec3 (FloatVal α) :=
  ⟨A.toSingle a.x, A.toSingle a.y, A.toSingle a.z⟩

/-- The test `glm::any(glm::isnan(a))`. -/
def anyNaN {α : Type} (a : Vec3 (FloatVal α)) : Bool :=
  a.x.isNaN || a.y.isNaN || a.z.isNaN

/-- The comparison `a > b` of two floats. -/
def FloatVal.gt {α : Type} [LinearOrder α] (a b : FloatVal α) : Bool := b.lt a

/-! ## The chunk store of `OccupancyMap` -/

/-- The `MapRegion` of a chunk: its region coordinate and centre. -/
structure MapRegion (α : Type) where
  coord : I16Vec3
  centre : Vec3 (FloatVal α)
  deriving DecidableEq

/-- A voxel of the occupancy layer: the occupancy value and, when the layout
of the layer has the sub-voxel member, the packed sub-voxel pattern. -/
structure OccupancyVoxel (α : Type) where
  occupancy : FloatVal α
  sub_voxel : Option Nat
  deriving DecidableEq

/-- The members of a `MapChunk` that the operations below read or write;
`touched_stamp_occupancy` is `touched_stamps[kDlOccupancy]` and
`occupancy_voxels` the memory of the occupancy layer. -/
structure MapChunk (α : Type) where
  region : MapRegion α
  touched_time : FloatVal α
  dirty_stamp : Nat
  touched_stamp_occupancy : Nat
  occupancy_voxels : List (OccupancyVoxel α)
  deriving DecidableEq

/-- The container `ChunkMap`, from region coordinate to chunk. -/
abbrev ChunkMap (α : Type) := List (I16Vec3 × MapChunk α)

/-- The lookup `chunks.find(region_key)`; `none` stands for `chunks.end()`. -/
def ChunkMap.find {α : Type} (chunks : ChunkMap α) (region_key : I16Vec3) : Option (MapChunk α) :=
  chunks.lookup region_key

/-- The call `chunks.insert(std::make_pair(key, chunk))`, which leaves the
map as it is when the key is present. -/
def ChunkMap.insert {α : Type} (chunks : ChunkMap α) (key : I16Vec3) (chunk : MapChunk α) :
    ChunkMap α :=
  match chunks.lookup key with
  | some _ => chunks
  | none => chunks ++ [(key, chunk)]

/-- The members of `OccupancyMapDetail` that the chunk store operations use.
`has_sub_voxel_pattern` is `layout.hasSubVoxelPattern()` and `occupancy_layer`
is `layout.occupancyLayer()`. -/
structure MapStore (α : Type) where
  chunks : ChunkMap α
  stamp : Nat
  region_voxel_dimensions : U8Vec3
  has_sub_voxel_pattern : Bool
  occupancy_layer : Int

/-- What `newChunk` calls: `voxelCentreGlobal`, the constructor
`MapRegion(point, origin, region_spatial_dimensions)`, and the state the
`MapChunk` constructor gives a chunk besides its region. -/
structure ChunkFactory (α : Type) where
  voxelCentreGlobal : Key → Vec3 (FloatVal α)
  mapRegion : Vec3 (FloatVal α) → MapRegion α
  blank : MapChunk α

/-- `OccupancyMap::newChunk(for_key)`. -/
def newChunk {α : Type} (f : ChunkFactory α) (for_key : Key) : MapChunk α :=
  { f.blank with region := f.mapRegion (f.voxelCentreGlobal for_key) }

/-- `OccupancyMap::region(region_key, allow_create)`: the map afterwards and
the chunk returned, `none` for `nullptr`. -/
def region {α : Type} (f : ChunkFactory α) (imp : MapStore α) (region_key : I16Vec3)
    (allow_create : Bool) : MapStore α × Option (MapChunk α) :=
  match imp.chunks.find region_key with
  | some chunk => (imp, some chunk)
  | none =>
    if allow_create then
      let chunk := newChunk f ⟨region_key, ⟨0, 0, 0⟩⟩
      ({ imp with chunks := imp.chunks.insert chunk.region.coord chunk }, some chunk)
    else
      (imp, none)

/-- `OccupancyMap::regionCount()`. -/
def regionCount {α : Type} (imp : MapStore α) : Nat := imp.chunks.length

/-- The loop of `cullRegions` from `region_iter` on: the entries left in the
map and the value of the `unsigned` counter `removed_count`. -/
def cullLoop {α : Type} (cull_func : MapChunk α → Bool) :
    List (I16Vec3 × MapChunk α) → Nat → List (I16Vec3 × MapChunk α) × Nat
  | [], removed_count => ([], removed_count)
  | entry :: rest, removed_count =>
    if cull_func entry.2 then
      cullLoop cull_func rest ((removed_count + 1) % 4294967296)
    else
      ((entry :: (cullLoop cull_func rest removed_count).1),
        (cullLoop cull_func rest removed_count).2)

/-- `OccupancyMap::cullRegions(cull_func)`: the map afterwards and the count
returned. -/
def cullRegions {α : Type} (cull_func : MapChunk α → Bool) (imp : MapStore α) : MapStore α × Nat :=
  ({ imp with chunks := (cullLoop cull_func imp.chunks 0).1 }, (cullLoop cull_func imp.chunks 0).2)

/-- `OccupancyMap::expireRegions(timestamp)`. -/
def expireRegions {α : Type} [LinearOrder α] (imp : MapStore α) (timestamp : FloatVal α) :
    MapStore α × Nat :=
  cullRegions (fun chunk => chunk.touched_time.lt timestamp) imp

/-- An axis aligned box `Aabb(min, max)`. -/
structure Aabb (α : Type) where
  min_extents : Vec3 (FloatVal α)
  max_extents : Vec3 (FloatVal α)

/-- The box of a chunk's region as `cullRegionsOutside` builds it. -/
def regionBox {α : Type} (A : FloatArith α) (region_extents : Vec3 (FloatVal α))
    (chunk : MapChunk α) : Aabb α :=
  ⟨A.vsub chunk.region.centre (A.vscale A.half region_extents),
    A.vadd chunk.region.centre (A.vscale A.half region_extents)⟩

/-- `OccupancyMap::cullRegionsOutside(min_extents, max_extents)`; `overlaps`
is `Aabb::overlaps` and `region_spatial_dimensions` the member of that name. -/
def cullRegionsOutside {α : Type} (A : FloatArith α) (overlaps : Aabb α → Aabb α → Bool)
    (region_spatial_dimensions : Vec3 (FloatVal α)) (imp : MapStore α)
    (min_extents max_extents : Vec3 (FloatVal α)) : MapStore α × Nat :=
  cullRegions
    (fun chunk => !overlaps ⟨min_extents, max_extents⟩ (regionBox A region_spatial_dimensions chunk))
    imp

/-- The number of voxels of a region, `voxel_count` in `setSubVoxelsEnabled`. -/
def voxelCount (region_voxel_dimensions : U8Vec3) : Nat :=
  region_voxel_dimensions.x * region_voxel_dimensions.y * region_voxel_dimensions.z

/-- `OccupancyMap::setSubVoxelsEnabled(enable)`.  The new memory of each
chunk is filled voxel by voxel for `voxel_count` voxels from the existing
memory; the GPU cache is left out. -/
def setSubVoxelsEnabled {α : Type} (imp : MapStore α) (enable : Bool) : MapStore α :=
  if enable = imp.has_sub_voxel_pattern then
    imp
  else if imp.occupancy_layer < 0 then
    imp
  else
    let voxel_count := voxelCount imp.region_voxel_dimensions
    if enable then
      { imp with
        has_sub_voxel_pattern := true
        chunks := imp.chunks.map (fun entry =>
          (entry.1, { entry.2 with
            occupancy_voxels := (entry.2.occupancy_voxels.take voxel_count).map
              (fun existing => ⟨existing.occupancy, some 0⟩) })) }
    else
      { imp with
        has_sub_voxel_pattern := false
        chunks := imp.chunks.map (fun entry =>
          (entry.1, { entry.2 with
            occupancy_voxels := (entry.2.occupancy_voxels.take voxel_count).map
              (fun existing => ⟨existing.occupancy, none⟩) })) }

/-! ## A grid map for evaluation

Concrete values for evaluating the chunk store and the region walk:
coordinates and times are integers, in units of `2^-24`, so that the points
used below and every finite intermediate result are exact. -/

/-- The number of grid units in `1.0`. -/
def gridOne : Int := 16777216

/-- Modelled from the spec: `MapRegion(point, origin, extent)` is not under
src/.  Per §4.A the region coordinate is the floor of the offset of the point
over the region extent, a point on a boundary going to the larger coordinate;
the region of coordinate `k` is centred on `k` times the extent, as
`regionCentreLocal` and `regionSpatialMin` have it.  Here for origin zero and
a region extent of `1.0` on each axis. -/
def gridRegionCoord : FloatVal Int → Int
  | .finite x => toInt16 ((x + gridOne / 2) / gridOne)
  | _ => 0

/-- Modelled from the spec: the constructor `MapRegion(point, origin, extent)`,
see `gridRegionCoord`; the centre is the region coordinate times the extent. -/
def gridMapRegion (point : Vec3 (FloatVal Int)) : MapRegion Int :=
  ⟨⟨gridRegionCoord point.x, gridRegionCoord point.y, gridRegionCoord point.z⟩,
    ⟨.finite (gridRegionCoord point.x * gridOne), .finite (gridRegionCoord point.y * gridOne),
      .finite (gridRegionCoord point.z * gridOne)⟩⟩

/-- Modelled from the spec: `voxel::centreGlobal` is not under src/.  Per
§4.A the centre of a voxel lies half a voxel above its lower corner; here for
regions of extent `1.0` with `32` voxels per axis. -/
def gridVoxelCentre (key : Key) : Vec3 (FloatVal Int) :=
  let centre (i : Fin 3) : FloatVal Int :=
    .finite (key.regionKey.get i * gridOne - gridOne / 2
      + (2 * (key.localKey.get i : Int) + 1) * (gridOne / 64))
  ⟨centre 0, centre 1, centre 2⟩

/-- A chunk as the `MapChunk` constructor leaves it: never touched, every
voxel of the `32³` voxels never observed. -/
def gridBlankChunk : MapChunk Int :=
  { region := ⟨⟨0, 0, 0⟩, ⟨.finite 0, .finite 0, .finite 0⟩⟩
    touched_time := .finite 0
    dirty_stamp := 0
    touched_stamp_occupancy := 0
    occupancy_voxels := List.replicate 32768 ⟨.posInf, none⟩ }

/-- The chunk factory of the grid map. -/
def gridFactory : ChunkFactory Int :=
  ⟨gridVoxelCentre, gridMapRegion, gridBlankChunk⟩

/-- A chunk of `2 × 1 × 1` voxels with given region coordinate along `x`,
touched time and occupancy values. -/
def smallChunk (x : Int) (touched_time : Int) (first second : FloatVal Int) : MapChunk Int :=
  { region := ⟨⟨x, 0, 0⟩, ⟨.finite (x * gridOne), .finite 0, .finite 0⟩⟩
    touched_time := .finite touched_time
    dirty_stamp := 0
    touched_stamp_occupancy := 0
    occupancy_voxels := [⟨first, none⟩, ⟨second, none⟩] }

/-- A map of three chunks of `2 × 1 × 1` voxels at `x = 0, 1, 2`, touched at
times `10`, `20` and `30`, without sub-voxel patterns. -/
def smallStore : MapStore Int :=
  { chunks := [(⟨0, 0, 0⟩, smallChunk 0 10 (.finite 847) .posInf),
      (⟨1, 0, 0⟩, smallChunk 1 20 (.finite (-405)) (.finite (-810))),
      (⟨2, 0, 0⟩, smallChunk 2 30 .posInf .posInf)]
    stamp := 7
    region_voxel_dimensions := ⟨2, 1, 1⟩
    has_sub_voxel_pattern := false
    occupancy_layer := 0 }

/-- Sign of a value: `1`, `-1`, or `0` for zero and not-a-number. -/
def gridSign : FloatVal Int → Int
  | .nan => 0
  | .negInf => -1
  | .finite a => if 0 < a then 1 else if a < 0 then -1 else 0
  | .posInf => 1

/-- An infinity of the given sign; not-a-number for sign `0`. -/
def gridInf (sign : Int) : FloatVal Int :=
  if 0 < sign then .posInf else if sign < 0 then .negInf else .nan

/-- Sum on the grid, with the IEEE rules for infinities and not-a-number. -/
def gridAdd : FloatVal Int → FloatVal Int → FloatVal Int
  | .nan, _ => .nan
  | _, .nan => .nan
  | .posInf, .negInf => .nan
  | .negInf, .posInf => .nan
  | .posInf, _ => .posInf
  | _, .posInf => .posInf
  | .negInf, _ => .negInf
  | _, .negInf => .negInf
  | .finite a, .finite b => .finite (a + b)

/-- Negation. -/
def gridNeg : FloatVal Int → FloatVal Int
  | .nan => .nan
  | .negInf => .posInf
  | .finite a => .finite (-a)
  | .posInf => .negInf

/-- Product on the grid: exact when the product of two finite values is on
the grid; an infinity times zero is not-a-number. -/
def gridMul : FloatVal Int → FloatVal Int → FloatVal Int
  | .nan, _ => .nan
  | _, .nan => .nan
  | .finite a, .finite b => .finite (a * b / gridOne)
  | a, b => gridInf (gridSign a * gridSign b)

/-- Quotient on the grid: exact when the quotient of two finite values is on
the grid; a non-zero value over zero is an infinity, zero over zero and an
infinity over an infinity are not-a-number, a finite value over an infinity
is zero.  Zero is taken as positive zero. -/
def gridDiv : FloatVal Int → FloatVal Int → FloatVal Int
  | .nan, _ => .nan
  | _, .nan => .nan
  | .finite a, .finite b => if b = 0 then gridInf (gridSign (.finite a)) else .finite (a * gridOne / b)
  | .finite _, _ => .finite 0
  | a, .finite b => gridInf (gridSign a * (if b < 0 then -1 else 1))
  | _, _ => .nan

/-- Integer square root by bits, from bit `k` down, for arguments below `2^128`
when started at `k = 63`. -/
def isqrtFrom : Nat → Nat → Nat → Nat
  | 0, n, r => if (r + 1) * (r + 1) ≤ n then r + 1 else r
  | k + 1, n, r =>
    isqrtFrom k n (if (r + 2 ^ (k + 1)) * (r + 2 ^ (k + 1)) ≤ n then r + 2 ^ (k + 1) else r)

/-- Square root on the grid: not-a-number for a negative value. -/
def gridSqrt : FloatVal Int → FloatVal Int
  | .finite a => if a < 0 then .nan else .finite (isqrtFrom 63 (a * gridOne).toNat 0)
  | .posInf => .posInf
  | _ => .nan

/-- Absolute value. -/
def gridAbs : FloatVal Int → FloatVal Int
  | .nan => .nan
  | .finite a => .finite (if a < 0 then -a else a)
  | _ => .posInf

/-- Conversion to an integer type, truncating towards zero. -/
def gridToInt : FloatVal Int → Int
  | .finite a => if a < 0 then -((-a) / gridOne) else a / gridOne
  | _ => 0

/-- Arithmetic for evaluation: values are multiples of `2^-24` and the
operations follow the IEEE rules for infinities and not-a-number.  A result is
the one of `double` or `float` arithmetic whenever the operands and the exact
result are multiples of `2^-24` of moderate size, which is the case wherever
this arithmetic is applied below.  The literal `1e-6` is taken down to the
grid. -/
def gridArith : FloatArith Int where
  add := gridAdd
  sub := fun a b => gridAdd a (gridNeg b)
  mul := gridMul
  div := gridDiv
  sqrt := gridSqrt
  abs := gridAbs
  toSingle := fun a => a
  ofInt := fun k => .finite (k * gridOne)
  toInt := gridToInt
  half := .finite (gridOne / 2)
  oneMillionth := .finite 16
  maxValue := .finite (Int.ofNat
    (2 ^ 256 * 2 ^ 256 * 2 ^ 256 * 2 ^ 256 * 2 ^ 24 - 2 ^ 256 * 2 ^ 256 * 2 ^ 256 * 2 ^ 227))

/-! ## `reinitialiseGpuCache` -/

/-- Conversion to `size_t`: reduction modulo `2^64`. -/
def toSizeT (n : Nat) : Nat := n % 18446744073709551616

/-- The identifiers of the layer caches. -/
inductive GpuCacheId where
  | kGcIdOccupancy
  | kGcIdVoxelMean
  | kGcIdCovariance
  | kGcIdClearance
  deriving DecidableEq, Repr

/-- The members of `GpuLayerCacheParams` that carry the budget: the memory
size of the cache and the index of the layer it holds. -/
structure GpuLayerCacheParams where
  gpu_mem_size : Nat
  layer : Int
  deriving DecidableEq, Repr

/-- The container `std::map<int, size_t>` of `layer_mem_weight`. -/
abbrev LayerMemWeight := List (Int × Nat)

/-- The assignment `layer_mem_weight[layer_index] = value`. -/
def LayerMemWeight.assign : LayerMemWeight → Int → Nat → LayerMemWeight
  | [], layer_index, value => [(layer_index, value)]
  | entry :: rest, layer_index, value =>
    if entry.1 = layer_index then (layer_index, value) :: rest
    else entry :: LayerMemWeight.assign rest layer_index value

/-- The read `layer_mem_weight[layer_index]`, zero for an absent index. -/
def LayerMemWeight.get (weights : LayerMemWeight) (layer_index : Int) : Nat :=
  (weights.lookup layer_index).getD 0

/-- The loop over `known_layers` of `reinitialiseGpuCache`, on the pair of
`layer_mem_weight` and `total_mem_weight`. -/
def collectWeights (layerByteSize : Int → Nat) :
    List Int → LayerMemWeight × Nat → LayerMemWeight × Nat
  | [], acc => acc
  | layer_index :: rest, acc =>
    if 0 ≤ layer_index then
      collectWeights layerByteSize rest
        (acc.1.assign layer_index (layerByteSize layer_index),
          toSizeT (acc.2 + layerByteSize layer_index))
    else
      collectWeights layerByteSize rest acc

/-- `reinitialiseGpuCache(gpu_cache, map, flags)` for a cache that is present:
the `createCache` calls made, in order, or `none` when the distribution loop
divides by zero.  `layerByteSize` gives `layerByteSize(regionVoxelDimensions())`
of the layer of an index and `target` is `targetGpuLayerSize()`; the four
indices are those the layout reports, negative for an absent layer. -/
def reinitialiseGpuCache (layerByteSize : Int → Nat) (target : Nat)
    (occupancy_layer mean_layer covariance_layer clearance_layer : Int) :
    Option (List (GpuCacheId × GpuLayerCacheParams)) :=
  let known_layers := [occupancy_layer, mean_layer, covariance_layer, clearance_layer]
  let collected := collectWeights layerByteSize known_layers ([], 0)
  let total_mem_weight := collected.2
  if !collected.1.isEmpty && total_mem_weight == 0 then
    none
  else
    let layer_mem_weight : LayerMemWeight :=
      collected.1.map (fun layer_weight =>
        (layer_weight.1, toSizeT (layer_weight.2 * target) / total_mem_weight))
    some
      ((if 0 ≤ occupancy_layer then
          [(GpuCacheId.kGcIdOccupancy, ⟨layer_mem_weight.get occupancy_layer, occupancy_layer⟩)]
        else []) ++
      (if 0 ≤ mean_layer then
          [(GpuCacheId.kGcIdVoxelMean, ⟨layer_mem_weight.get mean_layer, mean_layer⟩)]
        else []) ++
      (if 0 ≤ covariance_layer then
          [(GpuCacheId.kGcIdCovariance,
            ⟨layer_mem_weight.get covariance_layer, covariance_layer⟩)]
        else []) ++
      (if 0 ≤ clearance_layer then
          [(GpuCacheId.kGcIdClearance, ⟨layer_mem_weight.get clearance_layer, occupancy_layer⟩)]
        else []))

/-- The known layers present in the layout: the indices that are not negative. -/
def presentLayers (occupancy_layer mean_layer covariance_layer clearance_layer : Int) : List Int :=
  [occupancy_layer, mean_layer, covariance_layer, clearance_layer].filter (fun i => decide (0 ≤ i))

/-! ## `GpuMap::enqueueRegion` and `GpuMap::finaliseBatch` -/

/-- The enumeration `GpuLayerCache::CacheStatus`. -/
inductive CacheStatus where
  | kCacheFull
  | kCacheNew
  | kCacheExisting
  deriving DecidableEq, Repr

/-- What `GpuLayerCache::upload` hands back: the memory offset returned, the
chunk pointer it leaves in `chunk` (`none` for `nullptr`; a chunk is named by
its region coordinate) and the status. -/
structure UploadResult where
  mem_offset : Nat
  chunk : Option I16Vec3
  status : CacheStatus
  deriving DecidableEq, Repr

/-- The operations of `GpuLayerCache` that `enqueueRegion` and `finaliseBatch`
call, on a cache state `C`: `upload(map, region_key, chunk, &upload_event,
&status, batch_marker, kAllowRegionCreate)`, `beginBatch()` and
`updateEvents(batch_marker, event)`. -/
structure GpuLayerCacheOps (C : Type) where
  upload : C → I16Vec3 → Nat → C × UploadResult
  beginBatch : C → C × Nat
  updateEvents : C → Nat → C

/-- What `enqueueRegion` and `finaliseBatch` do that is visible outside the
state: an `upload` call, an entry written to the region and offset buffers of
a slot, the kernel enqueued by `finaliseBatch` for a slot with its region
count, and the copy of the ray buffer between slots. -/
inductive GpuEvent where
  | upload (region_key : I16Vec3) (batch_marker : Nat)
  | writeRegion (buf_idx index : Nat) (region_key : I16Vec3) (mem_offset : Nat)
  | updateRegion (buf_idx region_count : Nat)
  | copyRays (to_idx from_idx : Nat)
  deriving DecidableEq, Repr

/-- The members of `GpuMapDetail` and of the map that `enqueueRegion` uses:
the slot index, the counts per slot, the batch marker, the size of `regions`,
the map stamp, the two stamps of each chunk, the cache, and the record of
events. -/
structure GpuMapDetail (C : Type) where
  next_buffers_index : Nat
  region_counts : Nat → Nat
  ray_counts : Nat → Nat
  batch_marker : Nat
  regions_size : Nat
  map_stamp : Nat
  dirty_stamp : I16Vec3 → Nat
  touched_stamp_occupancy : I16Vec3 → Nat
  cache : C
  events : List GpuEvent

/-- How a call of `enqueueRegion` ends: it returns, or it dereferences a null
chunk pointer in its last statement. -/
inductive EnqueueOutcome (C : Type) where
  | returned (imp : GpuMapDetail C)
  | nullChunk (imp : GpuMapDetail C)

/-- The state a call ends in. -/
def EnqueueOutcome.state {C : Type} : EnqueueOutcome C → GpuMapDetail C
  | .returned imp => imp
  | .nullChunk imp => imp

/-- `GpuMap::finaliseBatch(regions_buffer, offsets_buffer, end_points_as_occupied)`. -/
def finaliseBatch {C : Type} (ops : GpuLayerCacheOps C) (imp : GpuMapDetail C) : GpuMapDetail C :=
  let buf_idx := imp.next_buffers_index
  let cache1 := ops.updateEvents imp.cache imp.batch_marker
  let batch := ops.beginBatch cache1
  { imp with
    events := imp.events ++ [GpuEvent.updateRegion buf_idx (imp.region_counts buf_idx)]
    region_counts := Function.update imp.region_counts buf_idx 0
    cache := batch.1
    batch_marker := batch.2
    next_buffers_index := 1 - imp.next_buffers_index }

/-- The last statement of `enqueueRegion`,
`chunk->dirty_stamp = chunk->touched_stamps[kDlOccupancy] = imp_->map->stamp()`,
reached when the branches before it have returned. -/
def markRegionDirty {C : Type} (chunk : Option I16Vec3) : EnqueueOutcome C → EnqueueOutcome C
  | .nullChunk imp4 => .nullChunk imp4
  | .returned imp4 =>
    match chunk with
    | none => .nullChunk imp4
    | some chunk =>
      .returned { imp4 with
        touched_stamp_occupancy := Function.update imp4.touched_stamp_occupancy chunk imp4.map_stamp
        dirty_stamp := Function.update imp4.dirty_stamp chunk imp4.map_stamp }

/-- The body of `GpuMap::enqueueRegion(region_hash, region_key, regions_buffer,
offsets_buffer, end_points_as_occupied, allow_retry)`, with the call it makes
to itself passed as `retry`. -/
def enqueueRegionBody {C : Type} (ops : GpuLayerCacheOps C)
    (retry : GpuMapDetail C → EnqueueOutcome C) (imp : GpuMapDetail C) (region_key : I16Vec3)
    (allow_retry : Bool) : EnqueueOutcome C :=
  let buf_idx := imp.next_buffers_index
  let uploaded := ops.upload imp.cache region_key imp.batch_marker
  let status := uploaded.2.status
  let chunk := uploaded.2.chunk
  let imp1 : GpuMapDetail C :=
    { imp with cache := uploaded.1
               events := imp.events ++ [GpuEvent.upload region_key imp.batch_marker] }
  let branch : EnqueueOutcome C :=
    if status ≠ CacheStatus.kCacheFull then
      .returned { imp1 with
        events := imp1.events ++
          [GpuEvent.writeRegion buf_idx (imp1.region_counts buf_idx) region_key uploaded.2.mem_offset]
        region_counts := Function.update imp1.region_counts buf_idx
          ((imp1.region_counts buf_idx + 1) % 4294967296) }
    else if allow_retry then
      let previous_buf_idx := buf_idx
      let imp2 := finaliseBatch ops imp1
      let regions_processed := imp2.region_counts buf_idx
      let buf_idx := imp2.next_buffers_index
      let imp3 : GpuMapDetail C :=
        { imp2 with
          events := imp2.events ++ [GpuEvent.copyRays buf_idx previous_buf_idx]
          ray_counts := Function.update imp2.ray_counts buf_idx (imp2.ray_counts previous_buf_idx) }
      if regions_processed < imp3.regions_size then
        retry imp3
      else
        .returned imp3
    else
      .returned imp1
  markRegionDirty chunk branch

/-- `GpuMap::enqueueRegion`.  The call it makes to itself passes
`allow_retry = false`, and a call with `allow_retry = false` makes none, so
two levels of the body are all there is. -/
def enqueueRegion {C : Type} (ops : GpuLayerCacheOps C) (imp : GpuMapDetail C)
    (region_key : I16Vec3) (allow_retry : Bool) : EnqueueOutcome C :=
  enqueueRegionBody ops
    (fun imp3 => enqueueRegionBody ops (fun imp5 => .returned imp5) imp3 region_key false)
    imp region_key allow_retry

/-- A layer cache for evaluation whose pages are all held under batch marker
`1`: `upload` reports `kCacheFull` for a call under that marker and `kCacheNew`
at offset `0` for a call under a later one, and hands out the chunk of the
region either way; `beginBatch` gives batch marker `3`. -/
def heldCacheOps : GpuLayerCacheOps Unit where
  upload := fun cache region_key batch_marker =>
    (cache, ⟨0, some region_key,
      if batch_marker ≤ 1 then CacheStatus.kCacheFull else CacheStatus.kCacheNew⟩)
  beginBatch := fun cache => (cache, 3)
  updateEvents := fun cache _ => cache

/-- A layer cache for evaluation without a free page whose `upload` reports
`kCacheFull` every time and leaves the chunk pointer as it was passed, null. -/
def fullNullCacheOps : GpuLayerCacheOps Unit where
  upload := fun cache _ _ => (cache, ⟨0, none, CacheStatus.kCacheFull⟩)
  beginBatch := fun cache => (cache, 3)
  updateEvents := fun cache _ => cache

/-- A layer cache for evaluation without a free page whose `upload` reports
`kCacheFull` every time and hands out the chunk of the region all the same. -/
def fullCacheOps : GpuLayerCacheOps Unit where
  upload := fun cache region_key _ => (cache, ⟨0, some region_key, CacheStatus.kCacheFull⟩)
  beginBatch := fun cache => (cache, 3)
  updateEvents := fun cache _ => cache

/-- A GPU map in the middle of a batch: slot `0` active with `region_count`
regions queued under batch marker `1`, map stamp `5`, no chunk touched. -/
def gpuMapInBatch {C : Type} (cache : C) (region_count regions_size : Nat) : GpuMapDetail C :=
  { next_buffers_index := 0
    region_counts := fun i => if i = 0 then region_count else 0
    ray_counts := fun i => if i = 0 then 16 else 0
    batch_marker := 1
    regions_size := regions_size
    map_stamp := 5
    dirty_stamp := fun _ => 0
    touched_stamp_occupancy := fun _ => 0
    cache := cache
    events := [] }

/-! ## The region walk of `GpuMap.cpp` -/

/-- What `walkRegions` reads of the map: `map.regionKey(point)`, whose
`MapRegion` constructor is not under src/, the origin and the spatial
dimensions of a region. -/
structure RegionLattice (α : Type) where
  regionKey : Vec3 (FloatVal α) → I16Vec3
  origin : Vec3 (FloatVal α)
  region_spatial_dimensions : Vec3 (FloatVal α)

/-- `OccupancyMap::regionCentreLocal(region_key)`. -/
def regionCentreLocal {α : Type} (A : FloatArith α) (map : RegionLattice α) (region_key : I16Vec3) :
    Vec3 (FloatVal α) :=
  ⟨A.mul (A.ofInt region_key.x) map.region_spatial_dimensions.x,
    A.mul (A.ofInt region_key.y) map.region_spatial_dimensions.y,
    A.mul (A.ofInt region_key.z) map.region_spatial_dimensions.z⟩

/-- The arrays `step`, `time_max`, `time_delta` and `time_limit` of
`walkRegions`. -/
structure WalkSetup (α : Type) where
  step : Vec3 Int
  time_max : Vec3 (FloatVal α)
  time_delta : Vec3 (FloatVal α)
  time_limit : Vec3 (FloatVal α)
  deriving DecidableEq

/-- The `direction` of `walkRegions` after `direction *= 1.0 / length`. -/
def walkDirection {α : Type} [LinearOrder α] (A : FloatArith α)
    (start_point end_point : Vec3 (FloatVal α)) : Vec3 (FloatVal α) :=
  let direction := A.vtoSingle (A.vsub end_point start_point)
  let length := A.dot direction direction
  let length := if length.ge A.oneMillionth then A.sqrt length else A.ofInt 0
  ⟨A.mul direction.x (A.div (A.ofInt 1) length), A.mul direction.y (A.div (A.ofInt 1) length),
    A.mul direction.z (A.div (A.ofInt 1) length)⟩

/-- One pass of the loop `for (unsigned i = 0; i < 3; ++i)` of `walkRegions`
that computes the step direction, increments and maximums of axis `i`. -/
def walkSetupAxis {α : Type} [LinearOrder α] (A : FloatArith α) (map : RegionLattice α)
    (direction region start_point_local end_point_local : Vec3 (FloatVal α)) (i : Fin 3)
    (setup : WalkSetup α) : WalkSetup α :=
  if (direction.get i).ne (A.ofInt 0) then
    let direction_axis_inv := A.div (A.ofInt 1) (direction.get i)
    let step_i : Int := if (direction.get i).gt (A.ofInt 0) then 1 else -1
    let time_delta_i := A.mul (map.region_spatial_dimensions.get i) (A.abs direction_axis_inv)
    let next_region_border :=
      A.add (region.get i) (A.mul (A.mul (A.ofInt step_i) A.half) (map.region_spatial_dimensions.get i))
    let time_max_i := A.mul (A.sub next_region_border (start_point_local.get i)) direction_axis_inv
    let time_limit_i :=
      A.abs (A.mul (A.sub (end_point_local.get i) (start_point_local.get i)) direction_axis_inv)
    { step := setup.step.set i step_i
      time_max := setup.time_max.set i time_max_i
      time_delta := setup.time_delta.set i time_delta_i
      time_limit := setup.time_limit.set i time_limit_i }
  else
    { setup with
      time_max := setup.time_max.set i A.maxValue
      time_delta := setup.time_delta.set i A.maxValue
      time_limit := setup.time_limit.set i (A.ofInt 0) }

/-- The setup of `walkRegions` before its `while` loop.  The arrays
`time_max`, `time_delta` and `time_limit` start uninitialised and every entry
is assigned by the loop; they start as not-a-number here. -/
def walkSetup {α : Type} [LinearOrder α] (A : FloatArith α) (map : RegionLattice α)
    (start_point end_point : Vec3 (FloatVal α)) : WalkSetup α :=
  let start_point_local := A.vtoSingle (A.vsub start_point map.origin)
  let end_point_local := A.vtoSingle (A.vsub end_point map.origin)
  let direction := walkDirection A start_point end_point
  let region := regionCentreLocal A map (map.regionKey start_point)
  let setup : WalkSetup α :=
    ⟨⟨0, 0, 0⟩, ⟨.nan, .nan, .nan⟩, ⟨.nan, .nan, .nan⟩, ⟨.nan, .nan, .nan⟩⟩
  walkSetupAxis A map direction region start_point_local end_point_local 2
    (walkSetupAxis A map direction region start_point_local end_point_local 1
      (walkSetupAxis A map direction region start_point_local end_point_local 0 setup))

/-- The region keys `walkRegions` has passed to its callback, in order, and
whether it has returned. -/
structure RegionWalk where
  keys : List I16Vec3
  returned : Bool
  deriving DecidableEq, Repr

/-- The axis chosen in the `while` loop of `walkRegions`. -/
def walkAxis {α : Type} [LinearOrder α] (time_max : Vec3 (FloatVal α)) : Fin 3 :=
  if time_max.x.lt time_max.z then
    (if time_max.x.lt time_max.y then 0 else 1)
  else
    (if time_max.y.lt time_max.z then 1 else 2)

/-- The `while` loop of `walkRegions` with the call of the callback that
follows it, run for at most `fuel` passes. -/
def walkLoop {α : Type} [LinearOrder α] (A : FloatArith α) (end_point_key : I16Vec3)
    (step : Vec3 Int) (time_delta time_limit : Vec3 (FloatVal α)) :
    Nat → Bool → I16Vec3 → Vec3 (FloatVal α) → RegionWalk
  | 0, limit_reached, current_key, _ =>
    if !limit_reached && current_key ≠ end_point_key then ⟨[], false⟩ else ⟨[current_key], true⟩
  | fuel + 1, limit_reached, current_key, time_max =>
    if !limit_reached && current_key ≠ end_point_key then
      let axis := walkAxis time_max
      let rest := walkLoop A end_point_key step time_delta time_limit fuel
        ((A.abs (time_max.get axis)).gt (time_limit.get axis))
        (current_key.set axis (toInt16 (current_key.get axis + step.get axis)))
        (time_max.set axis (A.add (time_max.get axis) (time_delta.get axis)))
      ⟨current_key :: rest.keys, rest.returned⟩
    else ⟨[current_key], true⟩

/-- `walkRegions(map, start_point, end_point, func)`, its `while` loop run for
at most `fuel` passes. -/
def walkRegions {α : Type} [LinearOrder α] (A : FloatArith α) (map : RegionLattice α)
    (start_point end_point : Vec3 (FloatVal α)) (fuel : Nat) : RegionWalk :=
  if map.regionKey start_point = map.regionKey end_point then
    ⟨[map.regionKey start_point], true⟩
  else
    walkLoop A (map.regionKey end_point) (walkSetup A map start_point end_point).step
      (walkSetup A map start_point end_point).time_delta
      (walkSetup A map start_point end_point).time_limit fuel false (map.regionKey start_point)
      (walkSetup A map start_point end_point).time_max

/-- The region lattice of the grid map: origin zero, regions of extent `1.0`. -/
def gridLattice : RegionLattice Int :=
  { regionKey := fun point => (gridMapRegion point).coord
    origin := ⟨.finite 0, .finite 0, .finite 0⟩
    region_spatial_dimensions := ⟨.finite gridOne, .finite gridOne, .finite gridOne⟩ }

/-- The point `(0.5 - 2^-12, 0, 0)` of the grid map. -/
def shortRayStart : Vec3 (FloatVal Int) := ⟨.finite 8384512, .finite 0, .finite 0⟩

/-- The point `(0.5 + 2^-12, 0, 0)` of the grid map. -/
def shortRayEnd : Vec3 (FloatVal Int) := ⟨.finite 8392704, .finite 0, .finite 0⟩

/-! ## The ray upload of `GpuMap::integrateRaysT` -/

/-- `goodRay(start, end, max_range)`. -/
def goodRay {α : Type} [LinearOrder α] (A : FloatArith α) (start end_ : Vec3 (FloatVal α))
    (max_range : FloatVal α) : Bool :=
  let is_good := true
  let is_good := if anyNaN start then false else is_good
  let is_good := if anyNaN end_ then false else is_good
  let ray := A.vsub end_ start
  let is_good :=
    if max_range.ne (A.ofInt 0) && (A.dot ray ray).gt (A.mul max_range max_range) then false
    else is_good
  is_good

/-- What the ray loop of `integrateRaysT` has done: the pairs written to the
pinned ray buffer in order (the pair number `k` goes to elements `2k` and
`2k + 1`), `upload_count`, the region set `imp_->regions`, the rays handed to
`walkRegions` in order, and whether the loop has run to its end. -/
structure RayUpload (α : Type) where
  uploaded : List (Vec3 (FloatVal α) × Vec3 (FloatVal α))
  upload_count : Nat
  regions : List I16Vec3
  walked : List (Vec3 (FloatVal α) × Vec3 (FloatVal α))
  completed : Bool
  deriving DecidableEq

/-- The callback `region_func` of `integrateRaysT`: the region key is added
to `imp_->regions` unless it is there. -/
def regionFunc (regions : List I16Vec3) (region_key : I16Vec3) : List I16Vec3 :=
  if region_key ∈ regions then regions else regions ++ [region_key]

/-- The loop `for (unsigned i = 0; i < point_count; i += 2)` of
`integrateRaysT`, from index `i`, for at most `fuel` passes, each call of
`walkRegions` with `walk_fuel` passes of its own; `rays` is the memory the
pointer `rays` addresses. -/
def uploadRays {α : Type} [LinearOrder α] (A : FloatArith α) (map : RegionLattice α)
    (max_range_filter : FloatVal α) (rays : Nat → Vec3 (FloatVal α)) (point_count : Nat)
    (preloaded_buffer : Bool) (walk_fuel : Nat) : Nat → Nat → RayUpload α → RayUpload α
  | 0, i, st => if i < point_count then { st with completed := false } else st
  | fuel + 1, i, st =>
    if i < point_count then
      let ray_start := A.vtoSingle (rays (i + 0))
      let ray_end := A.vtoSingle (rays (i + 1))
      if !goodRay A ray_start ray_end max_range_filter then
        uploadRays A map max_range_filter rays point_count preloaded_buffer walk_fuel fuel
          ((i + 2) % 4294967296) st
      else
        let st1 : RayUpload α :=
          if !preloaded_buffer then
            { st with
              uploaded := st.uploaded ++ [(ray_start, ray_end)]
              upload_count := (st.upload_count + 2) % 4294967296 }
          else st
        let walk := walkRegions A map (rays (i + 0)) (rays (i + 1)) walk_fuel
        let st2 : RayUpload α :=
          { st1 with
            walked := st1.walked ++ [(rays (i + 0), rays (i + 1))]
            regions := walk.keys.foldl regionFunc st1.regions }
        if walk.returned then
          uploadRays A map max_range_filter rays point_count preloaded_buffer walk_fuel fuel
            ((i + 2) % 4294967296) st2
        else { st2 with completed := false }
    else st

/-- `GpuMap::integrateRaysT(buffer, buffer_event, rays, point_count,
preloaded_buffer, end_points_as_occupied)` up to the end of the loop that
builds the region set and uploads the rays, with `upload_count` as it is set
after the loop; what follows queues the regions, see `enqueueRegion`, and
launches the batch.  `has_map`, `gpu_ok` and `has_cache` are the outcomes of
the three tests the function starts with. -/
def integrateRaysT {α : Type} [LinearOrder α] (A : FloatArith α) (map : RegionLattice α)
    (has_map gpu_ok has_cache : Bool) (max_range_filter : FloatVal α)
    (rays : Nat → Vec3 (FloatVal α)) (point_count : Nat) (preloaded_buffer : Bool)
    (fuel walk_fuel : Nat) : RayUpload α :=
  if !has_map then ⟨[], 0, [], [], true⟩
  else if !gpu_ok then ⟨[], 0, [], [], true⟩
  else if !has_cache then ⟨[], 0, [], [], true⟩
  else if point_count = 0 then ⟨[], 0, [], [], true⟩
  else
    let st := uploadRays A map max_range_filter rays point_count preloaded_buffer walk_fuel fuel 0
      ⟨[], 0, [], [], true⟩
    if preloaded_buffer then { st with upload_count := point_count } else st

/-- Four rays of the grid map: from the origin to `(1, 0, 0)`; from a start
with a not-a-number `x`; from the origin to `(3, 0, 0)`; from the origin to
`(0, 1, 0)`.  Memory past the eight points holds the origin. -/
def fourRays (i : Nat) : Vec3 (FloatVal Int) :=
  [⟨.finite 0, .finite 0, .finite 0⟩, ⟨.finite gridOne, .finite 0, .finite 0⟩,
    ⟨.nan, .finite 0, .finite 0⟩, ⟨.finite gridOne, .finite 0, .finite 0⟩,
    ⟨.finite 0, .finite 0, .finite 0⟩, ⟨.finite (3 * gridOne), .finite 0, .finite 0⟩,
    ⟨.finite 0, .finite 0, .finite 0⟩, ⟨.finite 0, .finite gridOne, .finite 0⟩].getD i
    ⟨.finite 0, .finite 0, .finite 0⟩

/-- What holds of every ray the loop of `integrateRaysT` has uploaded or
walked: it is a ray of the input that `goodRay` accepts, and nothing is
uploaded from a preloaded buffer. -/
def RayUpload.onlyGood {α : Type} [LinearOrder α] (A : FloatArith α)
    (max_range_filter : FloatVal α) (rays : Nat → Vec3 (FloatVal α)) (point_count : Nat)
    (preloaded_buffer : Bool) (st : RayUpload α) : Prop :=
  (∀ ray ∈ st.walked, ∃ i, i < point_count ∧ ray = (rays i, rays (i + 1)) ∧
    goodRay A (A.vtoSingle (rays i)) (A.vtoSingle (rays (i + 1))) max_range_filter = true) ∧
  (∀ ray ∈ st.uploaded, ∃ i, i < point_count ∧
    ray = (A.vtoSingle (rays i), A.vtoSingle (rays (i + 1))) ∧
    goodRay A (A.vtoSingle (rays i)) (A.vtoSingle (rays (i + 1))) max_range_filter = true ∧
    preloaded_buffer = false)

/-! ## Packed normals of `VoxelIncidentCompute.h` -/

/-- The constant `OHM_NORMAL_QUAT`, `16383.0f`. -/
def OHM_NORMAL_QUAT {α : Type} (A : FloatArith α) : FloatVal α := A.ofInt 16383

/-- The constant `OHM_NORMAL_MASK`, `0x3FFF`. -/
def OHM_NORMAL_MASK : Nat := 16383

/-- The constant `OHM_NORMAL_SHIFT_X`. -/
def OHM_NORMAL_SHIFT_X : Nat := 0

/-- The constant `OHM_NORMAL_SHIFT_Y`. -/
def OHM_NORMAL_SHIFT_Y : Nat := 0

/-- The constant `OHM_NORMAL_SIGN_BIT_Z`. -/
def OHM_NORMAL_SIGN_BIT_Z : Nat := 31

/-- Conversion of an `int` to `unsigned`: reduction modulo `2^32`. -/
def toUInt32 (n : Int) : Nat := (n % 4294967296).toNat

/-- `std::min(a, b)` on floats: `(b < a) ? b : a`. -/
def floatMin {α : Type} [LinearOrder α] (a b : FloatVal α) : FloatVal α :=
  if b.lt a then b else a

/-- `std::max(a, b)` on floats: `(a < b) ? b : a`. -/
def floatMax {α : Type} [LinearOrder α] (a b : FloatVal α) : FloatVal α :=
  if a.lt b then b else a

/-- `glm::normalize(v)`, which is `v * inversesqrt(dot(v, v))`. -/
def normalize {α : Type} (A : FloatArith α) (v : Vec3 (FloatVal α)) : Vec3 (FloatVal α) :=
  let inversesqrt := A.div (A.ofInt 1) (A.sqrt (A.dot v v))
  ⟨A.mul v.x inversesqrt, A.mul v.y inversesqrt, A.mul v.z inversesqrt⟩

/-- The unsigned integer `(packed_normal >> shift) | OHM_NORMAL_MASK` that
`decodeNormal` converts to `float` and divides by `OHM_NORMAL_QUAT`. -/
def decodeNumerator (packed_normal shift : Nat) : Nat :=
  (packed_normal >>> shift) ||| OHM_NORMAL_MASK

/-- The component `((packed_normal >> shift) | OHM_NORMAL_MASK) / OHM_NORMAL_QUAT`
of `decodeNormal` before normalisation. -/
def decodeComponent {α : Type} (A : FloatArith α) (packed_normal shift : Nat) : FloatVal α :=
  A.div (A.ofInt (decodeNumerator packed_normal shift : Nat)) (OHM_NORMAL_QUAT A)

/-- `decodeNormal(packed_normal)`. -/
def decodeNormal {α : Type} (A : FloatArith α) (packed_normal : Nat) : Vec3 (FloatVal α) :=
  let nx := decodeComponent A packed_normal OHM_NORMAL_SHIFT_X
  let ny := decodeComponent A packed_normal OHM_NORMAL_SHIFT_Y
  let nz := A.sqrt (A.sub (A.ofInt 1) (A.add (A.mul nx nx) (A.mul ny ny)))
  normalize A ⟨nx, ny, nz⟩

/-- `encodeNormal(normal)`. -/
def encodeNormal {α : Type} [LinearOrder α] (A : FloatArith α) (normal : Vec3 (FloatVal α)) : Nat :=
  let n : Nat := 0
  let normal_x := floatMax (A.ofInt (-1)) (floatMin normal.x (A.ofInt 1))
  let normal_y := floatMax (A.ofInt (-1)) (floatMin normal.y (A.ofInt 1))
  let normal_z := floatMax (A.ofInt (-1)) (floatMin normal.z (A.ofInt 1))
  let i := toInt16 (A.toInt (A.mul normal_x (OHM_NORMAL_QUAT A)))
  let n := n ||| (toUInt32 (i * 2 ^ OHM_NORMAL_SHIFT_X) &&& OHM_NORMAL_MASK)
  let i := toInt16 (A.toInt (A.mul normal_y (OHM_NORMAL_QUAT A)))
  let n := n ||| (toUInt32 (i * 2 ^ OHM_NORMAL_SHIFT_Y) &&& OHM_NORMAL_MASK)
  let n := n ||| (if normal_z.lt (A.ofInt 0) then 2 ^ OHM_NORMAL_SIGN_BIT_Z else 0)
  n

/-- The vector `(0, 0, 1)` of the grid arithmetic. -/
def gridUnitZ : Vec3 (FloatVal Int) := ⟨.finite 0, .finite 0, .finite gridOne⟩

/-! ## The batching loop of `SlamIOSource::run` -/

/-- A `slamio::SamplePoint`; the colour is kept as one packed value. -/
structure SamplePoint (α : Type) where
  timestamp : FloatVal α
  origin : Vec3 (FloatVal α)
  sample : Vec3 (FloatVal α)
  colour : Nat
  intensity : FloatVal α
  deriving DecidableEq

/-- The arguments of one call of `batch_function`. -/
structure RayBatch (α : Type) where
  origin : Vec3 (FloatVal α)
  sensor_and_samples : List (Vec3 (FloatVal α))
  timestamps : List (FloatVal α)
  intensities : List (FloatVal α)
  colours : List Nat
  deriving DecidableEq

/-- The options `run` reads, with the result of `samplesOnly()`. -/
structure SlamIOOptions (α : Type) where
  point_limit : Nat
  time_limit : FloatVal α
  start_time : FloatVal α
  sensor_batch_delta : FloatVal α
  batch_size : Nat
  samples_only : Bool

/-- The variables of `run` that its population loop changes, the samples the
loader still holds, the calls of `batch_function` made so far, and whether
`timestamps.back()` has been evaluated on an empty vector.  The variables
`batch_origin`, `last_batch_origin`, `timebase` and `last_batch_timestamp` are
never assigned in the loop and keep their initial values. -/
structure RunState (α : Type) where
  loader : List (SamplePoint α)
  sample : SamplePoint α
  point_pending : Bool
  finish : Bool
  sensor_and_samples : List (Vec3 (FloatVal α))
  colours : List Nat
  intensities : List (FloatVal α)
  timestamps : List (FloatVal α)
  process_points_local : Nat
  processed_point_count : Nat
  batches : List (RayBatch α)
  back_of_empty : Bool
  deriving DecidableEq

/-- The loop `while (sample.timestamp - timebase < input_start_time)` of
`run`: the sample the population loop starts with and the samples left, or
`none` when the loader runs out first. -/
def skipToStart {α : Type} [LinearOrder α] (A : FloatArith α) (timebase input_start_time : FloatVal α) :
    List (SamplePoint α) → SamplePoint α → Option (SamplePoint α × List (SamplePoint α))
  | [], sample =>
    if (A.sub sample.timestamp timebase).lt input_start_time then none else some (sample, [])
  | next :: rest, sample =>
    if (A.sub sample.timestamp timebase).lt input_start_time then
      skipToStart A timebase input_start_time rest next
    else some (sample, next :: rest)

/-- The condition of the population loop of `run`. -/
def populationCondition {α : Type} [LinearOrder α] (A : FloatArith α) (options : SlamIOOptions α)
    (timebase : FloatVal α) (st : RunState α) : Bool :=
  (decide (st.process_points_local < options.point_limit) || decide (options.point_limit = 0)) &&
    ((A.sub (A.ofInt (-1)) timebase).lt options.time_limit || options.time_limit.eq (A.ofInt 0)) &&
    st.point_pending && !st.finish

/-- One pass of the population loop of `run`.  The warning about zero motion
and the value of `processed_time_range_` are left out; of the statement
`processed_time_range_ = timestamps.back() - first_timestamp` the state keeps
whether `back()` met an empty vector. -/
def populationStep {α : Type} [LinearOrder α] (A : FloatArith α) (options : SlamIOOptions α)
    (batch_function : RayBatch α → Bool) (st : RunState α) : RunState α :=
  let batch_origin : Vec3 (FloatVal α) := ⟨A.ofInt 0, A.ofInt 0, A.ofInt 0⟩
  let sensor_delta_sq :=
    A.dot (A.vsub st.sample.origin batch_origin) (A.vsub st.sample.origin batch_origin)
  let sensor_delta_exceeded :=
    options.sensor_batch_delta.gt (A.ofInt 0) &&
      sensor_delta_sq.gt (A.mul options.sensor_batch_delta options.sensor_batch_delta)
  let st1 : RunState α :=
    if !sensor_delta_exceeded then
      { st with
        sensor_and_samples :=
          (if !options.samples_only then st.sensor_and_samples ++ [st.sample.origin]
            else st.sensor_and_samples) ++ [st.sample.sample]
        colours := st.colours ++ [st.sample.colour]
        intensities := st.intensities ++ [st.sample.intensity]
        timestamps := st.timestamps ++ [st.sample.timestamp]
        point_pending := false }
    else { st with point_pending := true }
  let st2 : RunState α :=
    if sensor_delta_exceeded || decide (st1.timestamps.length ≥ options.batch_size) ||
        (decide (options.point_limit ≠ 0) && !st1.timestamps.isEmpty &&
          decide ((st1.process_points_local + st1.timestamps.length) % 18446744073709551616
            ≥ options.point_limit)) then
      { st1 with
        finish := !batch_function
          ⟨batch_origin, st1.sensor_and_samples, st1.timestamps, st1.intensities, st1.colours⟩
        batches := st1.batches ++
          [⟨batch_origin, st1.sensor_and_samples, st1.timestamps, st1.intensities, st1.colours⟩]
        process_points_local :=
          (st1.process_points_local + st1.timestamps.length) % 18446744073709551616
        processed_point_count :=
          (st1.process_points_local + st1.timestamps.length) % 18446744073709551616
        back_of_empty := st1.back_of_empty || st1.timestamps.isEmpty
        sensor_and_samples := []
        timestamps := []
        intensities := []
        colours := [] }
    else st1
  if !st2.point_pending then
    match st2.loader with
    | [] => { st2 with point_pending := false }
    | next :: rest => { st2 with loader := rest, sample := next, point_pending := true }
  else st2

/-- The population loop of `run`, for at most `fuel` passes: the state it
stops in, or `none` when the passes run out. -/
def populationLoop {α : Type} [LinearOrder α] (A : FloatArith α) (options : SlamIOOptions α)
    (batch_function : RayBatch α → Bool) (timebase : FloatVal α) :
    Nat → RunState α → Option (RunState α)
  | 0, st => if populationCondition A options timebase st then none else some st
  | fuel + 1, st =>
    if populationCondition A options timebase st then
      populationLoop A options batch_function timebase fuel
        (populationStep A options batch_function st)
    else some st

/-- `SlamIOSource::run(batch_function)`: the return value and the calls of
`batch_function` in order, or `none` when the population loop does not stop
within `fuel` passes.  `has_loader` is the outcome of the test of `loader_`,
`loader` the samples `nextSample` delivers. -/
def run {α : Type} [LinearOrder α] (A : FloatArith α) (options : SlamIOOptions α)
    (has_loader : Bool) (loader : List (SamplePoint α)) (batch_function : RayBatch α → Bool)
    (fuel : Nat) : Option (Int × List (RayBatch α)) :=
  if !has_loader then some (1, [])
  else
    match loader with
    | [] => some (0, [])
    | first :: rest =>
      let timebase := first.timestamp
      match skipToStart A timebase options.start_time rest first with
      | none => some (0, [])
      | some (sample, loader1) =>
        let st0 : RunState α :=
          { loader := loader1, sample := sample, point_pending := true, finish := false
            sensor_and_samples := [], colours := [], intensities := [], timestamps := []
            process_points_local := 0, processed_point_count := 0, batches := []
            back_of_empty := false }
        match populationLoop A options batch_function timebase fuel st0 with
        | none => none
        | some st =>
          let st1 : RunState α :=
            if st.point_pending &&
                (decide (options.point_limit = 0) ||
                  decide (st.process_points_local < options.point_limit)) then
              { st with
                sensor_and_samples := st.sensor_and_samples ++ [st.sample.sample]
                colours := st.colours ++ [st.sample.colour]
                intensities := st.intensities ++ [st.sample.intensity]
                timestamps := st.timestamps ++ [st.sample.timestamp]
                point_pending := false }
            else st
          let last_batch_origin : Vec3 (FloatVal α) := ⟨A.ofInt 0, A.ofInt 0, A.ofInt 0⟩
          if !st1.timestamps.isEmpty && !st1.finish then
            some (0, st1.batches ++
              [⟨last_batch_origin, st1.sensor_and_samples, st1.timestamps, st1.intensities,
                st1.colours⟩])
          else some (0, st1.batches)

/-- Whether a batch is a well-formed ray list: two points for each timestamp
and one intensity and one colour for each. -/
def RayBatch.wellFormed {α : Type} (batch : RayBatch α) : Bool :=
  decide (batch.sensor_and_samples.length = 2 * batch.timestamps.length) &&
    decide (batch.intensities.length = batch.timestamps.length) &&
    decide (batch.colours.length = batch.timestamps.length)

/-- A sample of the grid arithmetic taken at time `timestamp` from the sensor
at `(1, 0, 0)`, hitting `(2, 0, 0)`. -/
def gridSample (timestamp : Int) : SamplePoint Int :=
  { timestamp := .finite (timestamp * gridOne)
    origin := ⟨.finite gridOne, .finite 0, .finite 0⟩
    sample := ⟨.finite (2 * gridOne), .finite 0, .finite 0⟩
    colour := 255
    intensity := .finite gridOne }

/-- Options without a point limit, start time or batch delta, a batch size of
`4096`, rays with origins, and the given time limit in seconds. -/
def optionsWithTimeLimit (time_limit : Int) : SlamIOOptions Int :=
  { point_limit := 0
    time_limit := .finite (time_limit * gridOne)
    start_time := .finite 0
    sensor_batch_delta := .finite 0
    batch_size := 4096
    samples_only := false }

/-- Options without a point limit, time limit or start time, a batch size of
`4096`, rays with origins, and a sensor batch delta of `0.5`. -/
def optionsWithBatchDelta : SlamIOOptions Int :=
  { point_limit := 0
    time_limit := .finite 0
    start_time := .finite 0
    sensor_batch_delta := .finite (gridOne / 2)
    batch_size := 4096
    samples_only := false }

/-- The state of the population loop of `run` with the sample `gridSample 10`
pending, the samples `loader` left, nothing collected, and `batches` handed
out so far. -/
def pendingState (loader : List (SamplePoint Int)) (batches : List (RayBatch Int))
    (back_of_empty : Bool) : RunState Int :=
  { loader := loader, sample := gridSample 10, point_pending := true, finish := false
    sensor_and_samples := [], colours := [], intensities := [], timestamps := []
    process_points_local := 0, processed_point_count := 0, batches := batches
    back_of_empty := back_of_empty }

/-- A batch without points, as handed out from the origin `(0, 0, 0)`. -/
def emptyBatch : RayBatch Int :=
  ⟨⟨.finite 0, .finite 0, .finite 0⟩, [], [], [], []⟩

/-! ## `OccupancyMap::collectDirtyRegions` -/

/-- The insertion of `item` into `regions` in `collectDirtyRegions`: before
the first entry with a larger stamp, at the end when there is none. -/
def insertDirty (item : Nat × I16Vec3) : List (Nat × I16Vec3) → List (Nat × I16Vec3)
  | [] => [item]
  | head :: rest =>
    if item.1 < head.1 then item :: head :: rest else head :: insertDirty item rest

/-- The loop of `collectDirtyRegions` over the chunks, on the pair of
`added_count` and `regions`. -/
def collectDirtyLoop {α : Type} (from_stamp : Nat) :
    List (I16Vec3 × MapChunk α) → Nat × List (Nat × I16Vec3) → Nat × List (Nat × I16Vec3)
  | [], acc => acc
  | chunk_ref :: rest, acc =>
    if chunk_ref.2.dirty_stamp > from_stamp then
      collectDirtyLoop from_stamp rest
        ((acc.1 + 1) % 4294967296,
          insertDirty (chunk_ref.2.dirty_stamp, chunk_ref.2.region.coord) acc.2)
    else collectDirtyLoop from_stamp rest acc

/-- `OccupancyMap::collectDirtyRegions(from_stamp, regions)`: the return value
and `regions` afterwards. -/
def collectDirtyRegions {α : Type} (imp : MapStore α) (from_stamp : Nat)
    (regions : List (Nat × I16Vec3)) : Nat × List (Nat × I16Vec3) :=
  collectDirtyLoop from_stamp imp.chunks (0, regions)

/-- The chunks of the list whose dirty stamp is above `from_stamp`, as the
pairs `collectDirtyRegions` makes of them. -/
def dirtyPairs {α : Type} (from_stamp : Nat) (chunks : List (I16Vec3 × MapChunk α)) :
    List (Nat × I16Vec3) :=
  (chunks.filter (fun chunk_ref => decide (chunk_ref.2.dirty_stamp > from_stamp))).map
    (fun chunk_ref => (chunk_ref.2.dirty_stamp, chunk_ref.2.region.coord))

/-- A list of stamped regions in ascending order of stamp. -/
def stampSorted (regions : List (Nat × I16Vec3)) : Prop :=
  regions.Pairwise (fun a b => a.1 ≤ b.1)

/-- The three chunks of `smallStore` with dirty stamps `4`, `9` and `6`. -/
def dirtyStore : MapStore Int :=
  { smallStore with
    chunks := [(⟨0, 0, 0⟩, { smallChunk 0 10 (.finite 847) .posInf with dirty_stamp := 4 }),
      (⟨1, 0, 0⟩, { smallChunk 1 20 (.finite (-405)) (.finite (-810)) with dirty_stamp := 9 }),
      (⟨2, 0, 0⟩, { smallChunk 2 30 .posInf .posInf with dirty_stamp := 6 })] }

/-! ## `OccupancyMap::calculateExtents` -/

/-- What `calculateExtents` writes through its four pointers and returns. -/
structure MapExtents (α : Type) where
  have_extents : Bool
  min_ext : Vec3 (FloatVal α)
  max_ext : Vec3 (FloatVal α)
  min_key : Key
  max_key : Key
  deriving DecidableEq

/-- The variables the loop of `calculateExtents` updates. -/
structure ExtentsAcc (α : Type) where
  min_spatial : Vec3 (FloatVal α)
  max_spatial : Vec3 (FloatVal α)
  min_region_key : I16Vec3
  max_region_key : I16Vec3
  have_extents : Bool
  deriving DecidableEq

/-- One pass of the loop of `calculateExtents` over the chunks. -/
def extentsStep {α : Type} [LinearOrder α] (A : FloatArith α)
    (region_spatial_dimensions : Vec3 (FloatVal α)) (acc : ExtentsAcc α) (chunk : MapChunk α) :
    ExtentsAcc α :=
  let region := chunk.region
  let region_min := A.vsub region.centre (A.vscale A.half region_spatial_dimensions)
  let region_max := A.vadd region.centre (A.vscale A.half region_spatial_dimensions)
  { min_spatial :=
      ⟨floatMin acc.min_spatial.x region_min.x, floatMin acc.min_spatial.y region_min.y,
        floatMin acc.min_spatial.z region_min.z⟩
    max_spatial :=
      ⟨floatMax acc.max_spatial.x region_max.x, floatMax acc.max_spatial.y region_max.y,
        floatMax acc.max_spatial.z region_max.z⟩
    min_region_key :=
      ⟨if acc.min_region_key.x < region.coord.x then acc.min_region_key.x else region.coord.x,
        if acc.min_region_key.y < region.coord.y then acc.min_region_key.y else region.coord.y,
        if acc.min_region_key.z < region.coord.z then acc.min_region_key.z else region.coord.z⟩
    max_region_key :=
      ⟨if region.coord.x < acc.max_region_key.x then acc.max_region_key.x else region.coord.x,
        if region.coord.y < acc.max_region_key.y then acc.max_region_key.y else region.coord.y,
        if region.coord.z < acc.max_region_key.z then acc.max_region_key.z else region.coord.z⟩
    have_extents := true }

/-- `OccupancyMap::calculateExtents(min_ext, max_ext, min_key, max_key)` with
all four pointers given.  `kNull` is `Key::kNull`, not under src/.  The
initial `min_region_key` is `glm::i16vec3(std::numeric_limits<uint16_t>::max())`
and the initial `max_region_key` is
`glm::i16vec3(std::numeric_limits<uint16_t>::min())`, each narrowed to 16 bits
signed; `-std::numeric_limits<double>::max()` is taken as zero minus the
maximum. -/
def calculateExtents {α : Type} [LinearOrder α] (A : FloatArith α) (imp : MapStore α)
    (origin region_spatial_dimensions : Vec3 (FloatVal α)) (kNull : Key) : MapExtents α :=
  if imp.chunks.isEmpty || (imp.region_voxel_dimensions.x == 0 ||
      imp.region_voxel_dimensions.y == 0 || imp.region_voxel_dimensions.z == 0) then
    ⟨false, origin, origin, kNull, kNull⟩
  else
    let init : ExtentsAcc α :=
      { min_spatial := ⟨A.maxValue, A.maxValue, A.maxValue⟩
        max_spatial := ⟨A.sub (A.ofInt 0) A.maxValue, A.sub (A.ofInt 0) A.maxValue,
          A.sub (A.ofInt 0) A.maxValue⟩
        min_region_key := ⟨toInt16 65535, toInt16 65535, toInt16 65535⟩
        max_region_key := ⟨toInt16 0, toInt16 0, toInt16 0⟩
        have_extents := false }
    let acc := imp.chunks.foldl
      (fun acc chunk_ref => extentsStep A region_spatial_dimensions acc chunk_ref.2) init
    { have_extents := acc.have_extents
      min_ext := acc.min_spatial
      max_ext := acc.max_spatial
      min_key := ⟨acc.min_region_key, ⟨0, 0, 0⟩⟩
      max_key := ⟨acc.max_region_key,
        ⟨toUInt8 ((imp.region_voxel_dimensions.x : Int) - 1),
          toUInt8 ((imp.region_voxel_dimensions.y : Int) - 1),
          toUInt8 ((imp.region_voxel_dimensions.z : Int) - 1)⟩⟩ }

/-- A map of one chunk of `2 × 1 × 1` voxels at region `(-3, 0, 0)`. -/
def negativeStore : MapStore Int :=
  { smallStore with chunks := [(⟨-3, 0, 0⟩, smallChunk (-3) 10 (.finite 847) .posInf)] }

/-- The null key taken for the evaluations. -/
def gridNullKey : Key := ⟨⟨-32768, -32768, -32768⟩, ⟨255, 255, 255⟩⟩

/-! ## Nearest neighbours queries of `NearestNeighbours.cpp` -/

/-- The comparison `a <= b` of two floats; false when either is not-a-number. -/
def FloatVal.le {α : Type} [LinearOrder α] (a b : FloatVal α) : Bool := b.ge a

/-- `ClosestResult`: the index of the closest result so far and its squared
range. -/
structure ClosestResult (α : Type) where
  index : Nat
  range : FloatVal α
  deriving DecidableEq

/-- The members of `NearestNeighboursDetail` that the query functions read
and write. -/
structure NearestNeighboursDetail (α : Type) where
  near_point : Vec3 (FloatVal α)
  search_radius : FloatVal α
  query_flags : Nat
  intersected_voxels : List Key
  ranges : List (FloatVal α)
  deriving DecidableEq

/-- What the query functions read of the map.  `voxelCentreLocal` is
`voxel::centreLocal`, `invalidMarkerValue` is `voxel::invalidMarkerValue()`,
and the two masks are those of `QueryFlag.h`, none of them under src/. -/
structure QueryMap (α : Type) where
  chunks : ChunkMap α
  region_voxel_dimensions : U8Vec3
  origin : Vec3 (FloatVal α)
  occupancy_threshold_value : FloatVal α
  voxelCentreLocal : Key → Vec3 (FloatVal α)
  invalidMarkerValue : FloatVal α
  kQfUnknownAsOccupied : Nat
  kQfNearestResult : Nat

/-- How a call of `regionNearestNeighboursCpu` ends: it returns `added`, or it
evaluates `*occupancy` with `occupancy` null, or it reads past the voxels of
the chunk. -/
inductive QueryOutcome (α : Type) where
  | returned (added : Nat) (query : NearestNeighboursDetail α) (closest : ClosestResult α)
  | nullOccupancy (query : NearestNeighboursDetail α) (closest : ClosestResult α)
  | pastEnd (query : NearestNeighboursDetail α) (closest : ClosestResult α)
  deriving DecidableEq

/-- The variables the voxel loops of `regionNearestNeighboursCpu` update.
The pointer `occupancy` is `none` when null and otherwise the voxel values
from the one it points to on. -/
structure RegionScan (α : Type) where
  occupancy : Option (List (FloatVal α))
  query : NearestNeighboursDetail α
  closest : ClosestResult α
  added : Nat
  deriving DecidableEq

/-- The test `voxel_occupied_func` of `regionNearestNeighboursCpu` for a
region with a chunk. -/
def voxelOccupied {α : Type} [LinearOrder α] (map : QueryMap α) (query_flags : Nat)
    (voxel : FloatVal α) : Bool :=
  if voxel.eq map.invalidMarkerValue then
    (if testFlag query_flags map.kQfUnknownAsOccupied then true else false)
  else if voxel.ge map.occupancy_threshold_value ||
      (testFlag query_flags map.kQfUnknownAsOccupied && voxel.eq map.invalidMarkerValue) then true
  else false

/-- The coordinates the three loops of `regionNearestNeighboursCpu` visit, in
order: `z` outermost, `x` innermost. -/
def regionVoxelCoords (region_voxel_dimensions : U8Vec3) : List (Nat × Nat × Nat) :=
  (List.range region_voxel_dimensions.z).flatMap fun z =>
    (List.range region_voxel_dimensions.y).flatMap fun y =>
      (List.range region_voxel_dimensions.x).map fun x => (x, y, z)

/-- The body of the innermost loop of `regionNearestNeighboursCpu`, once
`*occupancy` has been read as `voxel`, up to the advance of `occupancy`.
`has_chunk` tells which `voxel_occupied_func` is installed. -/
def scanVoxel {α : Type} [LinearOrder α] (A : FloatArith α) (map : QueryMap α)
    (region_key : I16Vec3) (query_origin : Vec3 (FloatVal α)) (has_chunk : Bool)
    (st : RegionScan α) (voxel : FloatVal α) (x y z : Nat) : RegionScan α :=
  if (if has_chunk then voxelOccupied map st.query.query_flags voxel else true) then
    let voxel_key : Key := ⟨region_key, ⟨x, y, z⟩⟩
    let voxel_vector := A.vsub (A.vtoSingle (map.voxelCentreLocal voxel_key)) query_origin
    let range_squared := A.dot voxel_vector voxel_vector
    if range_squared.le (A.mul st.query.search_radius st.query.search_radius) then
      let query1 : NearestNeighboursDetail α :=
        { st.query with
          intersected_voxels := st.query.intersected_voxels ++ [voxel_key]
          ranges := st.query.ranges ++ [A.sqrt range_squared] }
      let closest1 : ClosestResult α :=
        if range_squared.lt st.closest.range then
          ⟨query1.intersected_voxels.length - 1, range_squared⟩
        else st.closest
      { st with query := query1, closest := closest1, added := (st.added + 1) % 4294967296 }
    else st
  else st

/-- The three voxel loops of `regionNearestNeighboursCpu` over the
coordinates given, with the `return added` that follows them. -/
def scanVoxels {α : Type} [LinearOrder α] (A : FloatArith α) (map : QueryMap α)
    (region_key : I16Vec3) (query_origin : Vec3 (FloatVal α)) (has_chunk : Bool) :
    List (Nat × Nat × Nat) → RegionScan α → QueryOutcome α
  | [], st => .returned st.added st.query st.closest
  | (x, y, z) :: rest, st =>
    match st.occupancy with
    | none => .nullOccupancy st.query st.closest
    | some [] => .pastEnd st.query st.closest
    | some (voxel :: next) =>
      scanVoxels A map region_key query_origin has_chunk rest
        { scanVoxel A map region_key query_origin has_chunk st voxel x y z with
          occupancy := some next }

/-- `regionNearestNeighboursCpu(map, query, region_key, closest)`. -/
def regionNearestNeighboursCpu {α : Type} [LinearOrder α] (A : FloatArith α) (map : QueryMap α)
    (query : NearestNeighboursDetail α) (region_key : I16Vec3) (closest : ClosestResult α) :
    QueryOutcome α :=
  let query_origin := A.vtoSingle (A.vsub query.near_point map.origin)
  match map.chunks.find region_key with
  | none =>
    if (query.query_flags &&& map.kQfUnknownAsOccupied) == 0 then .returned 0 query closest
    else
      scanVoxels A map region_key query_origin false
        (regionVoxelCoords map.region_voxel_dimensions) ⟨none, query, closest, 0⟩
  | some chunk =>
    scanVoxels A map region_key query_origin true
      (regionVoxelCoords map.region_voxel_dimensions)
      ⟨some (chunk.occupancy_voxels.map fun voxel => voxel.occupancy), query, closest, 0⟩

/-- One result as `finishGpuOperation` reads it back from the GPU buffers. -/
structure GpuResult (α : Type) where
  region_key : I16Vec3
  local_key : U8Vec3
  local_range : FloatVal α
  deriving DecidableEq

/-- The loop of `finishGpuOperation` that collates the results, on the
triple of `added`, the query and `closest`. -/
def collateResults {α : Type} [LinearOrder α] (A : FloatArith α) :
    List (GpuResult α) → Nat × NearestNeighboursDetail α × ClosestResult α →
      Nat × NearestNeighboursDetail α × ClosestResult α
  | [], acc => acc
  | result :: rest, (added, query, closest) =>
    let query1 : NearestNeighboursDetail α :=
      { query with
        intersected_voxels := query.intersected_voxels ++ [⟨result.region_key, result.local_key⟩]
        ranges := query.ranges ++ [result.local_range] }
    let closest1 : ClosestResult α :=
      if (A.mul result.local_range result.local_range).lt closest.range then
        ⟨query1.intersected_voxels.length, A.mul result.local_range result.local_range⟩
      else closest
    collateResults A rest ((added + 1) % 4294967296, query1, closest1)

/-- `finishGpuOperation(query, gpu_data, closest)`: `err` is the result of
launching the kernel and `results` what the kernel, which is device code, has
written to the result buffers. -/
def finishGpuOperation {α : Type} [LinearOrder α] (A : FloatArith α) (err : Bool)
    (results : List (GpuResult α)) (query : NearestNeighboursDetail α)
    (closest : ClosestResult α) : Nat × NearestNeighboursDetail α × ClosestResult α :=
  if err then (0, query, closest)
  else if results.isEmpty then (0, query, closest)
  else collateResults A results (0, query, closest)

/-- The end of `NearestNeighbours::onExecute`: the query with its results cut
down to the closest one when `kQfNearestResult` is set, and
`number_of_results`; `none` when `intersected_voxels[closest.index]` or
`ranges[closest.index]` is read out of bounds. -/
def onExecuteResults {α : Type} (map : QueryMap α) (query : NearestNeighboursDetail α)
    (closest : ClosestResult α) : Option (NearestNeighboursDetail α × Nat) :=
  if testFlag query.query_flags map.kQfNearestResult && !query.intersected_voxels.isEmpty then
    match query.intersected_voxels[closest.index]?, query.ranges[closest.index]? with
    | some voxel, some range =>
      some ({ query with intersected_voxels := [voxel], ranges := [range] }, 1)
    | _, _ => none
  else some (query, query.intersected_voxels.length)

/-- The constant `kGpuBatchSize`. -/
def kGpuBatchSize : Nat := 32 * 32 * 32

/-- The coordinates `kx`, `ky`, `kz` that `regionNearestNeighboursGpu`
computes from `pushed` at the head of each pass of its `while` loop. -/
def resumeCoords (region_voxel_dimensions : U8Vec3) (pushed : Nat) : Vec3 Nat :=
  ⟨pushed % region_voxel_dimensions.x,
    (pushed / region_voxel_dimensions.x) % region_voxel_dimensions.y,
    (pushed / (region_voxel_dimensions.x * region_voxel_dimensions.x))
      % region_voxel_dimensions.z⟩

/-- The linear index of a voxel in `x`-fastest order, as `voxels + pushed`
addresses the occupancy values. -/
def linearVoxelIndex (region_voxel_dimensions : U8Vec3) (k : Vec3 Nat) : Nat :=
  k.x + region_voxel_dimensions.x * (k.y + region_voxel_dimensions.y * k.z)

/-- Modelled from the spec: `voxel::centreLocal` is not under src/.  Per §4.A
the centre of a voxel lies half a voxel above its lower corner, relative to
the map origin; here for regions of extent `1.0` with `2 × 1 × 1` voxels. -/
def smallVoxelCentre (key : Key) : Vec3 (FloatVal Int) :=
  ⟨.finite (key.regionKey.x * gridOne - gridOne / 2
      + (2 * (key.localKey.x : Int) + 1) * (gridOne / 4)),
    .finite (key.regionKey.y * gridOne), .finite (key.regionKey.z * gridOne)⟩

/-- A map for queries with the given chunks: regions of `2 × 1 × 1` voxels,
origin zero, occupancy threshold `0`, the never-observed marker `+∞`, and the
bits `1` and `2` taken for `kQfUnknownAsOccupied` and `kQfNearestResult`. -/
def gridQueryMap (chunks : ChunkMap Int) : QueryMap Int :=
  { chunks := chunks
    region_voxel_dimensions := ⟨2, 1, 1⟩
    origin := ⟨.finite 0, .finite 0, .finite 0⟩
    occupancy_threshold_value := .finite 0
    voxelCentreLocal := smallVoxelCentre
    invalidMarkerValue := .posInf
    kQfUnknownAsOccupied := 1
    kQfNearestResult := 2 }

/-- A query around the origin with radius `2.0` and no results yet. -/
def originQuery (query_flags : Nat) : NearestNeighboursDetail Int :=
  ⟨⟨.finite 0, .finite 0, .finite 0⟩, .finite (2 * gridOne), query_flags, [], []⟩

/-! ## Stream operators of `ohm::NdtMode` in `OhmPopCpu.cpp` -/

/-- The three modes of `ohm::NdtMode`. -/
inductive NdtMode where
  | kNone
  | kOccupancy
  | kTraversability
  deriving DecidableEq, Repr

/-- The result of `operator>>`: the mode assigned, or the argument of the
`cxxopts::invalid_option_format_error` thrown. -/
inductive NdtModeParse where
  | assigned (mode : NdtMode)
  | thrown (mode_str : String)
  deriving DecidableEq, Repr

/-- `std::isspace` in the C locale: the space and the characters `9` to `13`. -/
def isSpace (c : Char) : Bool :=
  c.toNat == 32 || (decide (9 ≤ c.toNat) && decide (c.toNat ≤ 13))

/-- The extraction `in >> mode_str` of a `std::string`: leading white space
is skipped and the characters up to the next white space are taken. -/
def extractWord (stream : List Char) : String :=
  String.mk ((stream.dropWhile isSpace).takeWhile fun c => !isSpace c)

/-- `operator<<(std::ostream &, const ohm::NdtMode)` for the three modes: the
characters written. -/
def writeNdtMode : NdtMode → String
  | .kNone => "none"
  | .kOccupancy => "om"
  | .kTraversability => "tm"

/-- `operator>>(std::istream &, ohm::NdtMode &)` on a stream holding the
characters given. -/
def readNdtMode (stream : String) : NdtModeParse :=
  let mode_str := extractWord stream.data
  if mode_str = "off" then .assigned .kNone
  else if mode_str = "om" then .assigned .kOccupancy
  else if mode_str = "tm" then .assigned .kTraversability
  else .thrown mode_str

/-- An overlap test for two boxes, taken for `Aabb::overlaps` (not under src/)
in evaluations: the extents meet on every axis, touching included. -/
def boxOverlaps (a b : Aabb Int) : Bool :=
  a.min_extents.x.le b.max_extents.x && b.min_extents.x.le a.max_extents.x &&
    a.min_extents.y.le b.max_extents.y && b.min_extents.y.le a.max_extents.y &&
    a.min_extents.z.le b.max_extents.z && b.min_extents.z.le a.max_extents.z

/-! ## A map geometry in exact arithmetic -/

/-- The geometry of a map in exact integer arithmetic: the origin, half the
voxel resolution, and the number of voxels of a region along each axis. -/
structure LatticeGeometry where
  origin : Vec3 Int
  half_resolution : Int
  region_voxel_dimensions : U8Vec3

/-- The member `region_spatial_dimensions` along an axis: the resolution times
the number of voxels. -/
def LatticeGeometry.extent (g : LatticeGeometry) (a : Fin 3) : Int :=
  2 * g.half_resolution * (g.region_voxel_dimensions.get a : Int)

/-- Modelled from the spec: `MapRegion(point, origin, extent)` is not under
src/.  Per §4.A the region coordinate is the floor of the offset of the point
from the origin over the region extent, a point on a boundary going to the
larger coordinate, stored in 16 bits; the region of coordinate `k` is centred
on `k` times the extent, as `regionCentreLocal` and `regionSpatialMin` have
it, so the offset is taken from half an extent below the origin. -/
def latticeRegionCoord (g : LatticeGeometry) (a : Fin 3) : FloatVal Int → Int
  | .finite x => toInt16 ((2 * (x - g.origin.get a) + g.extent a) / (2 * g.extent a))
  | _ => 0

/-- Modelled from the spec: the constructor `MapRegion(point, origin, extent)`,
see `latticeRegionCoord`; the centre is the origin plus the region coordinate
times the extent. -/
def latticeMapRegion (g : LatticeGeometry) (point : Vec3 (FloatVal Int)) : MapRegion Int :=
  ⟨⟨latticeRegionCoord g 0 point.x, latticeRegionCoord g 1 point.y,
      latticeRegionCoord g 2 point.z⟩,
    ⟨.finite (g.origin.x + latticeRegionCoord g 0 point.x * g.extent 0),
      .finite (g.origin.y + latticeRegionCoord g 1 point.y * g.extent 1),
      .finite (g.origin.z + latticeRegionCoord g 2 point.z * g.extent 2)⟩⟩

/-- Modelled from the spec: `voxel::centreGlobal` is not under src/.  Per
§4.A the centre of a voxel is a world coordinate; it lies half a voxel above
the lower corner of the voxel, the lower corner of voxel `(0, 0, 0)` being the
lower corner of the region, half an extent below the region centre. -/
def latticeVoxelCentre (g : LatticeGeometry) (key : Key) : Vec3 (FloatVal Int) :=
  let centre (a : Fin 3) : FloatVal Int :=
    .finite (g.origin.get a + key.regionKey.get a * g.extent a
      - g.half_resolution * (g.region_voxel_dimensions.get a : Int)
      + (2 * (key.localKey.get a : Int) + 1) * g.half_resolution)
  ⟨centre 0, centre 1, centre 2⟩

/-- The chunk factory of a map with the given geometry. -/
def latticeFactory (g : LatticeGeometry) (blank : MapChunk Int) : ChunkFactory Int :=
  ⟨latticeVoxelCentre g, latticeMapRegion g, blank⟩

/-- A geometry with origin `(5, -7, 11)`, resolution `6` and regions of
`4 × 3 × 2` voxels. -/
def offsetGeometry : LatticeGeometry := ⟨⟨5, -7, 11⟩, 3, ⟨4, 3, 2⟩⟩

/-! ## Basic facts -/

theorem Vec3.get_set_same {α : Type} (v : Vec3 α) (i : Fin 3) (a : α) :
    (v.set i a).get i = a := by
  fin_cases i <;> rfl

theorem Vec3.get_set_ne {α : Type} (v : Vec3 α) (i j : Fin 3) (a : α) (h : j ≠ i) :
    (v.set i a).get j = v.get j := by
  fin_cases i <;> fin_cases j <;> first | rfl | exact absurd rfl h

theorem toInt16_toUInt16 (n : Int) : toInt16 (toUInt16 n) = toInt16 n := by
  unfold toInt16 toUInt16; omega

theorem toInt16_of_isInt16 (n : Int) (h : isInt16 n) : toInt16 n = n := by
  unfold isInt16 INT16_MIN INT16_MAX at h
  unfold toInt16; omega

theorem isInt16_toInt16 (n : Int) : isInt16 (toInt16 n) := by
  unfold isInt16 INT16_MIN INT16_MAX toInt16; omega

theorem rangeBetween_get (dims : U8Vec3) (a b : Key) (i : Fin 3) :
    (rangeBetween dims a b).get i =
      (b.localKey.get i : Int) - (a.localKey.get i : Int)
        + toInt16 (b.regionKey.get i - a.regionKey.get i) * (dims.get i : Int) := by
  fin_cases i <;> rfl

theorem stepKey_local_get (dims : U8Vec3) (key : Key) (axis a : Fin 3) (dir : Int) :
    (stepKey dims key axis dir).localKey.get a =
      if a = axis then
        toUInt8 (if (key.localKey.get axis : Int) + dir < 0 then (dims.get axis : Int) - 1
          else if (key.localKey.get axis : Int) + dir ≥ (dims.get axis : Int) then 0
          else (key.localKey.get axis : Int) + dir)
      else key.localKey.get a := by
  unfold stepKey Key.setRegionAxis Key.setLocalAxis Key.localKey
  by_cases h : a = axis
  · subst h
    simp only [if_true, Vec3.get_set_same]
    split_ifs <;> rfl
  · simp only [if_neg h]
    exact Vec3.get_set_ne _ _ _ _ h

theorem stepKey_region_get (dims : U8Vec3) (key : Key) (axis a : Fin 3) (dir : Int) :
    (stepKey dims key axis dir).regionKey.get a =
      if a = axis then
        toInt16 (if (key.localKey.get axis : Int) + dir < 0 then key.regionKey.get axis - 1
          else if (key.localKey.get axis : Int) + dir ≥ (dims.get axis : Int) then
            key.regionKey.get axis + 1
          else key.regionKey.get axis)
      else key.regionKey.get a := by
  unfold stepKey Key.setRegionAxis Key.setLocalAxis Key.regionKey
  by_cases h : a = axis
  · subst h
    simp only [if_true, Vec3.get_set_same, toInt16_toUInt16]
    split_ifs <;> rfl
  · simp only [if_neg h]
    exact Vec3.get_set_ne _ _ _ _ h

theorem applyUpdate_of_ne {P α : Type} (d : OccupancyMapDetail P α) (voxels : Voxels α)
    (u : VoxelUpdate) (k : Key) (h : u.key ≠ k) : applyUpdate d voxels u k = voxels k := by
  cases u <;> exact Function.update_noteq (Ne.symm h) _ _

theorem applyUpdates_of_ne {P α : Type} (d : OccupancyMapDetail P α) (updates : List VoxelUpdate)
    (voxels : Voxels α) (k : Key) (h : ∀ u ∈ updates, u.key ≠ k) :
    applyUpdates d voxels updates k = voxels k := by
  induction updates generalizing voxels with
  | nil => rfl
  | cons u us ih =>
    have hu : u.key ≠ k := h u (List.mem_cons_self _ _)
    have hus : ∀ w ∈ us, w.key ≠ k := fun w hw => h w (List.mem_cons_of_mem _ hw)
    show applyUpdates d (applyUpdate d voxels u) us k = voxels k
    rw [ih _ hus, applyUpdate_of_ne d voxels u k hu]

theorem applyUpdates_append {P α : Type} (d : OccupancyMapDetail P α) (voxels : Voxels α)
    (us ws : List VoxelUpdate) :
    applyUpdates d voxels (us ++ ws) = applyUpdates d (applyUpdates d voxels us) ws := by
  unfold applyUpdates
  exact List.foldl_append _ _ _ _

theorem integrateKeys_cons {P α : Type} [LinearOrder α] (d : OccupancyMapDetail P α) (flags : Nat)
    (key : Key) (keys : List Key) (voxels : Voxels α) :
    integrateKeys d flags (key :: keys) voxels =
      if (testFlag flags d.kRfStopOnFirstOccupied &&
          (voxels key).ge d.occupancy_threshold_value && (voxels key).ne d.invalidMarkerValue) = true then
        ⟨if (!testFlag flags d.kRfClearOnly || (voxels key).ge d.occupancy_threshold_value) = true
            then applyUpdate d voxels (.miss key) else voxels,
          if (!testFlag flags d.kRfClearOnly || (voxels key).ge d.occupancy_threshold_value) = true
            then [VoxelUpdate.miss key] else [], true⟩
      else
        ⟨(integrateKeys d flags keys
            (if (!testFlag flags d.kRfClearOnly || (voxels key).ge d.occupancy_threshold_value) = true
              then applyUpdate d voxels (.miss key) else voxels)).voxels,
          (if (!testFlag flags d.kRfClearOnly || (voxels key).ge d.occupancy_threshold_value) = true
            then [VoxelUpdate.miss key] else []) ++
          (integrateKeys d flags keys
            (if (!testFlag flags d.kRfClearOnly || (voxels key).ge d.occupancy_threshold_value) = true
              then applyUpdate d voxels (.miss key) else voxels)).updates,
          (integrateKeys d flags keys
            (if (!testFlag flags d.kRfClearOnly || (voxels key).ge d.occupancy_threshold_value) = true
              then applyUpdate d voxels (.miss key) else voxels)).stopped⟩ := by
  rfl

theorem integrateKeys_voxels {P α : Type} [LinearOrder α] (d : OccupancyMapDetail P α) (flags : Nat)
    (keys : List Key) (voxels : Voxels α) :
    (integrateKeys d flags keys voxels).voxels
      = applyUpdates d voxels (integrateKeys d flags keys voxels).updates := by
  induction keys generalizing voxels with
  | nil => rfl
  | cons key keys ih =>
    rw [integrateKeys_cons]
    split_ifs with hstop hmiss hmiss
    · rfl
    · rfl
    · simp only [ih, applyUpdates_append]; rfl
    · simp only [ih, List.nil_append]

theorem integrateKeys_updates_miss {P α : Type} [LinearOrder α] (d : OccupancyMapDetail P α)
    (flags : Nat) (keys : List Key) (voxels : Voxels α) :
    ∀ u ∈ (integrateKeys d flags keys voxels).updates, ∃ k ∈ keys, u = VoxelUpdate.miss k := by
  induction keys generalizing voxels with
  | nil => intro u hu; cases hu
  | cons key keys ih =>
    intro u hu
    rw [integrateKeys_cons] at hu
    split_ifs at hu with hstop hmiss hmiss
    · simp only [List.mem_singleton] at hu
      exact ⟨key, List.mem_cons_self _ _, hu⟩
    · cases hu
    · simp only [List.singleton_append, List.mem_cons] at hu
      rcases hu with hu | hu
      · exact ⟨key, List.mem_cons_self _ _, hu⟩
      · obtain ⟨k, hk, hku⟩ := ih _ u hu
        exact ⟨k, List.mem_cons_of_mem _ hk, hku⟩
    · simp only [List.nil_append] at hu
      obtain ⟨k, hk, hku⟩ := ih _ u hu
      exact ⟨k, List.mem_cons_of_mem _ hk, hku⟩

theorem integrateRay_voxels {P α : Type} [LinearOrder α] (d : OccupancyMapDetail P α) (flags : Nat)
    (ray_start ray_end : P) (voxels : Voxels α) :
    (integrateRay d flags ray_start ray_end voxels).1
      = applyUpdates d voxels (integrateRay d flags ray_start ray_end voxels).2 := by
  unfold integrateRay
  simp only
  split_ifs
  · rfl
  · rw [applyUpdates_append, ← integrateKeys_voxels]; rfl
  · rw [applyUpdates_append, ← integrateKeys_voxels]; rfl
  · exact integrateKeys_voxels _ _ _ _

theorem integrateRays_voxels {P α : Type} [LinearOrder α] (d : OccupancyMapDetail P α) (flags : Nat) :
    ∀ (rays : List P) (voxels : Voxels α),
      (integrateRays d flags rays voxels).1
        = applyUpdates d voxels (integrateRays d flags rays voxels).2
  | [], _ => rfl
  | [_], _ => rfl
  | ray_start :: ray_end :: rays, voxels => by
    simp only [integrateRays]
    rw [integrateRays_voxels d flags rays, applyUpdates_append, ← integrateRay_voxels]

theorem integrateKeys_congr_flags {P α : Type} [LinearOrder α] (d : OccupancyMapDetail P α)
    (flags flags' : Nat)
    (hstop : testFlag flags d.kRfStopOnFirstOccupied = testFlag flags' d.kRfStopOnFirstOccupied)
    (hclear : testFlag flags d.kRfClearOnly = testFlag flags' d.kRfClearOnly) :
    ∀ (keys : List Key) (voxels : Voxels α),
      integrateKeys d flags keys voxels = integrateKeys d flags' keys voxels := by
  intro keys
  induction keys with
  | nil => intro voxels; rfl
  | cons key keys ih =>
    intro voxels
    rw [integrateKeys_cons, integrateKeys_cons, hstop, hclear, ih]

theorem integrateRay_congr_flags {P α : Type} [LinearOrder α] (d : OccupancyMapDetail P α)
    (flags flags' : Nat)
    (hend : testFlag flags d.kRfEndPointAsFree = testFlag flags' d.kRfEndPointAsFree)
    (hstop : testFlag flags d.kRfStopOnFirstOccupied = testFlag flags' d.kRfStopOnFirstOccupied)
    (hclear : testFlag flags d.kRfClearOnly = testFlag flags' d.kRfClearOnly)
    (ray_start ray_end : P) (voxels : Voxels α) :
    integrateRay d flags ray_start ray_end voxels = integrateRay d flags' ray_start ray_end voxels := by
  unfold integrateRay
  simp only [integrateKeys_congr_flags d flags flags' hstop hclear, hend]

theorem ChunkMap.find_append_singleton {α : Type} (chunks : ChunkMap α) (key other : I16Vec3)
    (chunk : MapChunk α) :
    ChunkMap.find (chunks ++ [(key, chunk)]) other =
      match ChunkMap.find chunks other with
      | some c => some c
      | none => if other = key then some chunk else none := by
  unfold ChunkMap.find
  induction chunks with
  | nil =>
    by_cases h : other = key
    · subst h; simp [List.lookup]
    · have hb : (other == key) = false := by simpa using h
      simp [List.lookup, hb, h]
  | cons e rest ih =>
    obtain ⟨k, c⟩ := e
    by_cases h : other = k
    · subst h; simp [List.lookup]
    · have hb : (other == k) = false := by simpa using h
      simp only [List.cons_append, List.lookup, hb]
      exact ih

theorem cullLoop_spec {α : Type} (cull_func : MapChunk α → Bool) :
    ∀ (entries : List (I16Vec3 × MapChunk α)) (removed_count : Nat),
      (cullLoop cull_func entries removed_count).1 = entries.filter (fun e => !cull_func e.2) ∧
      (cullLoop cull_func entries removed_count).2 % 4294967296 =
        (removed_count + entries.countP (fun e => cull_func e.2)) % 4294967296 ∧
      (removed_count < 4294967296 → (cullLoop cull_func entries removed_count).2 < 4294967296) := by
  intro entries
  induction entries with
  | nil => intro n; simp [cullLoop]
  | cons e rest ih =>
    intro n
    unfold cullLoop
    by_cases h : cull_func e.2 = true
    · simp only [h, if_true, Bool.not_true, List.filter_cons, Bool.false_eq_true, if_false,
        List.countP_cons_of_pos]
      obtain ⟨h1, h2, h3⟩ := ih ((n + 1) % 4294967296)
      refine ⟨h1, ?_, fun _ => h3 (Nat.mod_lt _ (by norm_num))⟩
      rw [h2]
      omega
    · have h' : cull_func e.2 = false := by simpa using h
      obtain ⟨h1, h2, h3⟩ := ih n
      simp only [h', Bool.false_eq_true, if_false, Bool.not_false, List.filter_cons, if_true,
        h1, true_and]
      rw [List.countP_cons_of_neg _ _ (by simp [h'])]
      exact ⟨h2, h3⟩

theorem LayerMemWeight.assign_of_lookup_none (weights : LayerMemWeight) (i : Int) (v : Nat)
    (h : weights.lookup i = none) : weights.assign i v = weights ++ [(i, v)] := by
  induction weights with
  | nil => rfl
  | cons e rest ih =>
    obtain ⟨k, w⟩ := e
    by_cases hk : i = k
    · subst hk
      simp [List.lookup] at h
    · have hb : (i == k) = false := by simpa using hk
      simp only [List.lookup, hb] at h
      simp only [LayerMemWeight.assign, if_neg (Ne.symm hk), ih h, List.cons_append]

theorem lookup_append_of_none (weights : LayerMemWeight) (i j : Int) (v : Nat)
    (h : weights.lookup j = none) (hij : j ≠ i) : (weights ++ [(i, v)]).lookup j = none := by
  induction weights with
  | nil =>
    have hb : (j == i) = false := by simpa using hij
    simp [List.lookup, hb]
  | cons e rest ih =>
    obtain ⟨k, w⟩ := e
    by_cases hk : j = k
    · subst hk
      simp [List.lookup] at h
    · have hb : (j == k) = false := by simpa using hk
      simp only [List.lookup, hb] at h
      simp only [List.cons_append, List.lookup, hb]
      exact ih h

theorem collectWeights_spec (layerByteSize : Int → Nat) :
    ∀ (known : List Int) (weights : LayerMemWeight) (total : Nat),
      (known.filter (fun i => decide (0 ≤ i))).Nodup →
      (∀ i ∈ known.filter (fun i => decide (0 ≤ i)), weights.lookup i = none) →
      total < 18446744073709551616 →
      (collectWeights layerByteSize known (weights, total)).1
        = weights ++ (known.filter (fun i => decide (0 ≤ i))).map (fun i => (i, layerByteSize i)) ∧
      (collectWeights layerByteSize known (weights, total)).2
        = (total + ((known.filter (fun i => decide (0 ≤ i))).map layerByteSize).sum)
          % 18446744073709551616 := by
  intro known
  induction known with
  | nil =>
    intro weights total _ _ ht
    simp [collectWeights, Nat.mod_eq_of_lt ht]
  | cons idx rest ih =>
    intro weights total hnodup hnone ht
    by_cases hidx : 0 ≤ idx
    · have hfilter : (idx :: rest).filter (fun i => decide (0 ≤ i))
          = idx :: rest.filter (fun i => decide (0 ≤ i)) := by
        simp [List.filter_cons, hidx]
      rw [hfilter] at hnodup hnone ⊢
      rw [List.nodup_cons] at hnodup
      have hassign := LayerMemWeight.assign_of_lookup_none weights idx (layerByteSize idx)
        (hnone idx (List.mem_cons_self _ _))
      have hrec := ih (weights ++ [(idx, layerByteSize idx)])
        (toSizeT (total + layerByteSize idx)) hnodup.2
        (fun i hi => lookup_append_of_none weights idx i _
          (hnone i (List.mem_cons_of_mem _ hi)) (fun h => hnodup.1 (h ▸ hi)))
        (Nat.mod_lt _ (by norm_num))
      simp only [collectWeights, if_pos hidx, hassign]
      refine ⟨by rw [hrec.1]; simp, ?_⟩
      rw [hrec.2]
      unfold toSizeT
      simp only [List.map_cons, List.sum_cons]
      omega
    · have hfilter : (idx :: rest).filter (fun i => decide (0 ≤ i))
          = rest.filter (fun i => decide (0 ≤ i)) := by
        simp [List.filter_cons, hidx]
      rw [hfilter] at hnodup hnone ⊢
      simp only [collectWeights, if_neg hidx]
      exact ih weights total hnodup hnone ht

theorem lookup_map_weight (present : List Int) (g : Int → Nat) (i : Int) (h : i ∈ present) :
    (present.map (fun j => (j, g j))).lookup i = some (g i) := by
  induction present with
  | nil => cases h
  | cons k rest ih =>
    by_cases hk : i = k
    · subst hk
      simp [List.lookup]
    · have hb : (i == k) = false := by simpa using hk
      simp only [List.map_cons, List.lookup, hb]
      exact ih (by simpa [hk] using h)

theorem sum_div_le (present : List Int) (g : Int → Nat) (c : Nat) :
    (present.map (fun i => g i / c)).sum ≤ (present.map g).sum / c := by
  induction present with
  | nil => simp
  | cons k rest ih =>
    simp only [List.map_cons, List.sum_cons]
    exact le_trans (Nat.add_le_add_left ih _) (Nat.add_div_le_add_div _ _ _)

theorem sum_map_mul_right (present : List Int) (g : Int → Nat) (t : Nat) :
    (present.map (fun i => g i * t)).sum = (present.map g).sum * t := by
  induction present with
  | nil => simp
  | cons k rest ih => simp only [List.map_cons, List.sum_cons, ih]; ring

theorem markRegionDirty_state {C : Type} (chunk : Option I16Vec3) (branch : EnqueueOutcome C) :
    (markRegionDirty chunk branch).state.events = branch.state.events ∧
    (markRegionDirty chunk branch).state.next_buffers_index = branch.state.next_buffers_index ∧
    (markRegionDirty chunk branch).state.region_counts = branch.state.region_counts ∧
    (markRegionDirty chunk branch).state.map_stamp = branch.state.map_stamp := by
  cases branch <;> cases chunk <;> exact ⟨rfl, rfl, rfl, rfl⟩

theorem one_sub_ne_self (n : Nat) : 1 - n ≠ n := by omega

theorem toInt16_add_toInt16 (a b : Int) : toInt16 (toInt16 a + b) = toInt16 (a + b) := by
  unfold toInt16; omega

/-- The loop of `walkRegions` with a zero time on `x` and not-a-number on `y`
and `z` steps down `z` and never stops. -/
theorem walkLoop_nan_steps_z (fuel : Nat) (z : Int) :
    walkLoop gridArith ⟨1, 0, 0⟩ ⟨1, -1, -1⟩ ⟨.finite 0, .nan, .nan⟩ ⟨.finite 0, .nan, .nan⟩ fuel
      false ⟨0, 0, toInt16 z⟩ ⟨.finite 0, .nan, .nan⟩
    = ⟨(List.range fuel).map (fun i : Nat => ⟨0, 0, toInt16 (z - (i : Int))⟩), false⟩ := by
  have hne : ∀ w : Int, (⟨0, 0, w⟩ : I16Vec3) ≠ ⟨1, 0, 0⟩ := by
    intro w h
    injection h with hx _ _
    exact absurd hx (by decide)
  induction fuel generalizing z with
  | zero => simp [walkLoop, hne]
  | succ n ih =>
    have haxis : walkAxis (⟨.finite 0, .nan, .nan⟩ : Vec3 (FloatVal Int)) = 2 := by decide
    have hlimit : ((gridArith.abs ((⟨.finite 0, .nan, .nan⟩ : Vec3 (FloatVal Int)).get 2)).gt
        ((⟨.finite 0, .nan, .nan⟩ : Vec3 (FloatVal Int)).get 2)) = false := by decide
    have htime : (⟨.finite 0, .nan, .nan⟩ : Vec3 (FloatVal Int)).set 2
        (gridArith.add ((⟨.finite 0, .nan, .nan⟩ : Vec3 (FloatVal Int)).get 2)
          ((⟨.finite 0, .nan, .nan⟩ : Vec3 (FloatVal Int)).get 2))
        = ⟨.finite 0, .nan, .nan⟩ := by decide
    have hkey : (⟨0, 0, toInt16 z⟩ : I16Vec3).set 2
        (toInt16 ((⟨0, 0, toInt16 z⟩ : I16Vec3).get 2 + (⟨1, -1, -1⟩ : Vec3 Int).get 2))
        = ⟨0, 0, toInt16 (z - 1)⟩ := by
      show (⟨0, 0, toInt16 (toInt16 z + -1)⟩ : I16Vec3) = ⟨0, 0, toInt16 (z - 1)⟩
      rw [toInt16_add_toInt16]; rfl
    unfold walkLoop
    rw [haxis]
    dsimp only
    rw [hlimit, htime, hkey, ih (z - 1)]
    simp only [Bool.not_false, Bool.true_and, hne, ne_eq, not_false_eq_true, decide_True,
      if_true, List.range_succ_eq_map, List.map_cons, List.map_map]
    refine congrArg₂ _ (congrArg₂ _ (by simp) ?_) rfl
    apply List.map_congr_left
    intro i _
    simp only [Function.comp, Nat.succ_eq_add_one, Nat.cast_add, Nat.cast_one]
    congr 2
    omega


theorem RayUpload.onlyGood_step {α : Type} [LinearOrder α] (A : FloatArith α)
    (max_range_filter : FloatVal α) (rays : Nat → Vec3 (FloatVal α)) (point_count : Nat)
    (preloaded_buffer : Bool) (st st2 : RayUpload α) (i : Nat)
    (hst : st.onlyGood A max_range_filter rays point_count preloaded_buffer)
    (hi : i < point_count)
    (hgood : goodRay A (A.vtoSingle (rays i)) (A.vtoSingle (rays (i + 1))) max_range_filter = true)
    (hwalked : st2.walked = st.walked ++ [(rays i, rays (i + 1))])
    (huploaded : st2.uploaded = st.uploaded ∨ (preloaded_buffer = false ∧
      st2.uploaded = st.uploaded ++ [(A.vtoSingle (rays i), A.vtoSingle (rays (i + 1)))])) :
    st2.onlyGood A max_range_filter rays point_count preloaded_buffer := by
  constructor
  · intro ray hray
    rw [hwalked] at hray
    rcases List.mem_append.mp hray with h | h
    · exact hst.1 ray h
    · exact ⟨i, hi, by simpa using h, hgood⟩
  · intro ray hray
    rcases huploaded with hu | ⟨hp, hu⟩
    · rw [hu] at hray
      exact hst.2 ray hray
    · rw [hu] at hray
      rcases List.mem_append.mp hray with h | h
      · exact hst.2 ray h
      · exact ⟨i, hi, by simpa using h, hgood, hp⟩

theorem uploadRays_onlyGood {α : Type} [LinearOrder α] (A : FloatArith α) (map : RegionLattice α)
    (max_range_filter : FloatVal α) (rays : Nat → Vec3 (FloatVal α)) (point_count : Nat)
    (preloaded_buffer : Bool) (walk_fuel : Nat) (fuel : Nat) :
    ∀ (i : Nat) (st : RayUpload α),
      st.onlyGood A max_range_filter rays point_count preloaded_buffer →
      (uploadRays A map max_range_filter rays point_count preloaded_buffer walk_fuel fuel i
        st).onlyGood A max_range_filter rays point_count preloaded_buffer := by
  induction fuel with
  | zero =>
    intro i st hst
    unfold uploadRays
    split_ifs
    · exact hst
    · exact hst
  | succ n ih =>
    intro i st hst
    unfold uploadRays
    by_cases hi : i < point_count
    · rw [if_pos hi]
      by_cases hgood : goodRay A (A.vtoSingle (rays i)) (A.vtoSingle (rays (i + 1)))
          max_range_filter = true
      · simp only [Nat.add_zero, hgood, Bool.not_true, Bool.false_eq_true, if_false]
        cases preloaded_buffer
        · simp only [Bool.not_false, if_true]
          split_ifs
          · apply ih
            exact RayUpload.onlyGood_step A max_range_filter rays point_count false st _ i hst hi
              hgood rfl (Or.inr ⟨rfl, rfl⟩)
          · exact RayUpload.onlyGood_step A max_range_filter rays point_count false st _ i hst hi
              hgood rfl (Or.inr ⟨rfl, rfl⟩)
        · simp only [Bool.not_true, Bool.false_eq_true, if_false]
          split_ifs
          · apply ih
            exact RayUpload.onlyGood_step A max_range_filter rays point_count true st _ i hst hi
              hgood rfl (Or.inl rfl)
          · exact RayUpload.onlyGood_step A max_range_filter rays point_count true st _ i hst hi
              hgood rfl (Or.inl rfl)
      · rw [Bool.not_eq_true] at hgood
        simp only [Nat.add_zero, hgood, Bool.not_false, if_true]
        exact ih _ _ hst
    · rw [if_neg hi]
      exact hst

theorem vec3_ext_get {α : Type} (v w : Vec3 α) (h : ∀ a : Fin 3, v.get a = w.get a) : v = w := by
  cases v; cases w
  have h0 := h 0
  have h1 := h 1
  have h2 := h 2
  simp only [Vec3.get] at h0 h1 h2
  subst h0 h1 h2
  rfl

theorem key_ext_get (k l : Key) (hr : ∀ a : Fin 3, k.regionKey.get a = l.regionKey.get a)
    (hl : ∀ a : Fin 3, k.localKey.get a = l.localKey.get a) : k = l := by
  cases k; cases l
  have h1 := vec3_ext_get _ _ hr
  have h2 := vec3_ext_get _ _ hl
  simp only [Key.regionKey, Key.localKey] at h1 h2
  subst h1 h2
  rfl


/-- With a batch delta of `0.5` and the pending sample taken from `(1, 0, 0)`,
a pass of the population loop hands out an empty batch and leaves the sample
pending. -/
theorem populationStep_pendingState (loader : List (SamplePoint Int))
    (batches : List (RayBatch Int)) (back_of_empty : Bool) :
    populationStep gridArith optionsWithBatchDelta (fun _ => true)
        (pendingState loader batches back_of_empty)
      = pendingState loader (batches ++ [emptyBatch]) true := by
  cases back_of_empty <;> rfl

theorem populationLoop_pendingState (fuel : Nat) :
    ∀ (loader : List (SamplePoint Int)) (batches : List (RayBatch Int)) (back_of_empty : Bool),
      populationLoop gridArith optionsWithBatchDelta (fun _ => true) (.finite (10 * gridOne)) fuel
        (pendingState loader batches back_of_empty) = none := by
  induction fuel with
  | zero => intro loader batches back_of_empty; rfl
  | succ n ih =>
    intro loader batches back_of_empty
    have hcond : populationCondition gridArith optionsWithBatchDelta (.finite (10 * gridOne))
        (pendingState loader batches back_of_empty) = true := rfl
    unfold populationLoop
    rw [hcond, if_pos rfl, populationStep_pendingState]
    exact ih _ _ _


theorem insertDirty_perm (item : Nat × I16Vec3) (regions : List (Nat × I16Vec3)) :
    (insertDirty item regions).Perm (item :: regions) := by
  induction regions with
  | nil => exact List.Perm.refl _
  | cons head rest ih =>
    unfold insertDirty
    split_ifs
    · exact List.Perm.refl _
    · exact (List.Perm.cons head ih).trans (List.Perm.swap item head rest)

theorem insertDirty_sorted (item : Nat × I16Vec3) (regions : List (Nat × I16Vec3))
    (h : stampSorted regions) : stampSorted (insertDirty item regions) := by
  unfold stampSorted at *
  induction regions with
  | nil => exact List.pairwise_singleton _ _
  | cons head rest ih =>
    unfold insertDirty
    rw [List.pairwise_cons] at h
    split_ifs with hlt
    · refine List.pairwise_cons.mpr ⟨?_, List.pairwise_cons.mpr h⟩
      intro b hb
      rcases List.mem_cons.mp hb with hb | hb
      · subst hb; exact Nat.le_of_lt hlt
      · exact Nat.le_trans (Nat.le_of_lt hlt) (h.1 b hb)
    · refine List.pairwise_cons.mpr ⟨?_, ih h.2⟩
      intro b hb
      have hb2 : b ∈ item :: rest := (insertDirty_perm item rest).mem_iff.mp hb
      rcases List.mem_cons.mp hb2 with hb3 | hb3
      · subst hb3; exact Nat.le_of_not_lt hlt
      · exact h.1 b hb3

theorem collectDirtyLoop_count {α : Type} (from_stamp : Nat)
    (chunks : List (I16Vec3 × MapChunk α)) :
    ∀ acc : Nat × List (Nat × I16Vec3),
      acc.1 + chunks.countP (fun chunk_ref => decide (chunk_ref.2.dirty_stamp > from_stamp))
        < 4294967296 →
      (collectDirtyLoop from_stamp chunks acc).1
        = acc.1 + chunks.countP (fun chunk_ref => decide (chunk_ref.2.dirty_stamp > from_stamp)) := by
  induction chunks with
  | nil => intro acc _; simp [collectDirtyLoop]
  | cons chunk_ref rest ih =>
    intro acc hlt
    unfold collectDirtyLoop
    by_cases hd : chunk_ref.2.dirty_stamp > from_stamp
    · rw [if_pos hd]
      simp only [List.countP_cons, hd, decide_True, if_true] at hlt ⊢
      rw [ih _ (by simp only []; omega)]
      simp only []
      omega
    · rw [if_neg hd]
      simp only [List.countP_cons, hd, decide_False, Bool.false_eq_true, if_false,
        Nat.add_zero] at hlt ⊢
      exact ih acc hlt

theorem collectDirtyLoop_perm {α : Type} (from_stamp : Nat)
    (chunks : List (I16Vec3 × MapChunk α)) :
    ∀ acc : Nat × List (Nat × I16Vec3),
      (collectDirtyLoop from_stamp chunks acc).2.Perm (acc.2 ++ dirtyPairs from_stamp chunks) ∧
      (stampSorted acc.2 → stampSorted (collectDirtyLoop from_stamp chunks acc).2) := by
  induction chunks with
  | nil =>
    intro acc
    refine ⟨?_, fun h => h⟩
    simp [collectDirtyLoop, dirtyPairs]
  | cons chunk_ref rest ih =>
    intro acc
    unfold collectDirtyLoop
    by_cases hd : chunk_ref.2.dirty_stamp > from_stamp
    · rw [if_pos hd]
      obtain ⟨h2, h3⟩ := ih ((acc.1 + 1) % 4294967296,
        insertDirty (chunk_ref.2.dirty_stamp, chunk_ref.2.region.coord) acc.2)
      refine ⟨?_, ?_⟩
      · refine h2.trans ?_
        simp only [dirtyPairs, List.filter_cons, hd, decide_True, if_true, List.map_cons]
        refine (List.Perm.append_right _ (insertDirty_perm _ acc.2)).trans ?_
        simp only [List.cons_append]
        exact (List.perm_middle).symm
      · intro hs
        exact h3 (insertDirty_sorted _ _ hs)
    · rw [if_neg hd]
      obtain ⟨h2, h3⟩ := ih acc
      refine ⟨?_, h3⟩
      simpa [dirtyPairs, List.filter_cons, hd] using h2


/-- What `region(region_key, allow_create)` does for any chunk factory for
which the region computed for the new chunk is `region_key`. -/
theorem region_spec {α : Type} (f : ChunkFactory α) (imp : MapStore α)
    (region_key : I16Vec3) (allow_create : Bool)
    (hcoord : (f.mapRegion (f.voxelCentreGlobal ⟨region_key, ⟨0, 0, 0⟩⟩)).coord = region_key) :
    (∀ chunk, imp.chunks.find region_key = some chunk →
      region f imp region_key allow_create = (imp, some chunk)) ∧
    (imp.chunks.find region_key = none → allow_create = false →
      region f imp region_key allow_create = (imp, none)) ∧
    (imp.chunks.find region_key = none → allow_create = true →
      (region f imp region_key allow_create).1.chunks
        = imp.chunks ++ [(region_key, newChunk f ⟨region_key, ⟨0, 0, 0⟩⟩)] ∧
      (region f imp region_key allow_create).2 = some (newChunk f ⟨region_key, ⟨0, 0, 0⟩⟩) ∧
      (newChunk f ⟨region_key, ⟨0, 0, 0⟩⟩).region.coord = region_key ∧
      (region f imp region_key allow_create).1.chunks.find region_key
        = (region f imp region_key allow_create).2 ∧
      regionCount (region f imp region_key allow_create).1 = regionCount imp + 1 ∧
      (region f imp region_key allow_create).1.stamp = imp.stamp ∧
      (∀ other, other ≠ region_key →
        (region f imp region_key allow_create).1.chunks.find other = imp.chunks.find other)) := by
  have hnew : (newChunk f ⟨region_key, ⟨0, 0, 0⟩⟩).region.coord = region_key := hcoord
  refine ⟨?_, ?_, ?_⟩
  · intro chunk h
    unfold region
    rw [h]
  · intro h hallow
    unfold region
    rw [h, hallow]
    rfl
  · intro h hallow
    have hins : ChunkMap.insert imp.chunks region_key (newChunk f ⟨region_key, ⟨0, 0, 0⟩⟩)
        = imp.chunks ++ [(region_key, newChunk f ⟨region_key, ⟨0, 0, 0⟩⟩)] := by
      unfold ChunkMap.insert
      unfold ChunkMap.find at h
      rw [h]
    have hres : region f imp region_key allow_create =
        ({ imp with chunks := imp.chunks ++ [(region_key, newChunk f ⟨region_key, ⟨0, 0, 0⟩⟩)] },
          some (newChunk f ⟨region_key, ⟨0, 0, 0⟩⟩)) := by
      unfold region
      rw [h, hallow]
      simp only [if_true, hnew, hins]
    rw [hres]
    refine ⟨rfl, rfl, hnew, ?_, ?_, rfl, ?_⟩
    · show ChunkMap.find (imp.chunks ++ [_]) region_key = _
      rw [ChunkMap.find_append_singleton, h]
      simp
    · show (imp.chunks ++ [_]).length = imp.chunks.length + 1
      simp
    · intro other hother
      show ChunkMap.find (imp.chunks ++ [_]) other = _
      rw [ChunkMap.find_append_singleton]
      cases hfind : ChunkMap.find imp.chunks other
      · simp [hother]
      · rfl

/-- The region coordinate computed for the centre of a voxel of a region is the
coordinate of that region, whatever the origin, the resolution and the number
of voxels of a region. -/
theorem latticeRegionCoord_centre (g : LatticeGeometry) (a : Fin 3) (r : Int) (l : Nat)
    (hres : 0 < g.half_resolution) (hl : l < g.region_voxel_dimensions.get a)
    (hr : isInt16 r) :
    latticeRegionCoord g a (.finite (g.origin.get a + r * g.extent a
      - g.half_resolution * (g.region_voxel_dimensions.get a : Int)
      + (2 * (l : Int) + 1) * g.half_resolution)) = r := by
  unfold latticeRegionCoord LatticeGeometry.extent
  obtain ⟨n, hn⟩ : ∃ n : Int, n = (g.region_voxel_dimensions.get a : Int) := ⟨_, rfl⟩
  obtain ⟨h, hh⟩ : ∃ h : Int, h = g.half_resolution := ⟨_, rfl⟩
  rw [← hn, ← hh]
  have hln : (l : Int) < n := by rw [hn]; exact_mod_cast hl
  have hl0 : (0 : Int) ≤ l := Int.natCast_nonneg l
  have hh0 : 0 < h := hh ▸ hres
  have hE : 0 < 2 * (2 * h * n) := by nlinarith
  have hexpr : 2 * (g.origin.get a + r * (2 * h * n) - h * n + (2 * (l : Int) + 1) * h
      - g.origin.get a) + 2 * h * n = (4 * h * l + 2 * h) + r * (2 * (2 * h * n)) := by ring
  dsimp only
  rw [hexpr, Int.add_mul_ediv_right _ _ (ne_of_gt hE)]
  have hsmall : (4 * h * l + 2 * h) / (2 * (2 * h * n)) = 0 := by
    apply Int.ediv_eq_zero_of_lt
    · nlinarith
    · nlinarith
  rw [hsmall, zero_add]
  exact toInt16_of_isInt16 r hr

/-- The chunk that `newChunk` makes for voxel `(0, 0, 0)` of a region has the
coordinate of that region. -/
theorem latticeFactory_round_trip (g : LatticeGeometry) (blank : MapChunk Int)
    (region_key : I16Vec3) (hres : 0 < g.half_resolution)
    (hdims : ∀ a, 0 < g.region_voxel_dimensions.get a)
    (hkey : ∀ a, isInt16 (region_key.get a)) :
    (newChunk (latticeFactory g blank) ⟨region_key, ⟨0, 0, 0⟩⟩).region.coord = region_key := by
  have h0 := latticeRegionCoord_centre g 0 (region_key.get 0) 0 hres (hdims 0) (hkey 0)
  have h1 := latticeRegionCoord_centre g 1 (region_key.get 1) 0 hres (hdims 1) (hkey 1)
  have h2 := latticeRegionCoord_centre g 2 (region_key.get 2) 0 hres (hdims 2) (hkey 2)
  cases region_key with
  | mk x y z =>
    show (⟨latticeRegionCoord g 0 _, latticeRegionCoord g 1 _, latticeRegionCoord g 2 _⟩ : I16Vec3)
      = ⟨x, y, z⟩
    simp only [Vec3.get] at h0 h1 h2
    simp only [latticeFactory, latticeVoxelCentre, Key.regionKey, Key.localKey, Vec3.get]
    rw [h0, h1, h2]

/-- The loop over the keys stops exactly when `kRfStopOnFirstOccupied` is set
and some key is occupied at the moment the loop reaches it. -/
theorem integrateKeys_stopped_at {P α : Type} [LinearOrder α] (d : OccupancyMapDetail P α)
    (flags : Nat) :
    ∀ (keys : List Key) (voxels : Voxels α),
      ((integrateKeys d flags keys voxels).stopped = true ↔
        testFlag flags d.kRfStopOnFirstOccupied = true ∧
          ∃ pre k post, keys = pre ++ k :: post ∧
            (integrateKeys d flags pre voxels).stopped = false ∧
            isOccupied d ((integrateKeys d flags pre voxels).voxels k) = true) := by
  intro keys
  induction keys with
  | nil =>
    intro voxels
    simp [integrateKeys]
  | cons j keys ih =>
    intro voxels
    rw [integrateKeys_cons]
    by_cases hstop : (testFlag flags d.kRfStopOnFirstOccupied &&
        (voxels j).ge d.occupancy_threshold_value && (voxels j).ne d.invalidMarkerValue) = true
    · rw [if_pos hstop]
      simp only [true_iff]
      simp only [Bool.and_eq_true] at hstop
      refine ⟨hstop.1.1, [], j, keys, rfl, rfl, ?_⟩
      show isOccupied d (voxels j) = true
      simp [isOccupied, hstop.1.2, hstop.2]
    · rw [if_neg hstop]
      show (integrateKeys d flags keys _).stopped = true ↔ _
      rw [ih]
      constructor
      · rintro ⟨hflag, pre, k, post, hkeys, hpre, hocc⟩
        refine ⟨hflag, j :: pre, k, post, by rw [hkeys]; rfl, ?_, ?_⟩
        · rw [integrateKeys_cons, if_neg hstop]
          exact hpre
        · rw [integrateKeys_cons, if_neg hstop]
          exact hocc
      · rintro ⟨hflag, pre, k, post, hkeys, hpre, hocc⟩
        cases pre with
        | nil =>
          exfalso
          simp only [List.nil_append, List.cons.injEq] at hkeys
          obtain ⟨rfl, -⟩ := hkeys
          apply hstop
          have hocc' : isOccupied d (voxels j) = true := hocc
          unfold isOccupied at hocc'
          simp only [Bool.and_eq_true] at hocc' ⊢
          exact ⟨⟨hflag, hocc'.1⟩, hocc'.2⟩
        | cons i pre =>
          simp only [List.cons_append, List.cons.injEq] at hkeys
          obtain ⟨rfl, rfl⟩ := hkeys
          rw [integrateKeys_cons, if_neg hstop] at hpre hocc
          exact ⟨hflag, pre, k, post, rfl, hpre, hocc⟩

/-! ## Stepping and ranges -/

/-- C1, as the code behaves: stepping a valid key by `dir = ±1` along `axis`
gives a valid key; the local coordinate is `local + dir` when that is in range,
`0` with a carry into the region coordinate when it reaches the dimension, and
`dimension - 1` with a borrow when it reaches `-1`; the carry and the borrow
are narrowed to 16 bits, so they are `+1` and `-1` except at `INT16_MAX` and
`INT16_MIN`, where the region coordinate wraps; the other axes are untouched. -/
theorem stepKey_carries (dims : U8Vec3) (key : Key) (axis : Fin 3) (dir : Int)
    (hdims : ∀ a, dims.get a ≤ 255) (hkey : key.valid dims) (_hdir : dir = -1 ∨ dir = 1) :
    (stepKey dims key axis dir).valid dims ∧
    (0 ≤ (key.localKey.get axis : Int) + dir ∧
        (key.localKey.get axis : Int) + dir < (dims.get axis : Int) →
      ((stepKey dims key axis dir).localKey.get axis : Int) = (key.localKey.get axis : Int) + dir ∧
      (stepKey dims key axis dir).regionKey.get axis = key.regionKey.get axis) ∧
    ((key.localKey.get axis : Int) + dir = (dims.get axis : Int) →
      (stepKey dims key axis dir).localKey.get axis = 0 ∧
      (stepKey dims key axis dir).regionKey.get axis =
        if key.regionKey.get axis = INT16_MAX then INT16_MIN else key.regionKey.get axis + 1) ∧
    ((key.localKey.get axis : Int) + dir = -1 →
      (stepKey dims key axis dir).localKey.get axis = dims.get axis - 1 ∧
      (stepKey dims key axis dir).regionKey.get axis =
        if key.regionKey.get axis = INT16_MIN then INT16_MAX else key.regionKey.get axis - 1) ∧
    (∀ a, a ≠ axis →
      (stepKey dims key axis dir).localKey.get a = key.localKey.get a ∧
      (stepKey dims key axis dir).regionKey.get a = key.regionKey.get a) := by
  have hd := hdims axis
  obtain ⟨hr, hl⟩ := hkey axis
  unfold isInt16 INT16_MIN INT16_MAX at hr
  refine ⟨?_, ?_, ?_, ?_, ?_⟩
  · intro a
    rw [stepKey_local_get, stepKey_region_get]
    by_cases h : a = axis
    · subst h
      simp only [if_true]
      refine ⟨isInt16_toInt16 _, ?_⟩
      unfold toUInt8
      split_ifs <;> omega
    · simp only [if_neg h]
      exact hkey a
  · intro h
    rw [stepKey_local_get, stepKey_region_get]
    simp only [if_true]
    unfold toUInt8 toInt16
    split_ifs <;> omega
  · intro h
    rw [stepKey_local_get, stepKey_region_get]
    simp only [if_true]
    unfold toUInt8 toInt16 INT16_MIN INT16_MAX
    split_ifs <;> omega
  · intro h
    rw [stepKey_local_get, stepKey_region_get]
    simp only [if_true]
    unfold toUInt8 toInt16 INT16_MIN INT16_MAX
    split_ifs <;> omega
  · intro a h
    rw [stepKey_local_get, stepKey_region_get]
    simp only [if_neg h, and_self]

/-- C1 witness: a step across the upper face of region `(0, 7, -3)` along `y`. -/
theorem stepKey_carries_witness :
    (Key.mk3 0 7 (-3) 5 31 2).valid ⟨32, 32, 32⟩ ∧
    (stepKey ⟨32, 32, 32⟩ (Key.mk3 0 7 (-3) 5 31 2) 1 1).valid ⟨32, 32, 32⟩ ∧
    stepKey ⟨32, 32, 32⟩ (Key.mk3 0 7 (-3) 5 31 2) 1 1 = Key.mk3 0 8 (-3) 5 0 2 :=
  ⟨by intro a; fin_cases a <;> decide, (stepKey_carries ⟨32, 32, 32⟩ (Key.mk3 0 7 (-3) 5 31 2) 1 1
      (by intro a; fin_cases a <;> decide)
      (by intro a; fin_cases a <;> decide) (Or.inr rfl)).1, by decide⟩

/-- C1 counterexample: with region coordinate `INT16_MAX` and the local
coordinate on the last voxel of the region, a step of `+1` leaves the region
coordinate `-32768`, which is not the old coordinate incremented by one. -/
theorem stepKey_increment_counterexample :
    (Key.mk3 32767 0 0 31 0 0).valid ⟨32, 32, 32⟩ ∧
    (31 : Int) + 1 = ((⟨32, 32, 32⟩ : U8Vec3).get 0 : Int) ∧
    (stepKey ⟨32, 32, 32⟩ (Key.mk3 32767 0 0 31 0 0) 0 1).regionKey.get 0 = -32768 ∧
    (stepKey ⟨32, 32, 32⟩ (Key.mk3 32767 0 0 31 0 0) 0 1).regionKey.get 0
      ≠ (Key.mk3 32767 0 0 31 0 0).regionKey.get 0 + 1 := by
  refine ⟨?_, by decide, by decide, by decide⟩
  intro a; fin_cases a <;> decide

/-- C2, as the code behaves: for valid keys `rangeBetween` returns on axis `i`
the exact voxel delta if and only if the region difference on that axis fits a
signed 16-bit integer; in general the region difference enters narrowed to 16
bits. -/
theorem rangeBetween_exact_iff (dims : U8Vec3) (a b : Key) (i : Fin 3)
    (ha : a.valid dims) (_hb : b.valid dims) :
    (rangeBetween dims a b).get i =
        (b.localKey.get i : Int) - (a.localKey.get i : Int)
          + toInt16 (b.regionKey.get i - a.regionKey.get i) * (dims.get i : Int) ∧
    ((rangeBetween dims a b).get i = b.voxelIndex dims i - a.voxelIndex dims i ↔
      isInt16 (b.regionKey.get i - a.regionKey.get i)) := by
  refine ⟨rangeBetween_get dims a b i, ?_⟩
  rw [rangeBetween_get]
  unfold Key.voxelIndex
  have hd : (0 : Int) < (dims.get i : Int) := by
    have := (ha i).2
    omega
  constructor
  · intro h
    have h2 : toInt16 (b.regionKey.get i - a.regionKey.get i) * (dims.get i : Int)
        = (b.regionKey.get i - a.regionKey.get i) * (dims.get i : Int) := by
      linarith
    have h3 := mul_right_cancel₀ (ne_of_gt hd) h2
    rw [← h3]
    exact isInt16_toInt16 _
  · intro h
    rw [toInt16_of_isInt16 _ h]
    ring

/-- C2 witness: two keys three regions apart along `x`. -/
theorem rangeBetween_exact_iff_witness :
    (Key.mk3 (-1) 0 0 30 0 0).valid ⟨32, 32, 32⟩ ∧ (Key.mk3 2 0 0 1 0 0).valid ⟨32, 32, 32⟩ ∧
    ((rangeBetween ⟨32, 32, 32⟩ (Key.mk3 (-1) 0 0 30 0 0) (Key.mk3 2 0 0 1 0 0)).get 0
        = (Key.mk3 2 0 0 1 0 0).voxelIndex ⟨32, 32, 32⟩ 0
          - (Key.mk3 (-1) 0 0 30 0 0).voxelIndex ⟨32, 32, 32⟩ 0 ↔
      isInt16 ((Key.mk3 2 0 0 1 0 0).regionKey.get 0 - (Key.mk3 (-1) 0 0 30 0 0).regionKey.get 0)) :=
  ⟨by intro a; fin_cases a <;> decide, by intro a; fin_cases a <;> decide,
    (rangeBetween_exact_iff ⟨32, 32, 32⟩ (Key.mk3 (-1) 0 0 30 0 0) (Key.mk3 2 0 0 1 0 0) 0
      (by intro a; fin_cases a <;> decide) (by intro a; fin_cases a <;> decide)).2⟩

/-- C2 counterexample: between the regions `-32768` and `32767` along `x` the
voxel delta is `65535 * 32`, while `rangeBetween` returns `-32`. -/
theorem rangeBetween_counterexample :
    (Key.mk3 (-32768) 0 0 0 0 0).valid ⟨32, 32, 32⟩ ∧
    (Key.mk3 32767 0 0 0 0 0).valid ⟨32, 32, 32⟩ ∧
    (rangeBetween ⟨32, 32, 32⟩ (Key.mk3 (-32768) 0 0 0 0 0) (Key.mk3 32767 0 0 0 0 0)).get 0 = -32 ∧
    (Key.mk3 32767 0 0 0 0 0).voxelIndex ⟨32, 32, 32⟩ 0
      - (Key.mk3 (-32768) 0 0 0 0 0).voxelIndex ⟨32, 32, 32⟩ 0 = 2097120 ∧
    (rangeBetween ⟨32, 32, 32⟩ (Key.mk3 (-32768) 0 0 0 0 0) (Key.mk3 32767 0 0 0 0 0)).get 0 ≠
      (Key.mk3 32767 0 0 0 0 0).voxelIndex ⟨32, 32, 32⟩ 0
        - (Key.mk3 (-32768) 0 0 0 0 0).voxelIndex ⟨32, 32, 32⟩ 0 := by
  refine ⟨?_, ?_, by decide, by decide, by decide⟩ <;>
  · intro a; fin_cases a <;> decide

/-- C3, as the code behaves: at the extreme region coordinates a step across
the region boundary wraps.  From region coordinate `INT16_MAX` and the last
local coordinate, `+1` leaves region coordinate `INT16_MIN` and local
coordinate `0`; from `INT16_MIN` and local coordinate `0`, `-1` leaves
`INT16_MAX` and the last local coordinate. -/
theorem stepKey_wraps_at_extent (dims : U8Vec3) (key : Key) (axis : Fin 3)
    (hdims : ∀ a, dims.get a ≤ 255) (hkey : key.valid dims) :
    (key.regionKey.get axis = INT16_MAX → key.localKey.get axis = dims.get axis - 1 →
      (stepKey dims key axis 1).regionKey.get axis = INT16_MIN ∧
      (stepKey dims key axis 1).localKey.get axis = 0) ∧
    (key.regionKey.get axis = INT16_MIN → key.localKey.get axis = 0 →
      (stepKey dims key axis (-1)).regionKey.get axis = INT16_MAX ∧
      (stepKey dims key axis (-1)).localKey.get axis = dims.get axis - 1) := by
  have hd := hdims axis
  obtain ⟨_, hl⟩ := hkey axis
  constructor
  · intro hr hloc
    rw [stepKey_local_get, stepKey_region_get]
    simp only [if_true]
    unfold INT16_MAX at hr
    unfold toUInt8 toInt16 INT16_MIN
    split_ifs <;> omega
  · intro hr hloc
    rw [stepKey_local_get, stepKey_region_get]
    simp only [if_true]
    unfold INT16_MIN at hr
    unfold toUInt8 toInt16 INT16_MAX
    split_ifs <;> omega

/-- C3 witness: the wrap along `z` for 16 voxels per region. -/
theorem stepKey_wraps_at_extent_witness :
    (Key.mk3 0 0 32767 0 0 15).valid ⟨16, 16, 16⟩ ∧
    (stepKey ⟨16, 16, 16⟩ (Key.mk3 0 0 32767 0 0 15) 2 1).regionKey.get 2 = INT16_MIN ∧
    (stepKey ⟨16, 16, 16⟩ (Key.mk3 0 0 32767 0 0 15) 2 1).localKey.get 2 = 0 :=
  ⟨by intro a; fin_cases a <;> decide,
    (stepKey_wraps_at_extent ⟨16, 16, 16⟩ (Key.mk3 0 0 32767 0 0 15) 2
      (by intro a; fin_cases a <;> decide) (by intro a; fin_cases a <;> decide)).1 rfl rfl⟩

/-- C3 counterexample: stepping `+1` from region coordinate `INT16_MAX` on the
last voxel gives a negative region coordinate, and stepping `-1` from the most
negative region coordinate on voxel `0` gives a positive one. -/
theorem stepKey_saturation_counterexample :
    (stepKey ⟨32, 32, 32⟩ (Key.mk3 0 32767 0 0 31 0) 1 1).regionKey.get 1 < 0 ∧
    (stepKey ⟨32, 32, 32⟩ (Key.mk3 0 (-32768) 0 0 0 0) 1 (-1)).regionKey.get 1 > 0 := by
  decide

/-! ## Voxel classification -/

/-- C4: with the never-observed marker being positive infinity, the largest
float, `occupancyType` returns `kNull` exactly for a null voxel, and for a voxel
with a value it returns `kUncertain` when the value is the marker, `kOccupied`
when the value is not the marker and at or above the threshold, and `kFree`
when the value is not the marker and below the threshold; when neither the
value nor the threshold is not-a-number these conditions are also necessary,
so each voxel falls into exactly one class. -/
theorem occupancyType_classifies {α : Type} [LinearOrder α]
    (invalidMarkerValue occupancyThresholdValue : FloatVal α) (voxel : Option (FloatVal α))
    (hmarker : invalidMarkerValue = FloatVal.posInf) :
    (occupancyType invalidMarkerValue occupancyThresholdValue voxel = OccupancyType.kNull ↔
      voxel = none) ∧
    (∀ value, voxel = some value →
      (value.eq invalidMarkerValue = true →
        occupancyType invalidMarkerValue occupancyThresholdValue voxel = OccupancyType.kUncertain) ∧
      (value.ne invalidMarkerValue = true → value.ge occupancyThresholdValue = true →
        occupancyType invalidMarkerValue occupancyThresholdValue voxel = OccupancyType.kOccupied) ∧
      (value.ne invalidMarkerValue = true → value.lt occupancyThresholdValue = true →
        occupancyType invalidMarkerValue occupancyThresholdValue voxel = OccupancyType.kFree) ∧
      (value.isNaN = false → occupancyThresholdValue.isNaN = false →
        (occupancyType invalidMarkerValue occupancyThresholdValue voxel = OccupancyType.kUncertain ↔
          value.eq invalidMarkerValue = true) ∧
        (occupancyType invalidMarkerValue occupancyThresholdValue voxel = OccupancyType.kOccupied ↔
          value.ne invalidMarkerValue = true ∧ value.ge occupancyThresholdValue = true) ∧
        (occupancyType invalidMarkerValue occupancyThresholdValue voxel = OccupancyType.kFree ↔
          value.ne invalidMarkerValue = true ∧ value.lt occupancyThresholdValue = true))) := by
  subst hmarker
  constructor
  · cases voxel with
    | none => simp [occupancyType]
    | some value =>
      simp only [occupancyType, reduceCtorEq, iff_false]
      split_ifs <;> simp
  · intro value hv
    subst hv
    cases value <;> cases occupancyThresholdValue <;>
      simp [occupancyType, FloatVal.lt, FloatVal.eq, FloatVal.ne, FloatVal.ge, FloatVal.isNaN]
    rename_i x y
    have hle : y ≤ x ↔ y < x ∨ x = y := by
      constructor
      · intro h
        rcases lt_or_eq_of_le h with h | h
        · exact Or.inl h
        · exact Or.inr h.symm
      · rintro (h | h)
        · exact le_of_lt h
        · exact le_of_eq h.symm
    refine ⟨hle.mpr, ?_, hle⟩
    split_ifs <;> simp

/-- C4 witness: with threshold `0`, a voxel of value `3` is occupied. -/
theorem occupancyType_classifies_witness :
    (FloatVal.posInf : FloatVal Int) = FloatVal.posInf ∧
    occupancyType (FloatVal.posInf : FloatVal Int) (.finite 0) (some (.finite 3))
      = OccupancyType.kOccupied :=
  ⟨rfl, ((occupancyType_classifies (FloatVal.posInf : FloatVal Int) (.finite 0) (some (.finite 3))
      rfl).2 (.finite 3) rfl).2.1 (by decide) (by decide)⟩

/-! ## Ray integration -/

/-- C5, at a failing input: on the map along `x` with its origin at `x = -1`,
the unfiltered ray from `x = 0` to `x = 4` with the default flags.
`calculateSegmentKeys` hands the walker the points less the origin, `1` and
`5`, and the walker takes their keys with `map.voxelKey`, which takes the
origin off again: the keys are those of the voxels of `x = 1, 2, 3, 4`.  So
the sample voxel, the voxel of `x = 4`, receives a miss and then its hit and
ends at `-0.405 + 0.847` in place of `0.847`, and the voxel of the start of
the ray receives nothing.  With the origin at zero the same ray misses the
voxels of `x = 0, 1, 2, 3` and hits the sample voxel, which ends at `0.847`. -/
theorem integrateRays_origin_misses_sample :
    (filterRay (originLineMap (-1) none) 0 4).accept = true ∧
    testFlag (filterRay (originLineMap (-1) none) 0 4).filter_flags
      (originLineMap (-1) none).kRffClippedEnd = false ∧
    (originLineMap (-1) none).toLocal 0 = 1 ∧
    (originLineMap (-1) none).toLocal 4 = 5 ∧
    calculateSegmentKeys (originLineMap (-1) none) 0 4 false
      = [originVoxelKey (-1) 1, originVoxelKey (-1) 2, originVoxelKey (-1) 3,
          originVoxelKey (-1) 4] ∧
    (originLineMap (-1) none).voxelKey 4 = originVoxelKey (-1) 4 ∧
    (integrateRays (originLineMap (-1) none) 0 [0, 4] emptyVoxels).2
      = [.miss (originVoxelKey (-1) 1), .miss (originVoxelKey (-1) 2),
          .miss (originVoxelKey (-1) 3), .miss (originVoxelKey (-1) 4),
          .hit (originVoxelKey (-1) 4)] ∧
    VoxelUpdate.miss ((originLineMap (-1) none).voxelKey 4)
      ∈ (integrateRays (originLineMap (-1) none) 0 [0, 4] emptyVoxels).2 ∧
    (integrateRays (originLineMap (-1) none) 0 [0, 4] emptyVoxels).1
      ((originLineMap (-1) none).voxelKey 4) = .finite 442 ∧
    (∀ u ∈ (integrateRays (originLineMap (-1) none) 0 [0, 4] emptyVoxels).2,
      u.key ≠ (originLineMap (-1) none).voxelKey 0) ∧
    (integrateRays (originLineMap (-1) none) 0 [0, 4] emptyVoxels).1
      ((originLineMap (-1) none).voxelKey 0) = .posInf ∧
    (integrateRays (lineMap none) 0 [0, 4] emptyVoxels).2
      = [.miss (lineVoxelKey 0), .miss (lineVoxelKey 1), .miss (lineVoxelKey 2),
          .miss (lineVoxelKey 3), .hit (lineVoxelKey 4)] ∧
    (integrateRays (lineMap none) 0 [0, 4] emptyVoxels).1 ((lineMap none).voxelKey 4)
      = .finite 847 := by
  decide

/-- C6, at a failing input: on the map along `x` with its origin at `x = -1`
and `kRfStopOnFirstOccupied` set, the unfiltered ray from `x = 0` to `x = 4`
when the sample voxel, the voxel of `x = 4`, is the only occupied voxel.  The
keys of the walk are those of the voxels of `x = 1, 2, 3, 4`, the origin being
taken off twice, so the sample voxel is the first occupied voxel of the walk:
it receives a miss and ends at `0.847 - 0.405`.  With the origin at zero the
walk of the same ray ends before the sample voxel. -/
theorem integrateRays_origin_stop_misses_sample :
    testFlag 2 (originLineMap (-1) none).kRfStopOnFirstOccupied = true ∧
    (filterRay (originLineMap (-1) none) 0 4).accept = true ∧
    isOccupied (originLineMap (-1) none)
      (Function.update emptyVoxels (originVoxelKey (-1) 4) (.finite 847)
        ((originLineMap (-1) none).voxelKey 4)) = true ∧
    calculateSegmentKeys (originLineMap (-1) none) 0 4 false
      = [originVoxelKey (-1) 1, originVoxelKey (-1) 2, originVoxelKey (-1) 3,
          originVoxelKey (-1) 4] ∧
    (originLineMap (-1) none).voxelKey 4 = originVoxelKey (-1) 4 ∧
    (integrateRays (originLineMap (-1) none) 2 [0, 4]
        (Function.update emptyVoxels (originVoxelKey (-1) 4) (.finite 847))).2
      = [.miss (originVoxelKey (-1) 1), .miss (originVoxelKey (-1) 2),
          .miss (originVoxelKey (-1) 3), .miss (originVoxelKey (-1) 4)] ∧
    VoxelUpdate.miss ((originLineMap (-1) none).voxelKey 4)
      ∈ (integrateRays (originLineMap (-1) none) 2 [0, 4]
        (Function.update emptyVoxels (originVoxelKey (-1) 4) (.finite 847))).2 ∧
    (integrateRays (originLineMap (-1) none) 2 [0, 4]
        (Function.update emptyVoxels (originVoxelKey (-1) 4) (.finite 847))).1
      ((originLineMap (-1) none).voxelKey 4) = .finite 442 ∧
    calculateSegmentKeys (lineMap none) 0 4 false
      = [lineVoxelKey 0, lineVoxelKey 1, lineVoxelKey 2, lineVoxelKey 3] ∧
    (lineMap none).voxelKey 4 ∉ calculateSegmentKeys (lineMap none) 0 4 false := by
  decide

/-- C7, at a failing input: with `kRfClearOnly` set, a ray through an empty
map applies a miss to the never-observed voxels of its walk, which are not
occupied; the voxel of key `1` ends with the miss value in place of the
never-observed marker. -/
theorem integrateRays_clear_only_unobserved :
    testFlag 4 (lineMap none).kRfClearOnly = true ∧
    emptyVoxels (lineVoxelKey 1) = (lineMap none).invalidMarkerValue ∧
    isOccupied (lineMap none) (emptyVoxels (lineVoxelKey 1)) = false ∧
    VoxelUpdate.miss (lineVoxelKey 1) ∈ (integrateRays (lineMap none) 4 [0, 4] emptyVoxels).2 ∧
    (integrateRays (lineMap none) 4 [0, 4] emptyVoxels).1 (lineVoxelKey 1) = .finite (-405) := by
  decide

/-- C8, as the code behaves: a hit is applied to the sample voxel if and only
if the filter accepts the ray and does not report a clipped end, the traversal
is not stopped and `kRfEndPointAsFree` is not set; no other voxel receives a
hit.  When the first three hold and `kRfEndPointAsFree` is set, the sample
voxel receives a miss instead, as the last update of the ray; when one of them
fails, the updates of the walk are all there is.  The updates of the walk are
misses on keys of the walk.  The traversal is stopped exactly when
`kRfStopOnFirstOccupied` is set and some key of the walk is occupied when the
walk reaches it.  Flag words that agree on `kRfEndPointAsFree`,
`kRfStopOnFirstOccupied` and `kRfClearOnly` act alike: no further flag
enters. -/
theorem integrateRay_hit_iff {P α : Type} [LinearOrder α] (d : OccupancyMapDetail P α)
    (flags : Nat) (ray_start ray_end : P) (voxels : Voxels α) :
    (VoxelUpdate.hit (d.voxelKey ray_end) ∈ (integrateRay d flags ray_start ray_end voxels).2 ↔
      (filterRay d ray_start ray_end).accept = true ∧
      testFlag (filterRay d ray_start ray_end).filter_flags d.kRffClippedEnd = false ∧
      (integrateKeys d flags (calculateSegmentKeys d (filterRay d ray_start ray_end).start
        (filterRay d ray_start ray_end).end_point
        (testFlag (filterRay d ray_start ray_end).filter_flags d.kRffClippedEnd)) voxels).stopped
        = false ∧
      testFlag flags d.kRfEndPointAsFree = false) ∧
    (∀ key, VoxelUpdate.hit key ∈ (integrateRay d flags ray_start ray_end voxels).2 →
      key = d.voxelKey ray_end) ∧
    ((filterRay d ray_start ray_end).accept = true →
      testFlag (filterRay d ray_start ray_end).filter_flags d.kRffClippedEnd = false →
      (integrateKeys d flags (calculateSegmentKeys d (filterRay d ray_start ray_end).start
        (filterRay d ray_start ray_end).end_point false) voxels).stopped = false →
      integrateRay d flags ray_start ray_end voxels =
        (applyUpdate d (integrateKeys d flags (calculateSegmentKeys d
            (filterRay d ray_start ray_end).start (filterRay d ray_start ray_end).end_point false)
            voxels).voxels
          (if testFlag flags d.kRfEndPointAsFree then VoxelUpdate.miss (d.voxelKey ray_end)
            else VoxelUpdate.hit (d.voxelKey ray_end)),
        (integrateKeys d flags (calculateSegmentKeys d (filterRay d ray_start ray_end).start
            (filterRay d ray_start ray_end).end_point false) voxels).updates ++
          [if testFlag flags d.kRfEndPointAsFree then VoxelUpdate.miss (d.voxelKey ray_end)
            else VoxelUpdate.hit (d.voxelKey ray_end)]) ∧
      (integrateRay d flags ray_start ray_end voxels).1 (d.voxelKey ray_end) =
        (if testFlag flags d.kRfEndPointAsFree then d.integrateMiss else d.integrateHit)
          ((integrateKeys d flags (calculateSegmentKeys d (filterRay d ray_start ray_end).start
            (filterRay d ray_start ray_end).end_point false) voxels).voxels (d.voxelKey ray_end))) ∧
    ((filterRay d ray_start ray_end).accept = true →
      (testFlag (filterRay d ray_start ray_end).filter_flags d.kRffClippedEnd = true ∨
        (integrateKeys d flags (calculateSegmentKeys d (filterRay d ray_start ray_end).start
          (filterRay d ray_start ray_end).end_point
          (testFlag (filterRay d ray_start ray_end).filter_flags d.kRffClippedEnd)) voxels).stopped
          = true) →
      integrateRay d flags ray_start ray_end voxels =
        ((integrateKeys d flags (calculateSegmentKeys d (filterRay d ray_start ray_end).start
          (filterRay d ray_start ray_end).end_point
          (testFlag (filterRay d ray_start ray_end).filter_flags d.kRffClippedEnd)) voxels).voxels,
        (integrateKeys d flags (calculateSegmentKeys d (filterRay d ray_start ray_end).start
          (filterRay d ray_start ray_end).end_point
          (testFlag (filterRay d ray_start ray_end).filter_flags d.kRffClippedEnd)) voxels).updates)) ∧
    ((filterRay d ray_start ray_end).accept = false →
      integrateRay d flags ray_start ray_end voxels = (voxels, [])) ∧
    (∀ keys (current : Voxels α), ∀ u ∈ (integrateKeys d flags keys current).updates,
      ∃ k ∈ keys, u = VoxelUpdate.miss k) ∧
    (∀ keys (current : Voxels α), (integrateKeys d flags keys current).stopped = true ↔
      testFlag flags d.kRfStopOnFirstOccupied = true ∧
        ∃ pre k post, keys = pre ++ k :: post ∧
          (integrateKeys d flags pre current).stopped = false ∧
          isOccupied d ((integrateKeys d flags pre current).voxels k) = true) ∧
    (∀ other : Nat,
      testFlag other d.kRfEndPointAsFree = testFlag flags d.kRfEndPointAsFree →
      testFlag other d.kRfStopOnFirstOccupied = testFlag flags d.kRfStopOnFirstOccupied →
      testFlag other d.kRfClearOnly = testFlag flags d.kRfClearOnly →
      integrateRay d other ray_start ray_end voxels
        = integrateRay d flags ray_start ray_end voxels) := by
  have hnohit : ∀ keys (current : Voxels α) key,
      VoxelUpdate.hit key ∉ (integrateKeys d flags keys current).updates := by
    intro keys current key hmem
    obtain ⟨k, _, hk⟩ := integrateKeys_updates_miss d flags _ _ _ hmem
    cases hk
  refine ⟨?_, ?_, ?_, ?_, ?_, integrateKeys_updates_miss d flags, integrateKeys_stopped_at d flags,
    fun other hend hstop hclear =>
      integrateRay_congr_flags d other flags hend hstop hclear ray_start ray_end voxels⟩
  · unfold integrateRay
    simp only
    cases ha : (filterRay d ray_start ray_end).accept <;>
      cases hc : testFlag (filterRay d ray_start ray_end).filter_flags d.kRffClippedEnd <;>
      cases hs : (integrateKeys d flags
        (calculateSegmentKeys d (filterRay d ray_start ray_end).start
          (filterRay d ray_start ray_end).end_point
          (testFlag (filterRay d ray_start ray_end).filter_flags d.kRffClippedEnd)) voxels).stopped <;>
      cases he : testFlag flags d.kRfEndPointAsFree <;>
      simp_all
  · unfold integrateRay
    simp only
    cases ha : (filterRay d ray_start ray_end).accept <;>
      cases hc : testFlag (filterRay d ray_start ray_end).filter_flags d.kRffClippedEnd <;>
      cases hs : (integrateKeys d flags
        (calculateSegmentKeys d (filterRay d ray_start ray_end).start
          (filterRay d ray_start ray_end).end_point
          (testFlag (filterRay d ray_start ray_end).filter_flags d.kRffClippedEnd)) voxels).stopped <;>
      cases he : testFlag flags d.kRfEndPointAsFree <;>
      simp_all
  · intro ha hc hs
    have hres : integrateRay d flags ray_start ray_end voxels =
        (applyUpdate d (integrateKeys d flags (calculateSegmentKeys d
            (filterRay d ray_start ray_end).start (filterRay d ray_start ray_end).end_point false)
            voxels).voxels
          (if testFlag flags d.kRfEndPointAsFree then VoxelUpdate.miss (d.voxelKey ray_end)
            else VoxelUpdate.hit (d.voxelKey ray_end)),
        (integrateKeys d flags (calculateSegmentKeys d (filterRay d ray_start ray_end).start
            (filterRay d ray_start ray_end).end_point false) voxels).updates ++
          [if testFlag flags d.kRfEndPointAsFree then VoxelUpdate.miss (d.voxelKey ray_end)
            else VoxelUpdate.hit (d.voxelKey ray_end)]) := by
      unfold integrateRay
      simp only [ha, hc, hs, Bool.not_true, Bool.false_eq_true, if_false, Bool.or_false,
        Bool.not_false, if_true]
      cases he : testFlag flags d.kRfEndPointAsFree <;> simp
    refine ⟨hres, ?_⟩
    rw [hres]
    cases he : testFlag flags d.kRfEndPointAsFree <;>
      simp [applyUpdate]
  · intro ha hcs
    unfold integrateRay
    rcases hcs with hc | hs
    · simp [ha, hc]
    · simp [ha, hs]
  · intro ha
    unfold integrateRay
    simp [ha]

/-- C8 witness: an unfiltered ray over five voxels of an empty map with
`kRfEndPointAsFree` set applies no hit; the sample voxel receives a miss as
the last update and ends with the miss value. -/
theorem integrateRay_hit_iff_witness :
    testFlag 1 (lineMap none).kRfEndPointAsFree = true ∧
    VoxelUpdate.hit ((lineMap none).voxelKey 4)
      ∉ (integrateRay (lineMap none) 1 0 4 emptyVoxels).2 ∧
    (integrateRay (lineMap none) 1 0 4 emptyVoxels).2
      = [.miss (lineVoxelKey 0), .miss (lineVoxelKey 1), .miss (lineVoxelKey 2),
          .miss (lineVoxelKey 3), .miss (lineVoxelKey 4)] ∧
    (integrateRay (lineMap none) 1 0 4 emptyVoxels).1 (lineVoxelKey 4) = .finite (-405) :=
  ⟨by decide,
    fun h => absurd ((integrateRay_hit_iff (lineMap none) 1 0 4 emptyVoxels).1.mp h).2.2.2
      (by decide),
    (congrArg Prod.snd ((integrateRay_hit_iff (lineMap none) 1 0 4 emptyVoxels).2.2.1
      (by decide) (by decide) (by decide)).1).trans (by decide),
    ((integrateRay_hit_iff (lineMap none) 1 0 4 emptyVoxels).2.2.1
      (by decide) (by decide) (by decide)).2.trans (by decide)⟩

/-- C8 counterexample: with only `ExcludeSample` set, an unfiltered ray along
`x` from voxel `0` to voxel `4` of an empty map applies a hit to the sample
voxel, which ends with the hit value; and with only `kRfEndPointAsFree` set,
the sample is not clipped, `ExcludeSample` is not set, and no hit is applied. -/
theorem integrateRays_exclude_sample_counterexample :
    testFlag kRfExcludeSample kRfExcludeSample = true ∧
    VoxelUpdate.hit (lineVoxelKey 4)
      ∈ (integrateRays (lineMap none) kRfExcludeSample [0, 4] emptyVoxels).2 ∧
    (integrateRays (lineMap none) kRfExcludeSample [0, 4] emptyVoxels).1 (lineVoxelKey 4)
      = .finite 847 ∧
    testFlag 1 kRfExcludeSample = false ∧
    VoxelUpdate.hit (lineVoxelKey 4) ∉ (integrateRays (lineMap none) 1 [0, 4] emptyVoxels).2 := by
  decide

/-- C10, as the code behaves: when the filter accepts a ray and reports a
clipped end, every update of the ray is a miss on a key of
`calculateSegmentKeys` from the filtered start to the filtered end, end voxel
included; a voxel off that walk, such as the voxel of the original sample
when it is not on the walk, keeps its value and receives no update. -/
theorem integrateRay_clipped_end {P α : Type} [LinearOrder α] (d : OccupancyMapDetail P α)
    (flags : Nat) (ray_start ray_end : P) (voxels : Voxels α)
    (haccept : (filterRay d ray_start ray_end).accept = true)
    (hclip : testFlag (filterRay d ray_start ray_end).filter_flags d.kRffClippedEnd = true) :
    (∀ u ∈ (integrateRay d flags ray_start ray_end voxels).2,
      ∃ k ∈ calculateSegmentKeys d (filterRay d ray_start ray_end).start
        (filterRay d ray_start ray_end).end_point true, u = VoxelUpdate.miss k) ∧
    (integrateRay d flags ray_start ray_end voxels).1 =
      applyUpdates d voxels (integrateRay d flags ray_start ray_end voxels).2 ∧
    (∀ k, k ∉ calculateSegmentKeys d (filterRay d ray_start ray_end).start
        (filterRay d ray_start ray_end).end_point true →
      (integrateRay d flags ray_start ray_end voxels).1 k = voxels k ∧
      ∀ u ∈ (integrateRay d flags ray_start ray_end voxels).2, u.key ≠ k) ∧
    (d.voxelKey ray_end ∉ calculateSegmentKeys d (filterRay d ray_start ray_end).start
        (filterRay d ray_start ray_end).end_point true →
      (integrateRay d flags ray_start ray_end voxels).1 (d.voxelKey ray_end)
        = voxels (d.voxelKey ray_end)) := by
  have hres : (integrateRay d flags ray_start ray_end voxels).2 =
      (integrateKeys d flags (calculateSegmentKeys d (filterRay d ray_start ray_end).start
        (filterRay d ray_start ray_end).end_point true) voxels).updates := by
    unfold integrateRay
    simp only [haccept, hclip, Bool.true_or, Bool.not_true, Bool.false_eq_true, if_false]
  have hmiss : ∀ u ∈ (integrateRay d flags ray_start ray_end voxels).2,
      ∃ k ∈ calculateSegmentKeys d (filterRay d ray_start ray_end).start
        (filterRay d ray_start ray_end).end_point true, u = VoxelUpdate.miss k := by
    rw [hres]
    exact integrateKeys_updates_miss d flags _ voxels
  have hframe : ∀ k, k ∉ calculateSegmentKeys d (filterRay d ray_start ray_end).start
        (filterRay d ray_start ray_end).end_point true →
      (integrateRay d flags ray_start ray_end voxels).1 k = voxels k ∧
      ∀ u ∈ (integrateRay d flags ray_start ray_end voxels).2, u.key ≠ k := by
    intro k hk
    have hne : ∀ u ∈ (integrateRay d flags ray_start ray_end voxels).2, u.key ≠ k := by
      intro u hu huk
      obtain ⟨j, hj, rfl⟩ := hmiss u hu
      exact hk (huk ▸ hj)
    exact ⟨by rw [integrateRay_voxels]; exact applyUpdates_of_ne d _ voxels k hne, hne⟩
  exact ⟨hmiss, integrateRay_voxels d flags ray_start ray_end voxels, hframe,
    fun h => (hframe _ h).1⟩

/-- C10 witness: a filter that clips every ray to its first voxel and reports
it; of a ray from voxel `0` to voxel `100` only voxels `0` and `1` are updated. -/
theorem integrateRay_clipped_end_witness :
    (filterRay (lineMap (some clipFilter)) 0 100).accept = true ∧
    testFlag (filterRay (lineMap (some clipFilter)) 0 100).filter_flags
      (lineMap (some clipFilter)).kRffClippedEnd = true ∧
    (integrateRay (lineMap (some clipFilter)) 0 0 100 emptyVoxels).1 (lineVoxelKey 100)
      = emptyVoxels (lineVoxelKey 100) :=
  ⟨by decide, by decide,
    (integrateRay_clipped_end (lineMap (some clipFilter)) 0 0 100 emptyVoxels
      (by decide) (by decide)).2.2.2 (by decide)⟩

/-- C10 counterexample: a filter that accepts every ray and replaces its end
by a point one voxel from the start, without reporting a clipped end.  Of the
ray from voxel `0` to voxel `100`, the voxel of the original sample is not on
the walk from the filtered start to the filtered end, yet it receives a hit
and ends with the hit value. -/
theorem integrateRays_shortening_filter_counterexample :
    (filterRay (lineMap (some silentClipFilter)) 0 100).accept = true ∧
    (filterRay (lineMap (some silentClipFilter)) 0 100).start = 0 ∧
    (filterRay (lineMap (some silentClipFilter)) 0 100).end_point = 1 ∧
    lineVoxelKey 100 ∉ calculateSegmentKeys (lineMap (some silentClipFilter)) 0 1 true ∧
    (integrateRays (lineMap (some silentClipFilter)) 0 [0, 100] emptyVoxels).2
      = [.miss (lineVoxelKey 0), .hit (lineVoxelKey 100)] ∧
    emptyVoxels (lineVoxelKey 100) = .posInf ∧
    (integrateRays (lineMap (some silentClipFilter)) 0 [0, 100] emptyVoxels).1 (lineVoxelKey 100)
      = .finite 847 := by
  decide

/-! ## The chunk store -/

/-- C13: on a map of any origin, any positive resolution and any positive
number of voxels per region (exact arithmetic), for every chunk store and
every 16-bit region key: `newChunk` for voxel `(0, 0, 0)` of the region
computes `region_key` as the region coordinate of the new chunk;
`region(region_key, allow_create)` returns the stored chunk and leaves the map
as it is when a chunk is stored for the key; returns null and leaves the map
as it is when none is stored and creation is not allowed; and when none is
stored and creation is allowed, appends exactly one chunk, stored under
`region_key` with that region coordinate, returns it, lets `regionCount` grow
by one, and leaves the stamp and every other lookup unchanged. -/
theorem region_returns_or_creates (g : LatticeGeometry) (blank : MapChunk Int)
    (imp : MapStore Int) (region_key : I16Vec3) (allow_create : Bool)
    (hres : 0 < g.half_resolution) (hdims : ∀ a, 0 < g.region_voxel_dimensions.get a)
    (hkey : ∀ a, isInt16 (region_key.get a)) :
    (latticeMapRegion g (latticeVoxelCentre g ⟨region_key, ⟨0, 0, 0⟩⟩)).coord = region_key ∧
    (∀ chunk, imp.chunks.find region_key = some chunk →
      region (latticeFactory g blank) imp region_key allow_create = (imp, some chunk)) ∧
    (imp.chunks.find region_key = none → allow_create = false →
      region (latticeFactory g blank) imp region_key allow_create = (imp, none)) ∧
    (imp.chunks.find region_key = none → allow_create = true →
      (region (latticeFactory g blank) imp region_key allow_create).1.chunks
        = imp.chunks ++ [(region_key, newChunk (latticeFactory g blank) ⟨region_key, ⟨0, 0, 0⟩⟩)] ∧
      (region (latticeFactory g blank) imp region_key allow_create).2
        = some (newChunk (latticeFactory g blank) ⟨region_key, ⟨0, 0, 0⟩⟩) ∧
      (newChunk (latticeFactory g blank) ⟨region_key, ⟨0, 0, 0⟩⟩).region.coord = region_key ∧
      (region (latticeFactory g blank) imp region_key allow_create).1.chunks.find region_key
        = (region (latticeFactory g blank) imp region_key allow_create).2 ∧
      regionCount (region (latticeFactory g blank) imp region_key allow_create).1
        = regionCount imp + 1 ∧
      (region (latticeFactory g blank) imp region_key allow_create).1.stamp = imp.stamp ∧
      (∀ other, other ≠ region_key →
        (region (latticeFactory g blank) imp region_key allow_create).1.chunks.find other
          = imp.chunks.find other)) :=
  ⟨latticeFactory_round_trip g blank region_key hres hdims hkey,
    region_spec (latticeFactory g blank) imp region_key allow_create
      (latticeFactory_round_trip g blank region_key hres hdims hkey)⟩

/-- C13 witness: creating the chunk of region `(3, -2, 0)` in a map of three
chunks with origin `(5, -7, 11)`, resolution `6` and regions of `4 × 3 × 2`
voxels. -/
theorem region_returns_or_creates_witness :
    0 < offsetGeometry.half_resolution ∧
    (∀ a, 0 < offsetGeometry.region_voxel_dimensions.get a) ∧
    (∀ a, isInt16 ((⟨3, -2, 0⟩ : I16Vec3).get a)) ∧
    smallStore.chunks.find ⟨3, -2, 0⟩ = none ∧
    latticeVoxelCentre offsetGeometry ⟨⟨3, -2, 0⟩, ⟨0, 0, 0⟩⟩
      = ⟨.finite 68, .finite (-49), .finite 8⟩ ∧
    (newChunk (latticeFactory offsetGeometry gridBlankChunk) ⟨⟨3, -2, 0⟩, ⟨0, 0, 0⟩⟩).region.coord
      = ⟨3, -2, 0⟩ ∧
    regionCount (region (latticeFactory offsetGeometry gridBlankChunk) smallStore ⟨3, -2, 0⟩ true).1
      = regionCount smallStore + 1 ∧
    (region (latticeFactory offsetGeometry gridBlankChunk) smallStore ⟨3, -2, 0⟩ true).1.stamp
      = smallStore.stamp :=
  ⟨by decide, by intro a; fin_cases a <;> decide, by intro a; fin_cases a <;> decide, by decide,
    by decide,
    ((region_returns_or_creates offsetGeometry gridBlankChunk smallStore ⟨3, -2, 0⟩ true
      (by decide) (by intro a; fin_cases a <;> decide)
      (by intro a; fin_cases a <;> decide)).2.2.2 (by decide) rfl).2.2.1,
    ((region_returns_or_creates offsetGeometry gridBlankChunk smallStore ⟨3, -2, 0⟩ true
      (by decide) (by intro a; fin_cases a <;> decide)
      (by intro a; fin_cases a <;> decide)).2.2.2 (by decide) rfl).2.2.2.2.1,
    ((region_returns_or_creates offsetGeometry gridBlankChunk smallStore ⟨3, -2, 0⟩ true
      (by decide) (by intro a; fin_cases a <;> decide)
      (by intro a; fin_cases a <;> decide)).2.2.2 (by decide) rfl).2.2.2.2.2.1⟩

/-- C14: `cullRegions` keeps, in order and unchanged, exactly the chunks for
which the predicate is false, and removes the others; the count returned is
the number removed (as an `unsigned`), so with fewer than `2^32` chunks
`regionCount` afterwards is `regionCount` before minus the result.
`expireRegions(t)` removes exactly the chunks with `touched_time < t` and
returns their number; `cullRegionsOutside(min, max)` removes exactly the
chunks for which the box from `region.centre - 0.5 * region_spatial_dimensions`
to `region.centre + 0.5 * region_spatial_dimensions` does not overlap the box
from `min` to `max`, and returns their number. -/
theorem cullRegions_removes_exactly {α : Type} [LinearOrder α] (cull_func : MapChunk α → Bool)
    (imp : MapStore α) (A : FloatArith α) (overlaps : Aabb α → Aabb α → Bool)
    (region_spatial_dimensions min_extents max_extents : Vec3 (FloatVal α))
    (timestamp : FloatVal α) (hcount : regionCount imp < 4294967296) :
    (cullRegions cull_func imp).1.chunks = imp.chunks.filter (fun e => !cull_func e.2) ∧
    (∀ e, e ∈ (cullRegions cull_func imp).1.chunks ↔ e ∈ imp.chunks ∧ cull_func e.2 = false) ∧
    (cullRegions cull_func imp).2 = imp.chunks.countP (fun e => cull_func e.2) ∧
    regionCount (cullRegions cull_func imp).1 = regionCount imp - (cullRegions cull_func imp).2 ∧
    (cullRegions cull_func imp).1.stamp = imp.stamp ∧
    (∀ e, e ∈ (expireRegions imp timestamp).1.chunks ↔
      e ∈ imp.chunks ∧ e.2.touched_time.lt timestamp = false) ∧
    (expireRegions imp timestamp).2
      = imp.chunks.countP (fun e => e.2.touched_time.lt timestamp) ∧
    (∀ e, e ∈ (cullRegionsOutside A overlaps region_spatial_dimensions imp min_extents
        max_extents).1.chunks ↔
      e ∈ imp.chunks ∧
        overlaps ⟨min_extents, max_extents⟩
          ⟨⟨A.sub e.2.region.centre.x (A.mul A.half region_spatial_dimensions.x),
              A.sub e.2.region.centre.y (A.mul A.half region_spatial_dimensions.y),
              A.sub e.2.region.centre.z (A.mul A.half region_spatial_dimensions.z)⟩,
            ⟨A.add e.2.region.centre.x (A.mul A.half region_spatial_dimensions.x),
              A.add e.2.region.centre.y (A.mul A.half region_spatial_dimensions.y),
              A.add e.2.region.centre.z (A.mul A.half region_spatial_dimensions.z)⟩⟩ = true) ∧
    (cullRegionsOutside A overlaps region_spatial_dimensions imp min_extents max_extents).2
      = imp.chunks.countP (fun e =>
        !overlaps ⟨min_extents, max_extents⟩
          ⟨⟨A.sub e.2.region.centre.x (A.mul A.half region_spatial_dimensions.x),
              A.sub e.2.region.centre.y (A.mul A.half region_spatial_dimensions.y),
              A.sub e.2.region.centre.z (A.mul A.half region_spatial_dimensions.z)⟩,
            ⟨A.add e.2.region.centre.x (A.mul A.half region_spatial_dimensions.x),
              A.add e.2.region.centre.y (A.mul A.half region_spatial_dimensions.y),
              A.add e.2.region.centre.z (A.mul A.half region_spatial_dimensions.z)⟩⟩) := by
  have hfilter : ∀ (g : MapChunk α → Bool),
      (cullRegions g imp).1.chunks = imp.chunks.filter (fun e => !g e.2) :=
    fun g => (cullLoop_spec g imp.chunks 0).1
  have hmem : ∀ (g : MapChunk α → Bool) e,
      e ∈ (cullRegions g imp).1.chunks ↔ e ∈ imp.chunks ∧ g e.2 = false := by
    intro g e
    rw [hfilter g, List.mem_filter]
    simp
  have hle : imp.chunks.countP (fun e => cull_func e.2) ≤ imp.chunks.length :=
    List.countP_le_length _
  have hret : ∀ (g : MapChunk α → Bool),
      (cullRegions g imp).2 = imp.chunks.countP (fun e => g e.2) := by
    intro g
    have hle : imp.chunks.countP (fun e => g e.2) ≤ imp.chunks.length :=
      List.countP_le_length _
    obtain ⟨_, h2, h3⟩ := cullLoop_spec g imp.chunks 0
    have hlt := h3 (by norm_num)
    show (cullLoop g imp.chunks 0).2 = _
    unfold regionCount at hcount
    rw [Nat.mod_eq_of_lt hlt, Nat.zero_add, Nat.mod_eq_of_lt (by omega)] at h2
    exact h2
  refine ⟨hfilter cull_func, hmem cull_func, hret cull_func, ?_, rfl, ?_, hret _, ?_, hret _⟩
  · rw [hret cull_func]
    unfold regionCount
    rw [hfilter cull_func]
    have hsplit := List.length_eq_countP_add_countP (fun e : I16Vec3 × MapChunk α => cull_func e.2)
      imp.chunks
    have hkeep : (imp.chunks.filter (fun e => !cull_func e.2)).length
        = imp.chunks.countP (fun e => decide ¬ cull_func e.2 = true) := by
      rw [List.countP_eq_length_filter]
      congr 1
      apply List.filter_congr
      intro e _
      simp
    rw [hkeep]
    omega
  · intro e
    exact hmem _ e
  · intro e
    unfold cullRegionsOutside
    rw [hmem]
    simp [regionBox, FloatArith.vsub, FloatArith.vadd, FloatArith.vscale]

/-- C14 witness: expiring the chunks touched before time `25` in a map of
three chunks removes the two touched at `10` and `20`; culling outside the box
from `(-0.4, -0.4, -0.4)` to `(0.4, 0.4, 0.4)` with regions of extent `1.0`
removes the chunks centred on `(1, 0, 0)` and `(2, 0, 0)`, whose boxes start
at `x = 0.5` and `x = 1.5`, and keeps the one centred on the origin. -/
theorem cullRegions_removes_exactly_witness :
    regionCount smallStore < 4294967296 ∧
    (expireRegions smallStore (.finite 25)).2 = 2 ∧
    regionCount (expireRegions smallStore (.finite 25)).1
      = regionCount smallStore - (expireRegions smallStore (.finite 25)).2 ∧
    (cullRegionsOutside gridArith boxOverlaps gridLattice.region_spatial_dimensions smallStore
      ⟨.finite (-6710886), .finite (-6710886), .finite (-6710886)⟩
      ⟨.finite 6710886, .finite 6710886, .finite 6710886⟩).2 = 2 ∧
    (cullRegionsOutside gridArith boxOverlaps gridLattice.region_spatial_dimensions smallStore
      ⟨.finite (-6710886), .finite (-6710886), .finite (-6710886)⟩
      ⟨.finite 6710886, .finite 6710886, .finite 6710886⟩).1.chunks.map (fun e => e.1)
      = [⟨0, 0, 0⟩] :=
  ⟨by decide, by decide,
    (cullRegions_removes_exactly (fun chunk => chunk.touched_time.lt (.finite 25)) smallStore
      gridArith boxOverlaps gridLattice.region_spatial_dimensions
      ⟨.finite (-6710886), .finite (-6710886), .finite (-6710886)⟩
      ⟨.finite 6710886, .finite 6710886, .finite 6710886⟩ (.finite 25)
      (by decide)).2.2.2.1,
    by decide, by decide⟩

/-- C15: `setSubVoxelsEnabled` changes nothing when the layout already has
the state asked for, or when there is no occupancy layer.  Otherwise, with
every chunk holding `voxel_count` occupancy voxels, the chunks stay in place
and every voxel keeps its occupancy value; enabling gives every voxel the
sub-voxel member with clear value `0`, disabling drops the member. -/
theorem setSubVoxelsEnabled_keeps_occupancy {α : Type} (imp : MapStore α) (enable : Bool)
    (hlen : ∀ e ∈ imp.chunks,
      e.2.occupancy_voxels.length = voxelCount imp.region_voxel_dimensions) :
    (enable = imp.has_sub_voxel_pattern → setSubVoxelsEnabled imp enable = imp) ∧
    (imp.occupancy_layer < 0 → setSubVoxelsEnabled imp enable = imp) ∧
    (enable ≠ imp.has_sub_voxel_pattern → 0 ≤ imp.occupancy_layer →
      (setSubVoxelsEnabled imp enable).has_sub_voxel_pattern = enable ∧
      (setSubVoxelsEnabled imp enable).chunks = imp.chunks.map (fun entry =>
        (entry.1, { entry.2 with
          occupancy_voxels := entry.2.occupancy_voxels.map
            (fun existing => ⟨existing.occupancy, if enable then some 0 else none⟩) })) ∧
      (∀ (n : Nat) (i : Nat),
        (((setSubVoxelsEnabled imp enable).chunks[n]?).map (fun e => e.1)
          = (imp.chunks[n]?).map (fun e => e.1)) ∧
        (((setSubVoxelsEnabled imp enable).chunks[n]?).bind
            (fun e => (e.2.occupancy_voxels[i]?).map (fun v => v.occupancy))
          = (imp.chunks[n]?).bind
            (fun e => (e.2.occupancy_voxels[i]?).map (fun v => v.occupancy))) ∧
        (∀ e, (setSubVoxelsEnabled imp enable).chunks[n]? = some e →
          ∀ v, e.2.occupancy_voxels[i]? = some v →
            v.sub_voxel = if enable then some 0 else none))) := by
  refine ⟨?_, ?_, ?_⟩
  · intro h
    unfold setSubVoxelsEnabled
    rw [if_pos h]
  · intro h
    unfold setSubVoxelsEnabled
    split_ifs <;> rfl
  · intro hne hlayer
    have hchunks : (setSubVoxelsEnabled imp enable).chunks = imp.chunks.map (fun entry =>
        (entry.1, { entry.2 with
          occupancy_voxels := entry.2.occupancy_voxels.map
            (fun existing => ⟨existing.occupancy, if enable then some 0 else none⟩) })) := by
      unfold setSubVoxelsEnabled
      rw [if_neg hne, if_neg (not_lt.mpr hlayer)]
      cases enable
      · simp only [Bool.false_eq_true, if_false]
        apply List.map_congr_left
        intro e he
        rw [← hlen e he, List.take_length]
      · simp only [if_true]
        apply List.map_congr_left
        intro e he
        rw [← hlen e he, List.take_length]
    refine ⟨?_, hchunks, ?_⟩
    · unfold setSubVoxelsEnabled
      rw [if_neg hne, if_neg (not_lt.mpr hlayer)]
      cases enable <;> rfl
    · intro n i
      rw [hchunks]
      simp only [List.getElem?_map]
      cases hn : imp.chunks[n]? with
      | none => simp
      | some e =>
        simp only [Option.map_some', Option.some_bind, List.getElem?_map, Option.map_map,
          Option.some.injEq, true_and]
        refine ⟨?_, ?_⟩
        · cases e.2.occupancy_voxels[i]? <;> rfl
        · intro e2 he2 v hv
          subst he2
          simp only [List.getElem?_map] at hv
          cases hvi : e.2.occupancy_voxels[i]? with
          | none => rw [hvi] at hv; cases hv
          | some w =>
            rw [hvi] at hv
            simp only [Option.map_some', Option.some.injEq] at hv
            rw [← hv]

/-- C15 witness: enabling sub-voxel patterns on a map of three chunks of two
voxels each. -/
theorem setSubVoxelsEnabled_keeps_occupancy_witness :
    (∀ e ∈ smallStore.chunks,
      e.2.occupancy_voxels.length = voxelCount smallStore.region_voxel_dimensions) ∧
    (setSubVoxelsEnabled smallStore true).has_sub_voxel_pattern = true ∧
    ((setSubVoxelsEnabled smallStore true).chunks[1]?).map (fun e => e.2.occupancy_voxels)
      = some [⟨.finite (-405), some 0⟩, ⟨.finite (-810), some 0⟩] ∧
    setSubVoxelsEnabled (setSubVoxelsEnabled smallStore true) false = smallStore :=
  ⟨by decide,
    ((setSubVoxelsEnabled_keeps_occupancy smallStore true (by decide)).2.2 (by decide)
      (by decide)).1,
    by decide, by rfl⟩

/-! ## The GPU cache budget -/

/-- C17: with the present known layers having indices of their own, their
byte sizes summing to less than `2^64` and each product of a byte size and the
target fitting `size_t`, `reinitialiseGpuCache` creates one cache per present
layer, in the order occupancy, mean, covariance, clearance, with memory size
`floor(layer_byte_size * target / total)` where `total` is the sum of the byte
sizes of the present layers; the sizes assigned sum to at most the target; and
when every present layer has a positive byte size the division has a non-zero
divisor. -/
theorem reinitialiseGpuCache_distributes (layerByteSize : Int → Nat) (target : Nat)
    (occupancy_layer mean_layer covariance_layer clearance_layer : Int)
    (hdistinct : (presentLayers occupancy_layer mean_layer covariance_layer clearance_layer).Nodup)
    (hsum : ((presentLayers occupancy_layer mean_layer covariance_layer clearance_layer).map
      layerByteSize).sum < 18446744073709551616)
    (hprod : ∀ i ∈ presentLayers occupancy_layer mean_layer covariance_layer clearance_layer,
      layerByteSize i * target < 18446744073709551616) :
    ((∀ i ∈ presentLayers occupancy_layer mean_layer covariance_layer clearance_layer,
        0 < layerByteSize i) →
      (reinitialiseGpuCache layerByteSize target occupancy_layer mean_layer covariance_layer
        clearance_layer).isSome = true) ∧
    (∀ caches, reinitialiseGpuCache layerByteSize target occupancy_layer mean_layer
        covariance_layer clearance_layer = some caches →
      caches =
        (if 0 ≤ occupancy_layer then
          [(GpuCacheId.kGcIdOccupancy,
            ⟨layerByteSize occupancy_layer * target /
              ((presentLayers occupancy_layer mean_layer covariance_layer clearance_layer).map
                layerByteSize).sum, occupancy_layer⟩)]
          else []) ++
        (if 0 ≤ mean_layer then
          [(GpuCacheId.kGcIdVoxelMean,
            ⟨layerByteSize mean_layer * target /
              ((presentLayers occupancy_layer mean_layer covariance_layer clearance_layer).map
                layerByteSize).sum, mean_layer⟩)]
          else []) ++
        (if 0 ≤ covariance_layer then
          [(GpuCacheId.kGcIdCovariance,
            ⟨layerByteSize covariance_layer * target /
              ((presentLayers occupancy_layer mean_layer covariance_layer clearance_layer).map
                layerByteSize).sum, covariance_layer⟩)]
          else []) ++
        (if 0 ≤ clearance_layer then
          [(GpuCacheId.kGcIdClearance,
            ⟨layerByteSize clearance_layer * target /
              ((presentLayers occupancy_layer mean_layer covariance_layer clearance_layer).map
                layerByteSize).sum, occupancy_layer⟩)]
          else []) ∧
      (caches.map (fun c => c.2.gpu_mem_size)).sum ≤ target) := by
  obtain ⟨present, hpresent⟩ : ∃ present,
      present = presentLayers occupancy_layer mean_layer covariance_layer clearance_layer :=
    ⟨_, rfl⟩
  obtain ⟨total, htotal⟩ : ∃ total, total = (present.map layerByteSize).sum := ⟨_, rfl⟩
  rw [← hpresent] at hdistinct hsum hprod ⊢
  rw [← htotal] at hsum ⊢
  have hc := collectWeights_spec layerByteSize
    [occupancy_layer, mean_layer, covariance_layer, clearance_layer] [] 0
    (by rw [hpresent] at hdistinct; exact hdistinct) (by intro i _; rfl) (by norm_num)
  have hfold : presentLayers occupancy_layer mean_layer covariance_layer clearance_layer
      = [occupancy_layer, mean_layer, covariance_layer, clearance_layer].filter
        (fun i => decide (0 ≤ i)) := rfl
  rw [← hfold, ← hpresent, List.nil_append, Nat.zero_add, ← htotal, Nat.mod_eq_of_lt hsum] at hc
  have hget : ∀ i ∈ present,
      LayerMemWeight.get ((present.map (fun i => (i, layerByteSize i))).map
        (fun layer_weight => (layer_weight.1, toSizeT (layer_weight.2 * target) / total))) i
        = layerByteSize i * target / total := by
    intro i hi
    unfold LayerMemWeight.get
    rw [List.map_map]
    have := lookup_map_weight present (fun j => toSizeT (layerByteSize j * target) / total) i hi
    simp only [Function.comp_def]
    rw [this]
    simp only [Option.getD_some]
    unfold toSizeT
    rw [Nat.mod_eq_of_lt (hprod i hi)]
  have hmem : ∀ i, 0 ≤ i → (i = occupancy_layer ∨ i = mean_layer ∨ i = covariance_layer ∨
      i = clearance_layer) → i ∈ present := by
    intro i hi h
    rw [hpresent]
    unfold presentLayers
    simp only [List.mem_filter, List.mem_cons, List.mem_singleton, List.not_mem_nil, or_false,
      decide_eq_true_eq]
    exact ⟨h, hi⟩
  have hsumle : (present.map (fun i => layerByteSize i * target / total)).sum ≤ target := by
    refine le_trans (sum_div_le present (fun i => layerByteSize i * target) total) ?_
    rw [sum_map_mul_right, ← htotal]
    rcases Nat.eq_zero_or_pos total with h0 | hpos
    · rw [h0]; simp
    · rw [Nat.mul_div_cancel_left _ hpos]
  constructor
  · intro hpos
    unfold reinitialiseGpuCache
    simp only [hc]
    cases hp : present with
    | nil => simp
    | cons k rest =>
      have hk : 0 < layerByteSize k := hpos k (by rw [hp]; exact List.mem_cons_self _ _)
      have ht : total ≠ 0 := by
        rw [htotal, hp]
        simp only [List.map_cons, List.sum_cons]
        omega
      simp [ht]
  · intro caches hcaches
    unfold reinitialiseGpuCache at hcaches
    simp only [hc] at hcaches
    by_cases hzero : (!(List.map (fun i => (i, layerByteSize i)) present).isEmpty
        && total == 0) = true
    · rw [if_pos hzero] at hcaches
      cases hcaches
    rw [if_neg hzero] at hcaches
    simp only [Option.some.injEq] at hcaches
    have hcaches2 : caches =
        (if 0 ≤ occupancy_layer then
          [(GpuCacheId.kGcIdOccupancy,
            ⟨layerByteSize occupancy_layer * target / total, occupancy_layer⟩)]
          else []) ++
        (if 0 ≤ mean_layer then
          [(GpuCacheId.kGcIdVoxelMean, ⟨layerByteSize mean_layer * target / total, mean_layer⟩)]
          else []) ++
        (if 0 ≤ covariance_layer then
          [(GpuCacheId.kGcIdCovariance,
            ⟨layerByteSize covariance_layer * target / total, covariance_layer⟩)]
          else []) ++
        (if 0 ≤ clearance_layer then
          [(GpuCacheId.kGcIdClearance,
            ⟨layerByteSize clearance_layer * target / total, occupancy_layer⟩)]
          else []) := by
      rw [← hcaches]
      congr 1
      · congr 1
        · congr 1
          · split_ifs with h
            · rw [hget _ (hmem _ h (Or.inl rfl))]
            · rfl
          · split_ifs with h
            · rw [hget _ (hmem _ h (Or.inr (Or.inl rfl)))]
            · rfl
        · split_ifs with h
          · rw [hget _ (hmem _ h (Or.inr (Or.inr (Or.inl rfl))))]
          · rfl
      · split_ifs with h
        · rw [hget _ (hmem _ h (Or.inr (Or.inr (Or.inr rfl))))]
        · rfl
    refine ⟨hcaches2, ?_⟩
    have hsame : (caches.map (fun c => c.2.gpu_mem_size)).sum
        = (present.map (fun i => layerByteSize i * target / total)).sum := by
      rw [hcaches2, hpresent]
      unfold presentLayers
      simp only [List.filter_cons, List.filter_nil, decide_eq_true_eq]
      split_ifs <;> simp
    rw [hsame]
    exact hsumle

/-- C17 witness: an occupancy layer of `131072` bytes and a mean layer of
`524288` bytes per chunk share a target of `1000000` bytes. -/
theorem reinitialiseGpuCache_distributes_witness :
    (presentLayers 0 1 (-1) (-1)).Nodup ∧
    reinitialiseGpuCache (fun i => if i = 0 then 131072 else 524288) 1000000 0 1 (-1) (-1)
      = some [(GpuCacheId.kGcIdOccupancy, ⟨200000, 0⟩), (GpuCacheId.kGcIdVoxelMean, ⟨800000, 1⟩)] ∧
    (reinitialiseGpuCache (fun i => if i = 0 then 131072 else 524288) 1000000 0 1 (-1)
      (-1)).isSome = true :=
  ⟨by decide, by decide,
    (reinitialiseGpuCache_distributes (fun i => if i = 0 then 131072 else 524288) 1000000 0 1
      (-1) (-1) (by decide) (by decide) (by decide)).1 (by decide)⟩

/-! ## Queueing regions on the GPU -/

/-- C18, as the code behaves: a call of `enqueueRegion` uploads at most twice.
When the first upload does not report `kCacheFull` the region is written to the
active slot.  When it reports `kCacheFull` and retry is not allowed, nothing is
written and no slot changes.  When it reports `kCacheFull` with retry allowed
(and `regions` not empty), the batch is finalised once, which swaps the slot,
the rays are copied over, and the region is uploaded once more under the new
batch marker; it is written to the new slot if that upload does not report
`kCacheFull`, and otherwise nothing is written and the call goes on to its
last statement like any other: the region is left out of the batch. -/
theorem enqueueRegion_retry_protocol {C : Type} (ops : GpuLayerCacheOps C) (imp : GpuMapDetail C)
    (region_key : I16Vec3) (allow_retry : Bool) :
    ((ops.upload imp.cache region_key imp.batch_marker).2.status ≠ CacheStatus.kCacheFull →
      (enqueueRegion ops imp region_key allow_retry).state.events = imp.events ++
        [GpuEvent.upload region_key imp.batch_marker,
          GpuEvent.writeRegion imp.next_buffers_index (imp.region_counts imp.next_buffers_index)
            region_key (ops.upload imp.cache region_key imp.batch_marker).2.mem_offset] ∧
      (enqueueRegion ops imp region_key allow_retry).state.next_buffers_index
        = imp.next_buffers_index) ∧
    ((ops.upload imp.cache region_key imp.batch_marker).2.status = CacheStatus.kCacheFull →
      allow_retry = false →
      (enqueueRegion ops imp region_key allow_retry).state.events
        = imp.events ++ [GpuEvent.upload region_key imp.batch_marker] ∧
      (enqueueRegion ops imp region_key allow_retry).state.next_buffers_index
        = imp.next_buffers_index ∧
      (enqueueRegion ops imp region_key allow_retry).state.region_counts = imp.region_counts) ∧
    ((ops.upload imp.cache region_key imp.batch_marker).2.status = CacheStatus.kCacheFull →
      allow_retry = true → 0 < imp.regions_size →
      (enqueueRegion ops imp region_key allow_retry).state.events = imp.events ++
        [GpuEvent.upload region_key imp.batch_marker,
          GpuEvent.updateRegion imp.next_buffers_index (imp.region_counts imp.next_buffers_index),
          GpuEvent.copyRays (1 - imp.next_buffers_index) imp.next_buffers_index,
          GpuEvent.upload region_key
            (ops.beginBatch (ops.updateEvents
              (ops.upload imp.cache region_key imp.batch_marker).1 imp.batch_marker)).2] ++
        (if (ops.upload
              (ops.beginBatch (ops.updateEvents
                (ops.upload imp.cache region_key imp.batch_marker).1 imp.batch_marker)).1
              region_key
              (ops.beginBatch (ops.updateEvents
                (ops.upload imp.cache region_key imp.batch_marker).1 imp.batch_marker)).2).2.status
            ≠ CacheStatus.kCacheFull then
          [GpuEvent.writeRegion (1 - imp.next_buffers_index)
            (imp.region_counts (1 - imp.next_buffers_index)) region_key
            (ops.upload
              (ops.beginBatch (ops.updateEvents
                (ops.upload imp.cache region_key imp.batch_marker).1 imp.batch_marker)).1
              region_key
              (ops.beginBatch (ops.updateEvents
                (ops.upload imp.cache region_key imp.batch_marker).1
                  imp.batch_marker)).2).2.mem_offset]
        else []) ∧
      (enqueueRegion ops imp region_key allow_retry).state.next_buffers_index
        = 1 - imp.next_buffers_index) ∧
    ((enqueueRegion ops imp region_key allow_retry).state.events.countP
        (fun e => match e with
          | GpuEvent.upload _ _ => true
          | _ => false)
      ≤ imp.events.countP
        (fun e => match e with
          | GpuEvent.upload _ _ => true
          | _ => false) + 2) := by
  have hA : (ops.upload imp.cache region_key imp.batch_marker).2.status ≠ CacheStatus.kCacheFull →
      (enqueueRegion ops imp region_key allow_retry).state.events = imp.events ++
        [GpuEvent.upload region_key imp.batch_marker,
          GpuEvent.writeRegion imp.next_buffers_index (imp.region_counts imp.next_buffers_index)
            region_key (ops.upload imp.cache region_key imp.batch_marker).2.mem_offset] ∧
      (enqueueRegion ops imp region_key allow_retry).state.next_buffers_index
        = imp.next_buffers_index := by
    intro h
    unfold enqueueRegion enqueueRegionBody
    simp only [markRegionDirty_state]
    simp [h, EnqueueOutcome.state]
  have hB : (ops.upload imp.cache region_key imp.batch_marker).2.status = CacheStatus.kCacheFull →
      allow_retry = false →
      (enqueueRegion ops imp region_key allow_retry).state.events
        = imp.events ++ [GpuEvent.upload region_key imp.batch_marker] ∧
      (enqueueRegion ops imp region_key allow_retry).state.next_buffers_index
        = imp.next_buffers_index ∧
      (enqueueRegion ops imp region_key allow_retry).state.region_counts = imp.region_counts := by
    intro h hr
    unfold enqueueRegion enqueueRegionBody
    simp only [markRegionDirty_state]
    simp [h, hr, EnqueueOutcome.state]
  have hC : (ops.upload imp.cache region_key imp.batch_marker).2.status = CacheStatus.kCacheFull →
      allow_retry = true → 0 < imp.regions_size →
      (enqueueRegion ops imp region_key allow_retry).state.events = imp.events ++
        [GpuEvent.upload region_key imp.batch_marker,
          GpuEvent.updateRegion imp.next_buffers_index (imp.region_counts imp.next_buffers_index),
          GpuEvent.copyRays (1 - imp.next_buffers_index) imp.next_buffers_index,
          GpuEvent.upload region_key
            (ops.beginBatch (ops.updateEvents
              (ops.upload imp.cache region_key imp.batch_marker).1 imp.batch_marker)).2] ++
        (if (ops.upload
              (ops.beginBatch (ops.updateEvents
                (ops.upload imp.cache region_key imp.batch_marker).1 imp.batch_marker)).1
              region_key
              (ops.beginBatch (ops.updateEvents
                (ops.upload imp.cache region_key imp.batch_marker).1 imp.batch_marker)).2).2.status
            ≠ CacheStatus.kCacheFull then
          [GpuEvent.writeRegion (1 - imp.next_buffers_index)
            (imp.region_counts (1 - imp.next_buffers_index)) region_key
            (ops.upload
              (ops.beginBatch (ops.updateEvents
                (ops.upload imp.cache region_key imp.batch_marker).1 imp.batch_marker)).1
              region_key
              (ops.beginBatch (ops.updateEvents
                (ops.upload imp.cache region_key imp.batch_marker).1
                  imp.batch_marker)).2).2.mem_offset]
        else []) ∧
      (enqueueRegion ops imp region_key allow_retry).state.next_buffers_index
        = 1 - imp.next_buffers_index := by
    intro h hr hsize
    unfold enqueueRegion enqueueRegionBody finaliseBatch
    simp only [markRegionDirty_state]
    simp only [h, hr, ne_eq, not_true_eq_false, if_false, if_true, Function.update_same, hsize]
    simp only [markRegionDirty_state]
    by_cases h2 : (ops.upload
        (ops.beginBatch (ops.updateEvents
          (ops.upload imp.cache region_key imp.batch_marker).1 imp.batch_marker)).1
        region_key
        (ops.beginBatch (ops.updateEvents
          (ops.upload imp.cache region_key imp.batch_marker).1 imp.batch_marker)).2).2.status
        = CacheStatus.kCacheFull
    · simp [h2, EnqueueOutcome.state]
    · simp [h2, EnqueueOutcome.state, Function.update_noteq (one_sub_ne_self _)]
  refine ⟨hA, hB, hC, ?_⟩
  by_cases h : (ops.upload imp.cache region_key imp.batch_marker).2.status = CacheStatus.kCacheFull
  · cases hr : allow_retry
    · rw [hr] at hB
      rw [(hB h rfl).1]
      simp
    · rw [hr] at hC
      by_cases hsize : 0 < imp.regions_size
      · rw [(hC h rfl hsize).1]
        simp only [List.countP_append]
        split_ifs <;> simp [List.countP_cons]
      · unfold enqueueRegion enqueueRegionBody finaliseBatch
        simp only [markRegionDirty_state]
        simp [h, hsize, EnqueueOutcome.state]
  · rw [(hA h).1]
    simp

/-- C18 witness: a cache whose pages are held under the active batch marker is
full for region `(1, 0, 0)`; the batch is finalised, the upload under the new
marker succeeds and the region is written to slot `1`. -/
theorem enqueueRegion_retry_protocol_witness :
    (heldCacheOps.upload (gpuMapInBatch () 1 2).cache ⟨1, 0, 0⟩
      (gpuMapInBatch () 1 2).batch_marker).2.status = CacheStatus.kCacheFull ∧
    0 < (gpuMapInBatch () 1 2).regions_size ∧
    (enqueueRegion heldCacheOps (gpuMapInBatch () 1 2) ⟨1, 0, 0⟩ true).state.events
      = [GpuEvent.upload ⟨1, 0, 0⟩ 1, GpuEvent.updateRegion 0 1, GpuEvent.copyRays 1 0,
          GpuEvent.upload ⟨1, 0, 0⟩ 3, GpuEvent.writeRegion 1 0 ⟨1, 0, 0⟩ 0] :=
  ⟨by decide, by decide,
    ((enqueueRegion_retry_protocol heldCacheOps (gpuMapInBatch () 1 2) ⟨1, 0, 0⟩ true).2.2.1
      (by decide) rfl (by decide)).1.trans (by decide)⟩

/-- C18 counterexample: with a cache that is full at both attempts the call
returns like any other; the events are the two uploads around the one
finalisation, no region is written, and both region counts end at zero.  A
full cache whose `upload` leaves the chunk pointer null gives the same
events. -/
theorem enqueueRegion_full_twice_returns :
    (∃ imp : GpuMapDetail Unit,
      enqueueRegion fullCacheOps (gpuMapInBatch () 1 2) ⟨1, 0, 0⟩ true
        = EnqueueOutcome.returned imp ∧
      imp.events = [GpuEvent.upload ⟨1, 0, 0⟩ 1, GpuEvent.updateRegion 0 1,
        GpuEvent.copyRays 1 0, GpuEvent.upload ⟨1, 0, 0⟩ 3] ∧
      imp.region_counts 0 = 0 ∧ imp.region_counts 1 = 0) ∧
    (enqueueRegion fullNullCacheOps (gpuMapInBatch () 1 2) ⟨1, 0, 0⟩
      true).state.events = [GpuEvent.upload ⟨1, 0, 0⟩ 1, GpuEvent.updateRegion 0 1,
        GpuEvent.copyRays 1 0, GpuEvent.upload ⟨1, 0, 0⟩ 3] :=
  ⟨⟨_, rfl, by decide, by decide, by decide⟩, by decide⟩

/-! ## The region walk -/

/-- C11, evaluated: on the grid map (origin zero, regions of extent `1.0`) the
segment from `(0.5 - 2^-12, 0, 0)` to `(0.5 + 2^-12, 0, 0)` starts in region
`(0, 0, 0)` and ends in region `(1, 0, 0)`; for every number of passes given
to its loop `walkRegions` has not returned, and the keys passed to the
callback are `(0, 0, 0)`, `(0, 0, -1)`, `(0, 0, -2)`, ... with `z` narrowed to
16 bits: the key of the end point is never among them and `(0, 0, 0)` comes
again after `65536` passes. -/
theorem walkRegions_short_ray_never_returns (fuel : Nat) :
    gridLattice.regionKey shortRayStart = ⟨0, 0, 0⟩ ∧
    gridLattice.regionKey shortRayEnd = ⟨1, 0, 0⟩ ∧
    walkDirection gridArith shortRayStart shortRayEnd = ⟨.posInf, .nan, .nan⟩ ∧
    walkRegions gridArith gridLattice shortRayStart shortRayEnd fuel
      = ⟨(List.range fuel).map (fun i : Nat => ⟨0, 0, toInt16 (-(i : Int))⟩), false⟩ := by
  refine ⟨by decide, by decide, by decide, ?_⟩
  have hsetup : walkSetup gridArith gridLattice shortRayStart shortRayEnd
      = ⟨⟨1, -1, -1⟩, ⟨.finite 0, .nan, .nan⟩, ⟨.finite 0, .nan, .nan⟩,
        ⟨.finite 0, .nan, .nan⟩⟩ := by decide
  have hstart : gridLattice.regionKey shortRayStart = ⟨0, 0, toInt16 0⟩ := by decide
  have hend : gridLattice.regionKey shortRayEnd = ⟨1, 0, 0⟩ := by decide
  unfold walkRegions
  rw [hsetup, hstart, hend, if_neg (by decide), walkLoop_nan_steps_z fuel 0]
  simp


/-! ## Rays the GPU map skips -/

/-- C12: `goodRay(start, end, max_range)` returns false exactly when a
component of `start` or of `end` is not-a-number, or `max_range` is non-zero
and the squared length of `end - start` exceeds `max_range` squared; and
however far the ray loop of `integrateRaysT` has run, every ray it has handed
to `walkRegions` and every ray it has written to the ray buffer is a ray
`rays[i], rays[i + 1]` of the input for which `goodRay`, called as the loop
calls it on the points converted to single precision, returned true; nothing
is written for a preloaded buffer. -/
theorem integrateRaysT_skips_bad_rays {α : Type} [LinearOrder α] (A : FloatArith α)
    (map : RegionLattice α) (has_map gpu_ok has_cache : Bool) (max_range_filter : FloatVal α)
    (rays : Nat → Vec3 (FloatVal α)) (point_count : Nat) (preloaded_buffer : Bool)
    (fuel walk_fuel : Nat) :
    (∀ (start end_ : Vec3 (FloatVal α)) (max_range : FloatVal α),
      goodRay A start end_ max_range = false ↔
        (anyNaN start = true ∨ anyNaN end_ = true ∨
          (max_range.ne (A.ofInt 0) = true ∧
            (A.dot (A.vsub end_ start) (A.vsub end_ start)).gt (A.mul max_range max_range)
              = true))) ∧
    (∀ ray ∈ (integrateRaysT A map has_map gpu_ok has_cache max_range_filter rays point_count
        preloaded_buffer fuel walk_fuel).walked,
      ∃ i, i < point_count ∧ ray = (rays i, rays (i + 1)) ∧
        goodRay A (A.vtoSingle (rays i)) (A.vtoSingle (rays (i + 1))) max_range_filter = true) ∧
    (∀ ray ∈ (integrateRaysT A map has_map gpu_ok has_cache max_range_filter rays point_count
        preloaded_buffer fuel walk_fuel).uploaded,
      ∃ i, i < point_count ∧ ray = (A.vtoSingle (rays i), A.vtoSingle (rays (i + 1))) ∧
        goodRay A (A.vtoSingle (rays i)) (A.vtoSingle (rays (i + 1))) max_range_filter = true ∧
        preloaded_buffer = false) := by
  have hempty : RayUpload.onlyGood A max_range_filter rays point_count preloaded_buffer
      ⟨[], 0, [], [], true⟩ := by
    constructor <;> intro ray hray <;> exact absurd hray (List.not_mem_nil _)
  have hloop := uploadRays_onlyGood A map max_range_filter rays point_count preloaded_buffer
    walk_fuel fuel 0 ⟨[], 0, [], [], true⟩ hempty
  refine ⟨?_, ?_, ?_⟩
  · intro start end_ max_range
    simp only [goodRay]
    cases h1 : anyNaN start <;> cases h2 : anyNaN end_ <;>
      cases h3 : max_range.ne (A.ofInt 0) <;>
      cases h4 : (A.dot (A.vsub end_ start) (A.vsub end_ start)).gt (A.mul max_range max_range) <;>
      simp
  · unfold integrateRaysT
    split_ifs <;> first
      | (intro ray hray; exact absurd hray (List.not_mem_nil _))
      | exact hloop.1
  · unfold integrateRaysT
    split_ifs <;> first
      | (intro ray hray; exact absurd hray (List.not_mem_nil _))
      | exact hloop.2

set_option maxRecDepth 16384 in
/-- C12 witness: of four rays on the grid map with range filter `2.0`, the
one with a not-a-number start and the one of length `3.0` are skipped; the
ray from the origin to `(0, 1, 0)` is walked, and it is the ray at index
`6`. -/
theorem integrateRaysT_skips_bad_rays_witness :
    (integrateRaysT gridArith gridLattice true true true (.finite (2 * gridOne)) fourRays 8 false
      10 10).walked = [(fourRays 0, fourRays 1), (fourRays 6, fourRays 7)] ∧
    (integrateRaysT gridArith gridLattice true true true (.finite (2 * gridOne)) fourRays 8 false
      10 10).uploaded = [(fourRays 0, fourRays 1), (fourRays 6, fourRays 7)] ∧
    (integrateRaysT gridArith gridLattice true true true (.finite (2 * gridOne)) fourRays 8 false
      10 10).completed = true ∧
    goodRay gridArith (fourRays 2) (fourRays 3) (.finite (2 * gridOne)) = false ∧
    goodRay gridArith (fourRays 4) (fourRays 5) (.finite (2 * gridOne)) = false ∧
    ∃ i, i < 8 ∧ (fourRays 6, fourRays 7) = (fourRays i, fourRays (i + 1)) ∧
      goodRay gridArith (gridArith.vtoSingle (fourRays i)) (gridArith.vtoSingle (fourRays (i + 1)))
        (.finite (2 * gridOne)) = true :=
  ⟨by decide, by decide, by decide, by decide, by decide,
    (integrateRaysT_skips_bad_rays gridArith gridLattice true true true (.finite (2 * gridOne))
      fourRays 8 false 10 10).2.1 (fourRays 6, fourRays 7) (by decide)⟩


/-! ## Packed normals -/

set_option maxRecDepth 16384 in
/-- C16, evaluated: the vector `(0, 0, 1)` is its own normalisation and is
encoded as `0`; `decodeNormal(0)` computes `x = y = 0x3FFF / 16383 = 1`, takes
the square root of `1 - 2 = -1` for `z`, and normalising gives not-a-number
in all three components.  The same comes out for `(1, 0, 0)`, encoded as
`0x3FFF`. -/
theorem decodeNormal_encodeNormal_nan :
    normalize gridArith gridUnitZ = gridUnitZ ∧
    encodeNormal gridArith (normalize gridArith gridUnitZ) = 0 ∧
    decodeNormal gridArith (encodeNormal gridArith (normalize gridArith gridUnitZ))
      = ⟨.nan, .nan, .nan⟩ ∧
    encodeNormal gridArith (normalize gridArith ⟨.finite gridOne, .finite 0, .finite 0⟩) = 16383 ∧
    decodeNormal gridArith
      (encodeNormal gridArith (normalize gridArith ⟨.finite gridOne, .finite 0, .finite 0⟩))
      = ⟨.nan, .nan, .nan⟩ := by
  refine ⟨by decide, by decide, by decide, by decide, by decide⟩


/-! ## Batches of `SlamIOSource::run` -/

/-- C20, evaluated: with a time limit of `5` seconds, no point limit and rays
with origins, a loader whose first sample has timestamp `-10` makes the
population loop fail its time test before the first pass (`-1 - (-10) = 9` is
not below `5`); the final point processing adds the pending sample without its
origin, and the one batch handed to `batch_function` has one timestamp and one
point, not two.  Without a time limit the same samples give one batch of two
timestamps and four points. -/
theorem run_final_batch_without_origin (fuel : Nat) :
    run gridArith (optionsWithTimeLimit 5) true [gridSample (-10), gridSample (-9)]
        (fun _ => true) fuel
      = some (0, [⟨⟨.finite 0, .finite 0, .finite 0⟩, [(gridSample (-10)).sample],
          [(gridSample (-10)).timestamp], [(gridSample (-10)).intensity],
          [(gridSample (-10)).colour]⟩]) ∧
    RayBatch.wellFormed (⟨⟨.finite 0, .finite 0, .finite 0⟩, [(gridSample (-10)).sample],
      [(gridSample (-10)).timestamp], [(gridSample (-10)).intensity],
      [(gridSample (-10)).colour]⟩ : RayBatch Int) = false ∧
    run gridArith (optionsWithTimeLimit 0) true [gridSample (-10), gridSample (-9)]
        (fun _ => true) (fuel + 2)
      = some (0, [⟨⟨.finite 0, .finite 0, .finite 0⟩,
          [(gridSample (-10)).origin, (gridSample (-10)).sample,
            (gridSample (-9)).origin, (gridSample (-9)).sample],
          [(gridSample (-10)).timestamp, (gridSample (-9)).timestamp],
          [(gridSample (-10)).intensity, (gridSample (-9)).intensity],
          [(gridSample (-10)).colour, (gridSample (-9)).colour]⟩]) := by
  refine ⟨?_, by decide, ?_⟩
  · cases fuel <;> rfl
  · cases fuel <;> rfl


/-! ## Stepping back -/

/-- C29: for a valid key (16-bit region coordinates, local coordinates inside
the region, dimensions of at most `255`), every axis and `dir = ±1`, stepping
by `dir` and then by `-dir` along the axis gives the key back, and
`rangeBetween` from the key to the stepped key is `dir` on the axis and `0` on
the other two.  The region coordinate on the axis may be anything in 16 bits:
at an extreme the step wraps and the step back wraps the other way. -/
theorem stepKey_inverse (dims : U8Vec3) (key : Key) (axis : Fin 3) (dir : Int)
    (hdims : ∀ a, dims.get a ≤ 255) (hkey : key.valid dims) (hdir : dir = -1 ∨ dir = 1) :
    stepKey dims (stepKey dims key axis dir) axis (-dir) = key ∧
    (rangeBetween dims key (stepKey dims key axis dir)).get axis = dir ∧
    (∀ a, a ≠ axis → (rangeBetween dims key (stepKey dims key axis dir)).get a = 0) := by
  have hd := hdims axis
  obtain ⟨hr, hl⟩ := hkey axis
  unfold isInt16 INT16_MIN INT16_MAX at hr
  refine ⟨?_, ?_, ?_⟩
  · apply key_ext_get
    · intro a
      by_cases h : a = axis
      · subst h
        rw [stepKey_region_get, stepKey_local_get, stepKey_region_get]
        simp only [if_true]
        unfold toUInt8 toInt16
        rcases hdir with hdir | hdir <;> subst hdir <;> split_ifs <;> omega
      · simp only [stepKey_region_get, if_neg h]
    · intro a
      by_cases h : a = axis
      · subst h
        rw [stepKey_local_get, stepKey_local_get]
        simp only [if_true]
        unfold toUInt8
        rcases hdir with hdir | hdir <;> subst hdir <;> split_ifs <;> omega
      · simp only [stepKey_local_get, if_neg h]
  · rw [rangeBetween_get, stepKey_region_get, stepKey_local_get]
    simp only [if_true]
    rcases hdir with hdir | hdir <;> subst hdir
    · by_cases h1 : (key.localKey.get axis : Int) + -1 < 0
      · simp only [if_pos h1]
        have hreg : toInt16 (toInt16 (key.regionKey.get axis - 1) - key.regionKey.get axis)
            = -1 := by unfold toInt16; omega
        rw [hreg]; unfold toUInt8; omega
      · have h2 : ¬ ((key.localKey.get axis : Int) + -1 ≥ (dims.get axis : Int)) := by omega
        simp only [if_neg h1, if_neg h2]
        have hreg : toInt16 (toInt16 (key.regionKey.get axis) - key.regionKey.get axis) = 0 := by
          unfold toInt16; omega
        rw [hreg]; unfold toUInt8; omega
    · have h1 : ¬ ((key.localKey.get axis : Int) + 1 < 0) := by omega
      by_cases h2 : (key.localKey.get axis : Int) + 1 ≥ (dims.get axis : Int)
      · simp only [if_neg h1, if_pos h2]
        have hreg : toInt16 (toInt16 (key.regionKey.get axis + 1) - key.regionKey.get axis)
            = 1 := by unfold toInt16; omega
        rw [hreg]; unfold toUInt8; omega
      · simp only [if_neg h1, if_neg h2]
        have hreg : toInt16 (toInt16 (key.regionKey.get axis) - key.regionKey.get axis) = 0 := by
          unfold toInt16; omega
        rw [hreg]; unfold toUInt8; omega
  · intro a h
    rw [rangeBetween_get, stepKey_region_get, stepKey_local_get]
    simp only [if_neg h]
    have hreg : toInt16 (key.regionKey.get a - key.regionKey.get a) = 0 := by
      unfold toInt16; omega
    rw [hreg]; omega

/-- C29 witness: from the last voxel along `y` of region `(0, 7, -3)` a step
of `+1` enters region `(0, 8, -3)` and a step of `-1` comes back. -/
theorem stepKey_inverse_witness :
    (Key.mk3 0 7 (-3) 5 31 2).valid ⟨32, 32, 32⟩ ∧
    stepKey ⟨32, 32, 32⟩ (stepKey ⟨32, 32, 32⟩ (Key.mk3 0 7 (-3) 5 31 2) 1 1) 1 (-1)
      = Key.mk3 0 7 (-3) 5 31 2 ∧
    rangeBetween ⟨32, 32, 32⟩ (Key.mk3 0 7 (-3) 5 31 2)
      (stepKey ⟨32, 32, 32⟩ (Key.mk3 0 7 (-3) 5 31 2) 1 1) = ⟨0, 1, 0⟩ :=
  ⟨by intro a; fin_cases a <;> decide,
    (stepKey_inverse ⟨32, 32, 32⟩ (Key.mk3 0 7 (-3) 5 31 2) 1 1
      (by intro a; fin_cases a <;> decide)
      (by intro a; fin_cases a <;> decide) (Or.inr rfl)).1, by decide⟩


/-! ## What `decodeNormal` divides -/

/-- C23, evaluated: for the finite points `(0.5 - 2^-12, 0, 0)` and
`(0.5 + 2^-12, 0, 0)` of the grid map, a segment shorter than `1e-3` whose
ends lie in different regions, the computed length is zero and no number of
passes lets `walkRegions` return: after `fuel` passes its loop is still
running and the callback has been invoked `fuel` times. -/
theorem walkRegions_short_ray_unbounded (fuel : Nat) :
    gridLattice.regionKey shortRayStart ≠ gridLattice.regionKey shortRayEnd ∧
    (gridArith.dot (gridArith.vtoSingle (gridArith.vsub shortRayEnd shortRayStart))
      (gridArith.vtoSingle (gridArith.vsub shortRayEnd shortRayStart))).ge gridArith.oneMillionth
        = false ∧
    (walkRegions gridArith gridLattice shortRayStart shortRayEnd fuel).returned = false ∧
    (walkRegions gridArith gridLattice shortRayStart shortRayEnd fuel).keys.length = fuel := by
  have hsetup : walkSetup gridArith gridLattice shortRayStart shortRayEnd
      = ⟨⟨1, -1, -1⟩, ⟨.finite 0, .nan, .nan⟩, ⟨.finite 0, .nan, .nan⟩,
        ⟨.finite 0, .nan, .nan⟩⟩ := by decide
  have hstart : gridLattice.regionKey shortRayStart = ⟨0, 0, toInt16 0⟩ := by decide
  have hend : gridLattice.regionKey shortRayEnd = ⟨1, 0, 0⟩ := by decide
  have hwalk : walkRegions gridArith gridLattice shortRayStart shortRayEnd fuel
      = ⟨(List.range fuel).map (fun i : Nat => ⟨0, 0, toInt16 (0 - (i : Int))⟩), false⟩ := by
    unfold walkRegions
    rw [hsetup, hstart, hend, if_neg (by decide), walkLoop_nan_steps_z fuel 0]
  refine ⟨by decide, by decide, ?_, ?_⟩
  · rw [hwalk]
  · rw [hwalk]
    simp


/-! ## Empty batches of `SlamIOSource::run` -/

/-- C24, evaluated: with a sensor batch delta of `0.5` and samples taken from
`(1, 0, 0)`, the first pass of the population loop does not add the sample,
hands a batch without points to `batch_function`, evaluates
`timestamps.back()` on the empty vector and leaves the sample pending; every
further pass does the same, so with `batch_function` returning true `run`
does not return within any number of passes. -/
theorem run_hands_out_empty_batches (fuel : Nat) :
    populationStep gridArith optionsWithBatchDelta (fun _ => true)
        (pendingState [gridSample 11] [] false)
      = pendingState [gridSample 11] [emptyBatch] true ∧
    emptyBatch.timestamps = [] ∧ emptyBatch.sensor_and_samples = [] ∧
    run gridArith optionsWithBatchDelta true [gridSample 10, gridSample 11] (fun _ => true) fuel
      = none := by
  refine ⟨populationStep_pendingState _ _ _, rfl, rfl, ?_⟩
  have hloop : populationLoop gridArith optionsWithBatchDelta (fun _ => true)
      (gridSample 10).timestamp fuel
      { loader := [gridSample 11], sample := gridSample 10, point_pending := true, finish := false
        sensor_and_samples := [], colours := [], intensities := [], timestamps := []
        process_points_local := 0, processed_point_count := 0, batches := []
        back_of_empty := false } = none :=
    populationLoop_pendingState fuel [gridSample 11] [] false
  have hskip : skipToStart gridArith (gridSample 10).timestamp optionsWithBatchDelta.start_time
      [gridSample 11] (gridSample 10) = some (gridSample 10, [gridSample 11]) := by decide
  unfold run
  simp only [Bool.not_true, Bool.false_eq_true, if_false, hskip, hloop]

/-! ## Dirty regions -/

/-- C28: for a map of fewer than `2^32` chunks, `collectDirtyRegions` returns
the number of chunks whose dirty stamp is above `from_stamp`, the list grows by
that many entries, it holds its old entries and one pair of dirty stamp and
region coordinate for each such chunk, and if it was in ascending order of
stamp on entry it is so on return. -/
theorem collectDirtyRegions_collects {α : Type} (imp : MapStore α) (from_stamp : Nat)
    (regions : List (Nat × I16Vec3)) (hcount : imp.chunks.length < 4294967296) :
    (collectDirtyRegions imp from_stamp regions).1
      = imp.chunks.countP (fun chunk_ref => decide (chunk_ref.2.dirty_stamp > from_stamp)) ∧
    (collectDirtyRegions imp from_stamp regions).2.length
      = regions.length + (collectDirtyRegions imp from_stamp regions).1 ∧
    (collectDirtyRegions imp from_stamp regions).2.Perm
      (regions ++ dirtyPairs from_stamp imp.chunks) ∧
    (stampSorted regions → stampSorted (collectDirtyRegions imp from_stamp regions).2) := by
  have hle := List.countP_le_length
    (fun chunk_ref : I16Vec3 × MapChunk α => decide (chunk_ref.2.dirty_stamp > from_stamp))
    (l := imp.chunks)
  have h1 := collectDirtyLoop_count from_stamp imp.chunks (0, regions)
    (by simp only []; omega)
  obtain ⟨h2, h3⟩ := collectDirtyLoop_perm from_stamp imp.chunks (0, regions)
  simp only [Nat.zero_add] at h1
  refine ⟨h1, ?_, h2, h3⟩
  unfold collectDirtyRegions
  rw [h2.length_eq, h1, List.length_append]
  simp only [dirtyPairs, List.length_map, List.countP_eq_length_filter]

/-- C28 witness: of the chunks of `dirtyStore`, with stamps `4`, `9` and `6`,
the two above `5` are collected into an empty list in ascending order. -/
theorem collectDirtyRegions_collects_witness :
    dirtyStore.chunks.length < 4294967296 ∧
    collectDirtyRegions dirtyStore 5 [] = (2, [(6, ⟨2, 0, 0⟩), (9, ⟨1, 0, 0⟩)]) ∧
    (collectDirtyRegions dirtyStore 5 []).1
      = dirtyStore.chunks.countP (fun chunk_ref => decide (chunk_ref.2.dirty_stamp > 5)) :=
  ⟨by decide, by decide,
    (collectDirtyRegions_collects dirtyStore 5 [] (by decide)).1⟩


/-! ## Extents of the map -/

set_option maxRecDepth 16384 in
/-- C22, evaluated: for the map of three chunks at regions `(0, 0, 0)`,
`(1, 0, 0)` and `(2, 0, 0)`, `calculateExtents` returns true with a minimum
key in region `(-1, -1, -1)`, where no chunk is; the maximum key is in region
`(2, 0, 0)`.  For the map of one chunk at region `(-3, 0, 0)` the maximum key
is in region `(0, 0, 0)` and the minimum key in region `(-3, -1, -1)`.  The
initial values of the two region keys are `-1` and `0`. -/
theorem calculateExtents_keys_off :
    (calculateExtents gridArith smallStore gridLattice.origin
      gridLattice.region_spatial_dimensions gridNullKey).have_extents = true ∧
    (calculateExtents gridArith smallStore gridLattice.origin
      gridLattice.region_spatial_dimensions gridNullKey).min_key = ⟨⟨-1, -1, -1⟩, ⟨0, 0, 0⟩⟩ ∧
    (calculateExtents gridArith smallStore gridLattice.origin
      gridLattice.region_spatial_dimensions gridNullKey).max_key = ⟨⟨2, 0, 0⟩, ⟨1, 0, 0⟩⟩ ∧
    smallStore.chunks.map (fun chunk_ref => chunk_ref.2.region.coord)
      = [⟨0, 0, 0⟩, ⟨1, 0, 0⟩, ⟨2, 0, 0⟩] ∧
    (calculateExtents gridArith negativeStore gridLattice.origin
      gridLattice.region_spatial_dimensions gridNullKey).min_key = ⟨⟨-3, -1, -1⟩, ⟨0, 0, 0⟩⟩ ∧
    (calculateExtents gridArith negativeStore gridLattice.origin
      gridLattice.region_spatial_dimensions gridNullKey).max_key = ⟨⟨0, 0, 0⟩, ⟨1, 0, 0⟩⟩ ∧
    toInt16 65535 = -1 ∧
    calculateExtents gridArith { smallStore with chunks := [] } gridLattice.origin
      gridLattice.region_spatial_dimensions gridNullKey
      = ⟨false, gridLattice.origin, gridLattice.origin, gridNullKey, gridNullKey⟩ := by
  refine ⟨by decide, by decide, by decide, by decide, by decide, by decide, by decide, by decide⟩


/-! ## Nearest neighbours -/

/-- C25, evaluated: on a map without chunks and regions of `2 × 1 × 1`
voxels, a query with `kQfUnknownAsOccupied` set, whatever its near point,
radius, region and closest result so far, ends `regionNearestNeighboursCpu`
in the first pass of the innermost loop, where `*occupancy` is evaluated for
the argument of `voxel_occupied_func` with `occupancy` null; no voxel is
reported.  Without the flag the function returns `0` before the loops. -/
theorem regionNearestNeighboursCpu_null_occupancy (near_point : Vec3 (FloatVal Int))
    (search_radius : FloatVal Int) (region_key : I16Vec3) (closest : ClosestResult Int) :
    regionNearestNeighboursCpu gridArith (gridQueryMap []) ⟨near_point, search_radius, 1, [], []⟩
        region_key closest
      = .nullOccupancy ⟨near_point, search_radius, 1, [], []⟩ closest ∧
    regionNearestNeighboursCpu gridArith (gridQueryMap []) ⟨near_point, search_radius, 0, [], []⟩
        region_key closest
      = .returned 0 ⟨near_point, search_radius, 0, [], []⟩ closest := by
  have hcoords : regionVoxelCoords (gridQueryMap []).region_voxel_dimensions
      = [(0, 0, 0), (1, 0, 0)] := by decide
  have hset : ((1 : Nat) &&& (gridQueryMap []).kQfUnknownAsOccupied == 0) = false := by decide
  have hclear : ((0 : Nat) &&& (gridQueryMap []).kQfUnknownAsOccupied == 0) = true := by decide
  constructor
  · unfold regionNearestNeighboursCpu
    simp only [hcoords, hset]
    rfl
  · unfold regionNearestNeighboursCpu
    simp only [hclear]
    rfl

set_option maxRecDepth 16384 in
/-- C26, evaluated: `finishGpuOperation` on a query without results and one
result of range `1.0` read back from the GPU leaves one intersected voxel and
`closest.index = 1`, the size of `intersected_voxels` and not an index into
it, and the end of `onExecute` with `kQfNearestResult` reads out of bounds.
`regionNearestNeighboursCpu` on a region with one occupied voxel in range
leaves `closest.index = 0`. -/
theorem finishGpuOperation_closest_index_past_end :
    finishGpuOperation gridArith false [⟨⟨0, 0, 0⟩, ⟨0, 0, 0⟩, .finite gridOne⟩] (originQuery 2)
        ⟨0, gridArith.maxValue⟩
      = (1, ⟨⟨.finite 0, .finite 0, .finite 0⟩, .finite (2 * gridOne), 2,
          [⟨⟨0, 0, 0⟩, ⟨0, 0, 0⟩⟩], [.finite gridOne]⟩, ⟨1, .finite gridOne⟩) ∧
    onExecuteResults (gridQueryMap [])
        ⟨⟨.finite 0, .finite 0, .finite 0⟩, .finite (2 * gridOne), 2,
          [⟨⟨0, 0, 0⟩, ⟨0, 0, 0⟩⟩], [.finite gridOne]⟩ ⟨1, .finite gridOne⟩ = none ∧
    regionNearestNeighboursCpu gridArith (gridQueryMap smallStore.chunks) (originQuery 2)
        ⟨0, 0, 0⟩ ⟨0, gridArith.maxValue⟩
      = .returned 1
          ⟨⟨.finite 0, .finite 0, .finite 0⟩, .finite (2 * gridOne), 2,
            [⟨⟨0, 0, 0⟩, ⟨0, 0, 0⟩⟩], [.finite (gridOne / 4)]⟩ ⟨0, .finite (gridOne / 16)⟩ := by
  refine ⟨by decide, by decide, by decide⟩

/-- C27, evaluated: for regions of `64 × 32 × 32` voxels and `pushed = 32768`,
the count at which the first batch of `kGpuBatchSize` voxels is full, the
resume coordinates are `(0, 0, 8)`, the voxel of linear index `16384`; the
voxel of linear index `32768` is `(0, 0, 16)`.  The `z` coordinate divides by
`x * x` where the `x`-fastest order has `x * y`. -/
theorem resumeCoords_not_linear :
    32768 < voxelCount ⟨64, 32, 32⟩ ∧
    kGpuBatchSize = 32768 ∧
    resumeCoords ⟨64, 32, 32⟩ 32768 = ⟨0, 0, 8⟩ ∧
    linearVoxelIndex ⟨64, 32, 32⟩ (resumeCoords ⟨64, 32, 32⟩ 32768) = 16384 ∧
    linearVoxelIndex ⟨64, 32, 32⟩ ⟨0, 0, 16⟩ = 32768 := by
  refine ⟨by decide, by decide, by decide, by decide, by decide⟩


/-! ## Printing and parsing the NDT mode -/

/-- C30, evaluated: `operator<<` writes `none` for `kNone`, and `operator>>`
on these characters throws, since the word it accepts for `kNone` is `off`;
the words written for `kOccupancy` and `kTraversability` are read back as the
same modes. -/
theorem readNdtMode_writeNdtMode_none :
    writeNdtMode .kNone = "none" ∧
    readNdtMode (writeNdtMode .kNone) = .thrown "none" ∧
    readNdtMode "off" = .assigned .kNone ∧
    readNdtMode (writeNdtMode .kOccupancy) = .assigned .kOccupancy ∧
    readNdtMode (writeNdtMode .kTraversability) = .assigned .kTraversability := by
  refine ⟨by decide, by decide, by decide, by decide, by decide⟩


end ohm
